import Mathlib

/-!
# The Original Game: the game-loop engine of `src/app.js`

A shallow embedding of the engine core of `src/app.js` (class `TheOriginalGame`
with the entity classes `Player`, `Obstacle`, `PowerUp`, `Particle`) and the
properties its specification states about it.

Conventions of the embedding.

* JavaScript numbers are idealised as the elements of an ordered field `α`
  (exact arithmetic, no rounding).  `Math.sqrt`, the window size and the stream
  of `Math.random()` results are read from an environment `Env α`; the only
  non-finite value the engine can produce under exact arithmetic, the `0 / 0`
  of the magnet pull, is represented by `none` at the place where it arises.
* An object field that may be absent (`undefined`) or `null` is an `Option`.
* A method of `TheOriginalGame` is a function on the record `Game α` of the
  instance fields.  A method that can raise (a `TypeError` on a `null`
  dereference, the `SyntaxError` of `JSON.parse(undefined)`) returns
  `Except (Game α) (Game α)`: `.error g` carries the fields as they were when
  the exception left the method.
* Calls on the audio collaborator, the write to `localStorage` and the timers
  started with `setTimeout` are recorded in the fields `audio`, `storage` and
  `pendingInits`; the draws taken from `Math.random()` are counted in `randIx`.
* A modifier is an object with an identity.  Where it matters which object a
  reference leads to (the copies made by `selectModifier` and `initializeGame`),
  the state is a `RefGame α`: the fields together with the store of modifier
  objects and the references `this.selectedModifier` and `this.activeModifier`
  as positions in the store.  `RefGame.view` gives the fields as the program
  reads them through the references.
-/

namespace TheOriginalGame

/-! ## Data model -/

/-- The `effect` object of a modifier; every field is optional. -/
structure Effect (α : Type) where
  speed : Option α := none
  size : Option α := none
  pointMultiplier : Option α := none
  extraLives : Option Int := none
  magnetRange : Option α := none
  phaseCharges : Option Int := none
  timeDilation : Option Bool := none
deriving DecidableEq

/-- An entry of `MODIFIERS`. -/
structure Modifier (α : Type) where
  name : String
  description : String
  effect : Effect α
deriving DecidableEq

/-- The names of the entries of `POWER_UP_TYPES`; a power-up's `type` is always one of
these seven catalog entries. -/
inductive PowerUpType where
  | score | speed | shield | magnet | extraLife | slow | nuke
deriving DecidableEq, Repr

/-- The fields of class `Player`. -/
structure Player (α : Type) where
  x : α
  y : α
  size : α
  speed : α
  color : String
  hasShield : Bool
  hasMagnet : Bool
  hasSpeedBoost : Bool
  shieldTime : α
  magnetTime : α
  speedTime : α
deriving DecidableEq

/-- The fields of class `Obstacle`. -/
structure Obstacle (α : Type) where
  x : α
  y : α
  size : α
  color : String
  rotation : α
deriving DecidableEq

/-- The fields of class `PowerUp`. -/
structure PowerUp (α : Type) where
  x : α
  y : α
  size : α
  type : PowerUpType
  color : String
  pulse : α
deriving DecidableEq

/-- The fields of class `Particle`. -/
structure Particle (α : Type) where
  x : α
  y : α
  color : String
  maxLife : α
  life : α
  vx : α
  vy : α
  size : α
deriving DecidableEq

/-- The values of `gameState`. -/
inductive GameState where
  | start | modifiers | playing | gameOver
deriving DecidableEq, Repr

/-- The values of `performanceLevel`. -/
inductive PerformanceLevel where
  | low | medium | high
deriving DecidableEq, Repr

/-- A call on the audio collaborator: `playTheme(name)` or `playSFX(name)`. -/
inductive Cue where
  | theme (name : String)
  | sfx (name : String)
deriving DecidableEq, Repr

/-- The keyboard and touch input read by `Player.update`. -/
structure Input (α : Type) where
  keyW : Bool := false
  arrowUp : Bool := false
  keyS : Bool := false
  arrowDown : Bool := false
  keyA : Bool := false
  arrowLeft : Bool := false
  keyD : Bool := false
  arrowRight : Bool := false
  joystick : α × α
  drag : α × α

/-- What the engine reads from its surroundings: `Math.sqrt` (the exact non-negative
root), `window.innerWidth`, `window.innerHeight` and the successive results of
`Math.random()` (each in `[0, 1)`). -/
structure Env (α : Type) [LinearOrderedField α] where
  sqrt : α → α
  innerWidth : α
  innerHeight : α
  random : Nat → α
  random_nonneg : ∀ n, 0 ≤ random n
  random_lt_one : ∀ n, random n < 1
  sqrt_nonneg : ∀ s, 0 ≤ sqrt s
  sqrt_mul_self : ∀ s, 0 ≤ s → sqrt s * sqrt s = s

/-- The instance fields of `TheOriginalGame`, with the contents of the global `MODIFIERS`
array (`catalog`) and the record of outward calls.  `currentModifiers` holds references
to catalog objects, represented by their positions in `catalog`. -/
structure Game (α : Type) where
  gameState : GameState
  score : α
  highScore : α
  lives : Int
  gameSpeed : α
  currentSpeed : α
  timeScale : α
  slowTime : α
  useVirtualJoystick : Bool
  performanceLevel : PerformanceLevel
  catalog : List (Modifier α)
  currentModifiers : List Nat
  selectedModifier : Option (Modifier α)
  activeModifier : Option (Modifier α)
  player : Option (Player α)
  obstacles : List (Obstacle α)
  powerUps : List (PowerUp α)
  particles : List (Particle α)
  lastTime : α
  frameCount : Nat
  audio : List Cue
  storage : Option α
  pendingInits : Nat
  randIx : Nat

/-! ## Catalogs and JavaScript helpers -/

section Definitions

variable {α : Type} [LinearOrderedField α] [FloorRing α]

/-- The expression `v || d` for an optional number: `d` when `v` is absent or `0`. -/
def orElse (v : Option α) (d : α) : α :=
  match v with
  | some x => if x = 0 then d else x
  | none => d

/-- Truthiness of an optional number, as tested by `if (v)` and `a || v`. -/
def truthy (v : Option α) : Bool :=
  match v with
  | some x => decide (x ≠ 0)
  | none => false

/-- The global array `MODIFIERS`. -/
def MODIFIERS : List (Modifier α) :=
  [ { name := "Speed Demon", description := "50% faster movement speed",
      effect := { speed := some (3 / 2) } },
    { name := "Giant Mode", description := "2x larger but 2x points",
      effect := { size := some 2, pointMultiplier := some 2 } },
    { name := "Tiny Mode", description := "0.5x size, 25% faster",
      effect := { size := some (1 / 2), speed := some (5 / 4) } },
    { name := "Shield Bearer", description := "Start with 1 extra life",
      effect := { extraLives := some 1 } },
    { name := "Point Multiplier", description := "All points worth 2x",
      effect := { pointMultiplier := some 2 } },
    { name := "Magnet", description := "Attract power-ups from further away",
      effect := { magnetRange := some 2 } },
    { name := "Phase Walker", description := "Pass through 1 obstacle per run",
      effect := { phaseCharges := some 1 } },
    { name := "Time Dilator", description := "Slow time when near obstacles",
      effect := { timeDilation := some true } } ]

/-- The global array `POWER_UP_TYPES`, by name. -/
def POWER_UP_TYPES : List PowerUpType :=
  [.score, .speed, .shield, .magnet, .extraLife, .slow, .nuke]

/-- The `color` field of an entry of `POWER_UP_TYPES`. -/
def PowerUpType.color : PowerUpType → String
  | .score => "#FFD700"
  | .speed => "#00FF00"
  | .shield => "#00FFFF"
  | .magnet => "#FF69B4"
  | .extraLife => "#FFA500"
  | .slow => "#8A2BE2"
  | .nuke => "#FF4500"

/-- The `points` field of an entry of `POWER_UP_TYPES`.  Only "score" has one, and
`collectPowerUp` reads it for that entry only; `0` stands for the absent field. -/
def PowerUpType.points : PowerUpType → α
  | .score => 100
  | _ => 0

/-- The `duration` field of an entry of `POWER_UP_TYPES`.  `collectPowerUp` reads it for
the four entries that have one; `0` stands for the absent field. -/
def PowerUpType.duration : PowerUpType → α
  | .speed => 3000
  | .shield => 5000
  | .magnet => 4000
  | .slow => 4000
  | _ => 0

/-- The deep copy `JSON.parse(JSON.stringify(m))` of a modifier object: a fresh object
with the same fields (absent fields stay absent). -/
def jsonCopy (m : Modifier α) : Modifier α :=
  { name := m.name
    description := m.description
    effect :=
      { speed := m.effect.speed
        size := m.effect.size
        pointMultiplier := m.effect.pointMultiplier
        extraLives := m.effect.extraLives
        magnetRange := m.effect.magnetRange
        phaseCharges := m.effect.phaseCharges
        timeDilation := m.effect.timeDilation } }

/-! ## Entity classes -/

/-- The constructor `new Player(x, y, modifier)`. -/
def Player.new (x y : α) (modifier : Modifier α) : Player α :=
  { x := x
    y := y
    size := 20 * orElse modifier.effect.size 1
    speed := 5 * orElse modifier.effect.speed 1
    color := "#00BFFF"
    hasShield := false
    hasMagnet := false
    hasSpeedBoost := false
    shieldTime := 0
    magnetTime := 0
    speedTime := 0 }

/-- The method `Player.update(deltaTime, keys, canvas, touchInput, useVirtualJoystick)`. -/
def Player.update (env : Env α) (p : Player α) (deltaTime : α) (inp : Input α)
    (useVirtualJoystick : Bool) : Player α :=
  let dx : α := 0
  let dy : α := 0
  let dy := if inp.keyW || inp.arrowUp then dy - 1 else dy
  let dy := if inp.keyS || inp.arrowDown then dy + 1 else dy
  let dx := if inp.keyA || inp.arrowLeft then dx - 1 else dx
  let dx := if inp.keyD || inp.arrowRight then dx + 1 else dx
  let dx := if useVirtualJoystick then dx + inp.joystick.1 else dx + inp.drag.1 * (1 / 10)
  let dy := if useVirtualJoystick then dy + inp.joystick.2 else dy + inp.drag.2 * (1 / 10)
  let magnitude := env.sqrt (dx * dx + dy * dy)
  let dx := if magnitude > 1 then dx / magnitude else dx
  let dy := if magnitude > 1 then dy / magnitude else dy
  let moveSpeed := if p.hasSpeedBoost then p.speed * (3 / 2) else p.speed
  let x := p.x + dx * moveSpeed * (deltaTime / 16)
  let y := p.y + dy * moveSpeed * (deltaTime / 16)
  let x := max p.size (min (env.innerWidth - p.size) x)
  let y := max p.size (min (env.innerHeight - p.size) y)
  let shieldTime := max 0 (p.shieldTime - deltaTime)
  let magnetTime := max 0 (p.magnetTime - deltaTime)
  let speedTime := max 0 (p.speedTime - deltaTime)
  { p with
    x := x
    y := y
    shieldTime := shieldTime
    magnetTime := magnetTime
    speedTime := speedTime
    hasShield := decide (shieldTime > 0)
    hasMagnet := decide (magnetTime > 0)
    hasSpeedBoost := decide (speedTime > 0) }

/-- The test `Math.sqrt(dx * dx + dy * dy) < (this.size + size) / 2` of
`Player.collidesWith(obj)`, for an object at `(x, y)` of the given `size`. -/
def Player.collidesAt (env : Env α) (p : Player α) (x y size : α) : Bool :=
  let dx := p.x - x
  let dy := p.y - y
  let distance := env.sqrt (dx * dx + dy * dy)
  decide (distance < (p.size + size) / 2)

/-- The method `Player.collidesWith(obj)` on an obstacle. -/
def Player.collidesWith (env : Env α) (p : Player α) (obj : Obstacle α) : Bool :=
  p.collidesAt env obj.x obj.y obj.size

/-- The method `Player.collidesWith(obj)` on a power-up. -/
def Player.collidesWithPowerUp (env : Env α) (p : Player α) (obj : PowerUp α) : Bool :=
  p.collidesAt env obj.x obj.y obj.size

/-- The method `Player.activateShield(duration)`. -/
def Player.activateShield (p : Player α) (duration : α) : Player α :=
  { p with shieldTime := duration }

/-- The method `Player.activateMagnet(duration)`. -/
def Player.activateMagnet (p : Player α) (duration : α) : Player α :=
  { p with magnetTime := duration }

/-- The method `Player.activateSpeedBoost(duration)`. -/
def Player.activateSpeedBoost (p : Player α) (duration : α) : Player α :=
  { p with speedTime := duration }

/-- The constructor `new Obstacle(x, y, size)`. -/
def Obstacle.new (x y size : α) : Obstacle α :=
  { x := x, y := y, size := size, color := "#FF4500", rotation := 0 }

/-- The method `Obstacle.update(deltaTime, speed)`. -/
def Obstacle.update (o : Obstacle α) (deltaTime speed : α) : Obstacle α :=
  { o with
    x := o.x - speed * (deltaTime / 16)
    rotation := o.rotation + 1 / 50 * deltaTime }

/-- The constructor `new PowerUp(x, y, type)`. -/
def PowerUp.new (x y : α) (type : PowerUpType) : PowerUp α :=
  { x := x, y := y, size := 15, type := type, color := type.color, pulse := 0 }

/-- The method `PowerUp.update(deltaTime, speed)`. -/
def PowerUp.update (u : PowerUp α) (deltaTime speed : α) : PowerUp α :=
  { u with
    x := u.x - speed * (deltaTime / 16)
    pulse := u.pulse + 1 / 200 * deltaTime }

/-- The constructor `new Particle(x, y, color, life, explosion)`; `r0`, `r1`, `r2` are the
three results of `Math.random()` it consumes, in order. -/
def Particle.new (x y : α) (color : String) (life : α) (explosion : Bool) (r0 r1 r2 : α) :
    Particle α :=
  { x := x
    y := y
    color := color
    maxLife := life
    life := life
    vx := if explosion then (r0 - 1 / 2) * 4 else (r0 - 1 / 2) * 2
    vy := if explosion then (r1 - 1 / 2) * 4 else (r1 - 1 / 2) * 2
    size := r2 * 3 + 1 }

/-- The method `Particle.update(deltaTime)`. -/
def Particle.update (q : Particle α) (deltaTime : α) : Particle α :=
  { q with
    x := q.x + q.vx * (deltaTime / 16)
    y := q.y + q.vy * (deltaTime / 16)
    life := q.life - deltaTime
    vx := q.vx * (99 / 100)
    vy := q.vy * (99 / 100) }

/-! ## Methods of `TheOriginalGame` -/

/-- One call of `Math.random()`: the next value of the stream, and the draw counted. -/
def random (env : Env α) (g : Game α) : α × Game α :=
  (env.random g.randIx, { g with randIx := g.randIx + 1 })

/-- The call `this.audioSystem.playTheme(name)`. -/
def playTheme (name : String) (g : Game α) : Game α :=
  { g with audio := g.audio ++ [Cue.theme name] }

/-- The call `this.audioSystem.playSFX(name)`. -/
def playSFX (name : String) (g : Game α) : Game α :=
  { g with audio := g.audio ++ [Cue.sfx name] }

/-- The method `generateModifierOptions()`.  `shuffled` lists the catalog positions in
the order in which the randomised sort of `[...MODIFIERS]` leaves them. -/
def generateModifierOptions (shuffled : List Nat) (g : Game α) : Game α :=
  { g with currentModifiers := shuffled.take 3 }

/-- The method `startGame()`, from the point where `resumeAudio()` has resolved. -/
def startGame (shuffled : List Nat) (g : Game α) : Game α :=
  let g := { g with gameState := GameState.modifiers }
  let g := generateModifierOptions shuffled g
  playSFX "select" g

/-- The element `this.currentModifiers[index]`: `none` is `undefined`. -/
def currentModifier (g : Game α) (index : Int) : Option (Modifier α) :=
  if 0 ≤ index then
    (g.currentModifiers[index.toNat]?).bind fun r => g.catalog[r]?
  else none

/-- The method `selectModifier(index)`.  `JSON.stringify(undefined)` is `undefined` and
`JSON.parse(undefined)` raises a `SyntaxError`, before anything is assigned. -/
def selectModifier (g : Game α) (index : Int) : Except (Game α) (Game α) :=
  match currentModifier g index with
  | none => .error g
  | some m =>
    let g := { g with selectedModifier := some (jsonCopy m) }
    let g := playSFX "select" g
    .ok { g with pendingInits := g.pendingInits + 1 }

/-- The method `applyModifier()`. -/
def applyModifier (g : Game α) : Except (Game α) (Game α) :=
  match g.activeModifier with
  | none => .error g
  | some m =>
    match m.effect.extraLives with
    | some n => if n ≠ 0 then .ok { g with lives := g.lives + n } else .ok g
    | none => .ok g

/-- The method `initializeGame()`. -/
def initializeGame (env : Env α) (g : Game α) : Except (Game α) (Game α) :=
  let g := { g with gameState := GameState.playing }
  let g := playTheme "game" g
  let g := playSFX "start" g
  let g := { g with
    score := 0
    lives := 1
    gameSpeed := 2
    timeScale := 1
    obstacles := []
    powerUps := []
    particles := [] }
  let g := { g with activeModifier := g.selectedModifier.map jsonCopy }
  (applyModifier g).bind fun g =>
    match g.activeModifier with
    | none => .error g
    | some m => .ok { g with player := some (Player.new 100 (env.innerHeight / 2) m) }

/-- The method `restartGame()`. -/
def restartGame (g : Game α) : Game α :=
  let g := { g with gameState := GameState.start }
  playTheme "ambient" g

/-- The method `addParticle(x, y, color, life)`. -/
def addParticle (env : Env α) (x y : α) (color : String) (life : α) (g : Game α) : Game α :=
  let (r0, g) := random env g
  let (r1, g) := random env g
  let (r2, g) := random env g
  { g with particles := g.particles ++ [Particle.new x y color life false r0 r1 r2] }

/-- The body of the loop of `addExplosion`, run `n` times. -/
def addExplosionLoop (env : Env α) (x y : α) (color : String) : Nat → Game α → Game α
  | 0, g => g
  | n + 1, g =>
    let (r0, g) := random env g
    let (r1, g) := random env g
    let (r2, g) := random env g
    addExplosionLoop env x y color n
      { g with particles := g.particles ++ [Particle.new x y color 1000 true r0 r1 r2] }

/-- The method `addExplosion(x, y, color)`. -/
def addExplosion (env : Env α) (x y : α) (color : String) (g : Game α) : Game α :=
  let particleCount := if g.performanceLevel = PerformanceLevel.low then 5 else 10
  addExplosionLoop env x y color particleCount g

/-- The method `gameOver()`. -/
def gameOver (g : Game α) : Except (Game α) (Game α) :=
  let g := { g with gameState := GameState.gameOver }
  let g := playTheme "gameOver" g
  let g :=
    if g.score > g.highScore then
      { g with highScore := g.score, storage := some g.score }
    else g
  match g.activeModifier with
  | none => .error g
  | some _ => .ok g

/-- The method `spawnObstacle()`. -/
def spawnObstacle (env : Env α) (g : Game α) : Game α :=
  let (r0, g) := random env g
  let size := 30 + r0 * 40
  let (r1, g) := random env g
  let y := r1 * (env.innerHeight - size)
  { g with obstacles := g.obstacles ++ [Obstacle.new env.innerWidth y size] }

/-- The method `spawnPowerUp()`.  An index outside `POWER_UP_TYPES` would make the
constructor read `undefined.color`. -/
def spawnPowerUp (env : Env α) (g : Game α) : Except (Game α) (Game α) :=
  let (r0, g) := random env g
  let i : Int := ⌊r0 * (POWER_UP_TYPES.length : α)⌋
  let (r1, g) := random env g
  let y := r1 * (env.innerHeight - 40)
  match (if 0 ≤ i then POWER_UP_TYPES[i.toNat]? else none) with
  | none => .error g
  | some type => .ok { g with powerUps := g.powerUps ++ [PowerUp.new env.innerWidth y type] }

/-- The method `updateTimeDilation()`.  The callback of `this.obstacles.forEach` reads
`this.player`, so a `null` player raises as soon as there is an obstacle. -/
def updateTimeDilation (env : Env α) (g : Game α) : Except (Game α) (Game α) :=
  let dilationDistance : α := 150
  match g.obstacles, g.player with
  | [], _ => .ok { g with timeScale := 1 }
  | _ :: _, none => .error g
  | obstacles, some p =>
    let nearObstacle := obstacles.any fun obstacle =>
      let dx := p.x - obstacle.x
      let dy := p.y - obstacle.y
      let distance := env.sqrt (dx * dx + dy * dy)
      decide (distance < dilationDistance)
    .ok { g with timeScale := if nearObstacle then 3 / 10 else 1 }

/-- The callback of `this.powerUps.forEach` in `updateGameObjects`, for a player `p` and an
active modifier `m`: the power-up after `update` and the magnet pull.  The result is
`none` when the pull divides `0` by `0`: both coordinates are then `NaN`. -/
def magnetStep (env : Env α) (p : Player α) (m : Modifier α) (scaledDelta speed : α)
    (powerUp : PowerUp α) : Option (PowerUp α) :=
  let powerUp := powerUp.update scaledDelta speed
  if p.hasMagnet || truthy m.effect.magnetRange then
    let dx := p.x - powerUp.x
    let dy := p.y - powerUp.y
    let distance := env.sqrt (dx * dx + dy * dy)
    let magnetRange := orElse m.effect.magnetRange 1 * 150
    if distance < magnetRange then
      if distance = 0 then none
      else some { powerUp with
        x := powerUp.x + dx / distance * 2
        y := powerUp.y + dy / distance * 2 }
    else some powerUp
  else some powerUp

/-- The method `updateGameObjects(scaledDelta, speed)`.  With a power-up in the list the
callback reads `this.player` and `this.activeModifier` right after updating the first
one.  A power-up whose coordinates became `NaN` fails the test `x > -100` of the filter
that follows and is dropped there. -/
def updateGameObjects (env : Env α) (scaledDelta speed : α) (g : Game α) :
    Except (Game α) (Game α) :=
  let g := { g with
    obstacles := (g.obstacles.map fun (o : Obstacle α) => o.update scaledDelta speed).filter
      fun o => decide (o.x > -100) }
  match g.powerUps, g.player, g.activeModifier with
  | u :: rest, none, _ => .error { g with powerUps := u.update scaledDelta speed :: rest }
  | u :: rest, some _, none => .error { g with powerUps := u.update scaledDelta speed :: rest }
  | powerUps, player, activeModifier =>
    let moved : List (PowerUp α) :=
      match player, activeModifier with
      | some p, some m => powerUps.filterMap (magnetStep env p m scaledDelta speed)
      | _, _ => powerUps
    let g := { g with powerUps := moved.filter fun u => decide (u.x > -100) }
    .ok { g with
      particles := (g.particles.map fun (q : Particle α) => q.update scaledDelta).filter
        fun q => decide (q.life > 0) }

/-- The call `arr.forEach(callback)` on the array held in the field `arr` of the game,
which the callback may shorten with `splice`.  As in ECMAScript, the positions
`k = 0, 1, ...` below the length the array had at the start are visited in order, and a
position that is no longer present when its turn comes is skipped.  `forEachFrom n k`
visits the `n` positions from `k` on. -/
def forEachFrom {β : Type} (arr : Game α → List β)
    (callback : β → Nat → Game α → Except (Game α) (Game α)) :
    Nat → Nat → Game α → Except (Game α) (Game α)
  | 0, _, g => .ok g
  | n + 1, k, g =>
    match (arr g)[k]? with
    | none => forEachFrom arr callback n (k + 1) g
    | some b => (callback b k g).bind (forEachFrom arr callback n (k + 1))

/-- The call `arr.forEach(callback)`. -/
def forEach {β : Type} (arr : Game α → List β)
    (callback : β → Nat → Game α → Except (Game α) (Game α)) (g : Game α) :
    Except (Game α) (Game α) :=
  forEachFrom arr callback (arr g).length 0 g

/-- The callback of `this.obstacles.forEach` in `checkCollisions`. -/
def obstacleCallback (env : Env α) (obstacle : Obstacle α) (index : Nat) (g : Game α) :
    Except (Game α) (Game α) :=
  match g.player with
  | none => .error g
  | some p =>
    if p.collidesWith env obstacle then
      if p.hasShield then
        let g := { g with obstacles := g.obstacles.eraseIdx index }
        .ok (addExplosion env obstacle.x obstacle.y "#00FFFF" g)
      else
        match g.activeModifier with
        | none => .error g
        | some m =>
          if (match m.effect.phaseCharges with
              | some c => decide (c > 0)
              | none => false) then
            let g := { g with activeModifier := some { m with effect := { m.effect with
              phaseCharges := m.effect.phaseCharges.map fun c => c - 1 } } }
            let g := { g with obstacles := g.obstacles.eraseIdx index }
            .ok (addExplosion env obstacle.x obstacle.y "#FFD700" g)
          else
            let g := { g with lives := g.lives - 1 }
            let g := { g with obstacles := g.obstacles.eraseIdx index }
            let g := addExplosion env obstacle.x obstacle.y "#FF4500" g
            let g := playSFX "obstacle" g
            if g.lives ≤ 0 then gameOver g else .ok g
    else .ok g

/-- The method `collectPowerUp(powerUp)`. -/
def collectPowerUp (env : Env α) (powerUp : PowerUp α) (g : Game α) :
    Except (Game α) (Game α) :=
  match g.activeModifier with
  | none => .error g
  | some m =>
    let multiplier := orElse m.effect.pointMultiplier 1
    match powerUp.type with
    | .score => .ok { g with score := g.score + powerUp.type.points * multiplier }
    | .speed =>
      match g.player with
      | none => .error g
      | some p => .ok { g with player := some (p.activateSpeedBoost powerUp.type.duration) }
    | .shield =>
      match g.player with
      | none => .error g
      | some p => .ok { g with player := some (p.activateShield powerUp.type.duration) }
    | .magnet =>
      match g.player with
      | none => .error g
      | some p => .ok { g with player := some (p.activateMagnet powerUp.type.duration) }
    | .extraLife => .ok { g with lives := g.lives + 1 }
    | .slow => .ok { g with slowTime := powerUp.type.duration }
    | .nuke =>
      let g := g.obstacles.foldl (fun g ob => addExplosion env ob.x ob.y "#FF4500" g) g
      .ok { g with obstacles := [] }

/-- The callback of `this.powerUps.forEach` in `checkCollisions`. -/
def powerUpCallback (env : Env α) (powerUp : PowerUp α) (index : Nat) (g : Game α) :
    Except (Game α) (Game α) :=
  match g.player with
  | none => .error g
  | some p =>
    if p.collidesWithPowerUp env powerUp then
      (collectPowerUp env powerUp g).bind fun g =>
        let g := { g with powerUps := g.powerUps.eraseIdx index }
        let g := addExplosion env powerUp.x powerUp.y powerUp.color g
        .ok (playSFX "powerup" g)
    else .ok g

/-- The first statement of `checkCollisions()`: the pass over the obstacles. -/
def checkObstacleCollisions (env : Env α) (g : Game α) : Except (Game α) (Game α) :=
  forEach (fun g => g.obstacles) (obstacleCallback env) g

/-- The second statement of `checkCollisions()`: the pass over the power-ups. -/
def checkPowerUpCollisions (env : Env α) (g : Game α) : Except (Game α) (Game α) :=
  forEach (fun g => g.powerUps) (powerUpCallback env) g

/-- The method `checkCollisions()`. -/
def checkCollisions (env : Env α) (g : Game α) : Except (Game α) (Game α) :=
  (checkObstacleCollisions env g).bind (checkPowerUpCollisions env)

/-- The method `update(deltaTime)`. -/
def update (env : Env α) (inp : Input α) (deltaTime : α) (g : Game α) :
    Except (Game α) (Game α) :=
  let scaledDelta := deltaTime * g.timeScale
  let g := if g.slowTime > 0 then { g with slowTime := max 0 (g.slowTime - scaledDelta) } else g
  let speedFactor : α := if g.slowTime > 0 then 1 / 2 else 1
  let g := { g with currentSpeed := g.gameSpeed * speedFactor }
  match g.player with
  | none => .error g
  | some p =>
  let g := { g with player := some (p.update env scaledDelta inp g.useVirtualJoystick) }
  match g.activeModifier with
  | none => .error g
  | some m =>
  (if m.effect.timeDilation = some true then updateTimeDilation env g else .ok g).bind fun g =>
  let obstacleRate : α := if g.performanceLevel = PerformanceLevel.low then 15 / 1000 else 2 / 100
  let (r, g) := random env g
  let g := if r < obstacleRate * (scaledDelta / 16) then spawnObstacle env g else g
  let (r, g) := random env g
  (if r < 5 / 1000 * (scaledDelta / 16) then spawnPowerUp env g else .ok g).bind fun g =>
  (updateGameObjects env scaledDelta g.currentSpeed g).bind fun g =>
  let maxParticles : Nat := if g.performanceLevel = PerformanceLevel.low then 50 else 200
  let g :=
    if g.particles.length > maxParticles then
      { g with particles := g.particles.drop (g.particles.length - maxParticles) }
    else g
  let (r, g) := random env g
  (if r < (if g.performanceLevel = PerformanceLevel.low then 1 / 10 else 3 / 10) then
      match g.player with
      | none => Except.error g
      | some p => Except.ok (addParticle env (p.x - p.size / 2) p.y "#00BFFF" 500 g)
    else Except.ok g).bind fun g =>
  (checkCollisions env g).bind fun g =>
  let g := { g with gameSpeed := g.gameSpeed + 5 / 10000 * scaledDelta }
  match g.activeModifier with
  | none => .error g
  | some m =>
    .ok { g with
      score := g.score + ((⌊1 / 10 * scaledDelta * orElse m.effect.pointMultiplier 1⌋ : Int) : α) }

/-- The method `gameLoop(currentTime)`, up to the request for the next frame. -/
def gameLoop (env : Env α) (inp : Input α) (currentTime : α) (g : Game α) :
    Except (Game α) (Game α) :=
  let deltaTime := min (currentTime - g.lastTime) 32
  let g := { g with lastTime := currentTime, frameCount := g.frameCount + 1 }
  if g.gameState = GameState.playing then update env inp deltaTime g else .ok g

/-- The timer started by `selectModifier` fires: `initializeGame()` runs. -/
def fireTimer (env : Env α) (g : Game α) : Except (Game α) (Game α) :=
  if g.pendingInits = 0 then .ok g
  else initializeGame env { g with pendingInits := g.pendingInits - 1 }

/-- The state the constructor of `TheOriginalGame` leaves, for a stored high score
`highScore` (`0` when nothing is stored) and the detected performance level. -/
def Game.initial (highScore : α) (level : PerformanceLevel) : Game α :=
  { gameState := GameState.start
    score := 0
    highScore := highScore
    lives := 1
    gameSpeed := 2
    currentSpeed := 2
    timeScale := 1
    slowTime := 0
    useVirtualJoystick := false
    performanceLevel := level
    catalog := MODIFIERS
    currentModifiers := []
    selectedModifier := none
    activeModifier := none
    player := none
    obstacles := []
    powerUps := []
    particles := []
    lastTime := 0
    frameCount := 0
    audio := []
    storage := none
    pendingInits := 0
    randIx := 0 }

/-! ## Auxiliary definitions used to state the properties -/

/-- The fields a method leaves behind, whether it returned or raised. -/
def final (r : Except (Game α) (Game α)) : Game α :=
  match r with
  | .ok g => g
  | .error g => g

/-- The particles `addExplosion(x, y, color)` appends when `n` are asked for and the next
draw of `Math.random()` is number `start`. -/
def burst (env : Env α) (x y : α) (color : String) : Nat → Nat → List (Particle α)
  | _, 0 => []
  | start, n + 1 =>
    Particle.new x y color 1000 true (env.random start) (env.random (start + 1))
      (env.random (start + 2)) :: burst env x y color (start + 3) n

/-- The number of particles of one explosion: the `particleCount` of `addExplosion`. -/
def particleCount (g : Game α) : Nat :=
  if g.performanceLevel = PerformanceLevel.low then 5 else 10

/-- How many times `gameOver()` has run: it calls `playTheme('gameOver')` once per run,
and nothing else plays that theme. -/
def gameOverCalls (g : Game α) : Nat :=
  g.audio.count (Cue.theme "gameOver")

/-- The squared Euclidean distance between two points. -/
def distSq (x1 y1 x2 y2 : α) : α :=
  (x1 - x2) * (x1 - x2) + (y1 - y2) * (y1 - y2)

/-- The operations that drive the game: the start action, the choice of a modifier card,
the firing of a timer started by that choice, the restart action and an animation
frame. -/
inductive Op (α : Type) [LinearOrderedField α] where
  | startGame (shuffled : List Nat)
  | selectModifier (index : Int)
  | fireTimer (env : Env α)
  | restartGame
  | frame (env : Env α) (inp : Input α) (currentTime : α)

/-- The effect of one operation. -/
def step (op : Op α) (g : Game α) : Except (Game α) (Game α) :=
  match op with
  | .startGame shuffled => .ok (startGame shuffled g)
  | .selectModifier index => selectModifier g index
  | .fireTimer env => fireTimer env g
  | .restartGame => .ok (restartGame g)
  | .frame env inp currentTime => gameLoop env inp currentTime g

/-- The fields after a sequence of operations; an operation that raises leaves the fields
as they were when it raised, and the next one goes on from there. -/
def run (ops : List (Op α)) (g : Game α) : Game α :=
  ops.foldl (fun g op => final (step op g)) g

/-! ### The parts of `update`

`update` is one method in the source; the parts below are its successive statements, each
taking the `scaledDelta` computed by the first statement.  `update_eq_stages` shows that
`update` is their composition. -/

/-- Part of `update`: the decay of `slowTime` and the choice of `currentSpeed`. -/
def updateTimers (scaledDelta : α) (g : Game α) : Game α :=
  let g := if g.slowTime > 0 then { g with slowTime := max 0 (g.slowTime - scaledDelta) } else g
  let speedFactor : α := if g.slowTime > 0 then 1 / 2 else 1
  { g with currentSpeed := g.gameSpeed * speedFactor }

/-- Part of `update`: the call of `this.player.update`. -/
def updatePlayer (env : Env α) (inp : Input α) (scaledDelta : α) (g : Game α) :
    Except (Game α) (Game α) :=
  match g.player with
  | none => .error g
  | some p =>
    .ok { g with player := some (p.update env scaledDelta inp g.useVirtualJoystick) }

/-- Part of `update`: the time-dilation step. -/
def updateDilation (env : Env α) (g : Game α) : Except (Game α) (Game α) :=
  match g.activeModifier with
  | none => .error g
  | some m => if m.effect.timeDilation = some true then updateTimeDilation env g else .ok g

/-- Part of `update`: the obstacle spawn trial. -/
def obstacleTrial (env : Env α) (scaledDelta : α) (g : Game α) : Game α :=
  let obstacleRate : α := if g.performanceLevel = PerformanceLevel.low then 15 / 1000 else 2 / 100
  let (r, g) := random env g
  if r < obstacleRate * (scaledDelta / 16) then spawnObstacle env g else g

/-- Part of `update`: the power-up spawn trial. -/
def powerUpTrial (env : Env α) (scaledDelta : α) (g : Game α) : Except (Game α) (Game α) :=
  let (r, g) := random env g
  if r < 5 / 1000 * (scaledDelta / 16) then spawnPowerUp env g else .ok g

/-- Part of `update`: the particle limit. -/
def capParticles (g : Game α) : Game α :=
  let maxParticles : Nat := if g.performanceLevel = PerformanceLevel.low then 50 else 200
  if g.particles.length > maxParticles then
    { g with particles := g.particles.drop (g.particles.length - maxParticles) }
  else g

/-- Part of `update`: the trail particle. -/
def emitTrail (env : Env α) (g : Game α) : Except (Game α) (Game α) :=
  let (r, g) := random env g
  if r < (if g.performanceLevel = PerformanceLevel.low then 1 / 10 else 3 / 10) then
    match g.player with
    | none => Except.error g
    | some p => Except.ok (addParticle env (p.x - p.size / 2) p.y "#00BFFF" 500 g)
  else Except.ok g

/-- Part of `update`: the difficulty ramp and the score. -/
def updateScore (scaledDelta : α) (g : Game α) : Except (Game α) (Game α) :=
  let g := { g with gameSpeed := g.gameSpeed + 5 / 10000 * scaledDelta }
  match g.activeModifier with
  | none => .error g
  | some m =>
    .ok { g with
      score := g.score + ((⌊1 / 10 * scaledDelta * orElse m.effect.pointMultiplier 1⌋ : Int) : α) }

/-- What a frame never lowers or touches: the high score does not decrease, and the
catalog, the offered modifiers, the selected modifier, the performance level and the
pending timers are the same in `g1` as in `g`. -/
def TickStable (g g1 : Game α) : Prop :=
  g.highScore ≤ g1.highScore ∧ g1.catalog = g.catalog ∧
  g1.currentModifiers = g.currentModifiers ∧ g1.selectedModifier = g.selectedModifier ∧
  g1.performanceLevel = g.performanceLevel ∧ g1.pendingInits = g.pendingInits

/-- The player and the active modifier exist (neither is `null`), as in every state
from the first `initializeGame` on. -/
def Present (g : Game α) : Prop :=
  g.player.isSome = true ∧ g.activeModifier.isSome = true

/-- The collections hold no entity past the despawn boundary and no expired particle. -/
def Pruned (g : Game α) : Prop :=
  (∀ o ∈ g.obstacles, o.x > -100) ∧ (∀ u ∈ g.powerUps, u.x > -100) ∧
  (∀ q ∈ g.particles, q.life > 0)

/-! ## Sample values for the concrete instances -/

/-- A modifier without any effect. -/
def plainModifier : Modifier α :=
  { name := "Plain", description := "No effect", effect := {} }

/-- A state in the middle of a run with modifier `m`: the constructor's state after
`initializeGame` in a window 600 high (player at `(100, 300)`), with the given lives,
obstacles and power-ups. -/
def playingState (m : Modifier α) (lives : Int) (obstacles : List (Obstacle α))
    (powerUps : List (PowerUp α)) : Game α :=
  { Game.initial 0 PerformanceLevel.high with
    gameState := GameState.playing
    lives := lives
    selectedModifier := some m
    activeModifier := some m
    player := some (Player.new 100 300 m)
    obstacles := obstacles
    powerUps := powerUps }

/-- The state `playingState` with the player's shield on. -/
def shieldedState (m : Modifier α) (lives : Int) (obstacles : List (Obstacle α))
    (powerUps : List (PowerUp α)) : Game α :=
  { playingState m lives obstacles powerUps with
    player := some { Player.new 100 300 m with hasShield := true, shieldTime := 5000 } }

/-- The entry "Giant Mode" of `MODIFIERS` (position 1). -/
def giantMode : Modifier α :=
  { name := "Giant Mode", description := "2x larger but 2x points",
    effect := { size := some 2, pointMultiplier := some 2 } }

/-- The entry "Phase Walker" of `MODIFIERS` (position 6). -/
def phaseWalker : Modifier α :=
  { name := "Phase Walker", description := "Pass through 1 obstacle per run",
    effect := { phaseCharges := some 1 } }

/-- No key pressed and no touch. -/
def noInput : Input α :=
  { joystick := (0, 0), drag := (0, 0) }

/-- A player at `(100, 300)` without modifier effects, carrying an active magnet boost. -/
def magnetPlayer : Player α :=
  { Player.new 100 300 plainModifier with hasMagnet := true, magnetTime := 4000 }

/-- A player at `(100, 300)` without modifier effects whose shield has 5000 ms left, whose
magnet has 10 ms left and whose speed boost is off. -/
def boostedPlayer : Player α :=
  { Player.new 100 300 plainModifier with
    hasShield := true, shieldTime := 5000, hasMagnet := true, magnetTime := 10 }

/-- The explosion bursts of a "nuke", one per obstacle in the order of the list: each is
the `count` particles `addExplosion` creates at the obstacle's position, the first burst
starting at draw number `start` of `Math.random()`. -/
def nukeBursts (env : Env α) (count : Nat) : List (Obstacle α) → Nat → List (List (Particle α))
  | [], _ => []
  | ob :: rest, start =>
    burst env ob.x ob.y "#FF4500" start count :: nukeBursts env count rest (start + 3 * count)

/-- Five obstacles at different places of the play area. -/
def fiveObstacles : List (Obstacle α) :=
  [Obstacle.new 400 50 30, Obstacle.new 500 150 40, Obstacle.new 600 250 50,
   Obstacle.new 700 350 60, Obstacle.new 750 450 70]

/-- A modifier with its phase charges left out: the part of the active modifier that a
run never changes. -/
def Modifier.sansCharges (m : Modifier α) : Modifier α :=
  { m with effect := { m.effect with phaseCharges := none } }

/-- The multiplier `this.activeModifier.effect.pointMultiplier || 1` of a state. -/
def pointMultiplierOf (g : Game α) : α :=
  match g.activeModifier with
  | some m => orElse m.effect.pointMultiplier 1
  | none => 1

/-- What a pass of `checkCollisions` leaves alone: the time scale, the speeds and the
active modifier but for its phase charges are the same in `g1` as in `g`, the particles
of `g` are still there with new ones behind them, and the score has grown by a number
of "score" pick-ups (each worth 100 times the point multiplier); a `slowTime` that was
not negative is not negative afterwards. -/
def PassFrame (g g1 : Game α) : Prop :=
  g1.timeScale = g.timeScale ∧ g1.currentSpeed = g.currentSpeed ∧
  g1.gameSpeed = g.gameSpeed ∧
  g1.activeModifier.map Modifier.sansCharges = g.activeModifier.map Modifier.sansCharges ∧
  (∃ extra, g1.particles = g.particles ++ extra) ∧
  (∃ k : Nat, g1.score = g.score + (k : α) * (100 * pointMultiplierOf g)) ∧
  (0 ≤ g.slowTime → 0 ≤ g1.slowTime)

/-- The `maxParticles` of `update`. -/
def maxParticles (g : Game α) : Nat :=
  if g.performanceLevel = PerformanceLevel.low then 50 else 200

/-- The scan of `updateTimeDilation` for a player `p`: some obstacle lies at distance
below 150. -/
def nearObstacle (env : Env α) (p : Player α) (obstacles : List (Obstacle α)) : Bool :=
  obstacles.any fun obstacle =>
    decide (env.sqrt ((p.x - obstacle.x) * (p.x - obstacle.x) +
      (p.y - obstacle.y) * (p.y - obstacle.y)) < 150)

/-- What holds in every state the operations reach from the constructor's state: the time
scale is 1 or 0.3, `slowTime` is not negative, a pending timer has a selected modifier to
work with, a playing game has its player and active modifier, the catalog is `MODIFIERS`,
the point multipliers of the selected and of the active modifier are natural numbers,
and the score is an integer. -/
def WellFormed (g : Game α) : Prop :=
  (g.timeScale = 1 ∨ g.timeScale = 3 / 10) ∧ 0 ≤ g.slowTime ∧
  (0 < g.pendingInits → g.selectedModifier.isSome = true) ∧
  (g.gameState = GameState.playing → Present g) ∧
  g.catalog = MODIFIERS ∧
  (∀ m, g.selectedModifier = some m → ∃ n : Nat, orElse m.effect.pointMultiplier 1 = (n : α)) ∧
  (∃ n : Nat, pointMultiplierOf g = (n : α)) ∧
  (∃ n : Int, g.score = (n : α))

/-- A run of the operations up to the start of play with "Giant Mode": the start action
(the shuffle puts catalog position 1 first), the choice of the first card, and the timer
of that choice firing. -/
def giantRunOps (env : Env α) : List (Op α) :=
  [Op.startGame [1, 0, 2, 3, 4, 5, 6, 7], Op.selectModifier 0, Op.fireTimer env]

/-- A state in the middle of a run under slow time: `playingState` without modifier
effects, one obstacle at `(500, 300)`, and `slowTime = 4000`. -/
def slowedState : Game α :=
  { playingState plainModifier 1 [Obstacle.new 500 300 30] [] with slowTime := 4000 }

/-- The entry "Time Dilator" of `MODIFIERS` (position 7). -/
def timeDilator : Modifier α :=
  { name := "Time Dilator", description := "Slow time when near obstacles",
    effect := { timeDilation := some true } }

/-- The animation frames at the given times, as operations. -/
def frameOps (frames : List (Env α × Input α × α)) : List (Op α) :=
  frames.map fun f => Op.frame f.1 f.2.1 f.2.2

/-- A state in the middle of a run holding 200 explosion particles with their full life
of 1000 ms, as `addExplosion` creates them. -/
def crowdedState : Game α :=
  { playingState plainModifier 1 [] [] with
    particles := List.replicate 200 (Particle.new 400 300 "#FF4500" 1000 true 0 0 0) }

/-- A state in the middle of a run in which two power-ups, a "score" and an "extraLife",
both lie on the player, one after the other in the list. -/
def twoPickupsState : Game α :=
  playingState plainModifier 1 []
    [PowerUp.new 100 300 PowerUpType.score, PowerUp.new 100 300 PowerUpType.extraLife]

/-- A state at the end of a run: the game is over, an obstacle, a power-up and a particle
are still in the collections, slow time and the player's magnet boost are still
running. -/
def endedState : Game α :=
  { playingState plainModifier 0 [Obstacle.new 500 300 30]
      [PowerUp.new 600 200 PowerUpType.score] with
    gameState := GameState.gameOver
    slowTime := 4000
    player := some magnetPlayer
    particles := [Particle.new 100 300 "#FF4500" 1000 true 0 0 0] }

/-- The operations from the game-over screen to the start of the next run with "Giant
Mode": the restart action, then `giantRunOps`. -/
def nextRunOps (env : Env α) : List (Op α) :=
  Op.restartGame :: giantRunOps env

/-- A state in the middle of a run with score 50 and high score 10, one life, and an
obstacle on the player. -/
def hitState : Game α :=
  { playingState plainModifier 1 [Obstacle.new 100 300 30] [] with
    score := 50, highScore := 10 }

/-- A state late in a run: the speed has grown to 20 and the score to 2250, the player at
`(100, 300)` carries an active magnet boost, and a "score" power-up lies at `(120, 300)`,
20 to the right of the player and not touching it. -/
def magnetState : Game α :=
  { playingState plainModifier 1 [] [PowerUp.new 120 300 PowerUpType.score] with
    player := some magnetPlayer, gameSpeed := 20, currentSpeed := 20, score := 2250 }

/-! ### Modifier objects and their identities

A modifier is an object: `MODIFIERS` holds eight of them, `this.currentModifiers` refers
to some of these, and `this.selectedModifier` and `this.activeModifier` refer to objects
too.  `this.activeModifier.effect.phaseCharges--` changes the object that
`this.activeModifier` refers to, for every holder of a reference to it.  The definitions
below keep the objects in a store and the references as positions in it, so that it
matters whether `selectModifier` and `initializeGame` make copies. -/

/-- The fields of the game together with the modifier objects.  `objects` holds every
modifier object created so far, an object being identified by its position: the entries
of the global `MODIFIERS` array come first, and each `JSON.parse(JSON.stringify(..))`
appends a new object.  `selectedRef` and `activeRef` are the objects that
`this.selectedModifier` and `this.activeModifier` refer to (`none` for `null`);
`this.currentModifiers` refers to catalog objects by position, as in `Game`.  The fields
`catalog`, `selectedModifier` and `activeModifier` of `game` are not read: `RefGame.view`
puts in their place what the references lead to. -/
structure RefGame (α : Type) where
  game : Game α
  objects : List (Modifier α)
  selectedRef : Option Nat
  activeRef : Option Nat

/-- The fields as the program reads them: the catalog is the content of the first
objects of the store, and `this.selectedModifier` and `this.activeModifier` are the
contents of the objects referred to. -/
def RefGame.view (s : RefGame α) : Game α :=
  { s.game with
    catalog := s.objects.take (MODIFIERS : List (Modifier α)).length
    selectedModifier := s.selectedRef.bind fun a => s.objects[a]?
    activeModifier := s.activeRef.bind fun a => s.objects[a]? }

/-- The state the constructor leaves, with the objects of `MODIFIERS` in the store. -/
def RefGame.initial (highScore : α) (level : PerformanceLevel) : RefGame α :=
  { game := Game.initial highScore level
    objects := MODIFIERS
    selectedRef := none
    activeRef := none }

/-- The outcome of a method on the fields, carried over to the fields with the objects. -/
def liftResult (r : Except (Game α) (Game α)) (f : Game α → RefGame α) :
    Except (RefGame α) (RefGame α) :=
  match r with
  | .ok g => .ok (f g)
  | .error g => .error (f g)

/-- The fields with the objects that a method leaves behind, whether it returned or
raised. -/
def finalRef (r : Except (RefGame α) (RefGame α)) : RefGame α :=
  match r with
  | .ok s => s
  | .error s => s

/-- The expression `JSON.parse(JSON.stringify(x))` for a modifier object `x` with
content `m`: a new object is created, with the content `jsonCopy m`.  The result is the
store with the new object in it and the reference to the new object, which nothing else
refers to. -/
def copyObject (objects : List (Modifier α)) (m : Modifier α) : List (Modifier α) × Nat :=
  (objects ++ [jsonCopy m], objects.length)

/-- The method `startGame()` with the objects: `[...MODIFIERS]` is a new array of the
same objects, so the offered modifiers are catalog objects and no object is created. -/
def startGameRef (shuffled : List Nat) (s : RefGame α) : RefGame α :=
  { s with game := startGame shuffled s.view }

/-- The method `selectModifier(index)` with the objects.  `this.currentModifiers[index]`
is a catalog object, read as it is now; `JSON.parse(JSON.stringify(..))` of it is a new
object with the same content, and `this.selectedModifier` refers to the new object. -/
def selectModifierRef (s : RefGame α) (index : Int) : Except (RefGame α) (RefGame α) :=
  match currentModifier s.view index with
  | none => .error s
  | some m =>
    liftResult (selectModifier s.view index) fun g =>
      { s with
        game := g
        objects := (copyObject s.objects m).1
        selectedRef := some (copyObject s.objects m).2 }

/-- The method `initializeGame()` with the objects.
`JSON.parse(JSON.stringify(this.selectedModifier))` is a new object with the content of
the selected one, and `this.activeModifier` refers to it; from `null` it is `null`.  The
other assignments are those of `initializeGame` on the fields. -/
def initializeGameRef (env : Env α) (s : RefGame α) : Except (RefGame α) (RefGame α) :=
  match s.view.selectedModifier with
  | none => liftResult (initializeGame env s.view) fun g => { s with game := g, activeRef := none }
  | some m =>
    liftResult (initializeGame env s.view) fun g =>
      { s with
        game := g
        objects := (copyObject s.objects m).1
        activeRef := some (copyObject s.objects m).2 }

/-- The method `restartGame()` with the objects: no modifier object is touched. -/
def restartGameRef (s : RefGame α) : RefGame α :=
  { s with game := restartGame s.view }

/-- The method `gameLoop(currentTime)` with the objects.  The frame reads the modifier
through `this.activeModifier` only and never assigns that field, so it runs on the fields
as the references show them; what it wrote through `this.activeModifier` (the
`phaseCharges--` of `checkCollisions`) is afterwards the content of the object that
`this.activeModifier` refers to, whatever else refers to that object. -/
def gameLoopRef (env : Env α) (inp : Input α) (currentTime : α) (s : RefGame α) :
    Except (RefGame α) (RefGame α) :=
  liftResult (gameLoop env inp currentTime s.view) fun g =>
    { s with
      game := g
      objects :=
        match s.activeRef, g.activeModifier with
        | some a, some m => s.objects.set a m
        | _, _ => s.objects }

/-- The timer started by `selectModifier` fires, with the objects. -/
def fireTimerRef (env : Env α) (s : RefGame α) : Except (RefGame α) (RefGame α) :=
  if s.game.pendingInits = 0 then .ok s
  else initializeGameRef env
    { s with game := { s.game with pendingInits := s.game.pendingInits - 1 } }

/-- The effect of one operation, with the objects. -/
def stepRef (op : Op α) (s : RefGame α) : Except (RefGame α) (RefGame α) :=
  match op with
  | .startGame shuffled => .ok (startGameRef shuffled s)
  | .selectModifier index => selectModifierRef s index
  | .fireTimer env => fireTimerRef env s
  | .restartGame => .ok (restartGameRef s)
  | .frame env inp currentTime => gameLoopRef env inp currentTime s

/-- The fields and objects after a sequence of operations; an operation that raises
leaves them as they were when it raised. -/
def runRef (ops : List (Op α)) (s : RefGame α) : RefGame α :=
  ops.foldl (fun s op => finalRef (stepRef op s)) s

/-- No sharing between the catalog and the run: the catalog objects have the contents of
`MODIFIERS`, `this.selectedModifier` and `this.activeModifier` refer to objects of the
store that are not catalog objects, and not to the same object. -/
def Separate (s : RefGame α) : Prop :=
  s.objects.take (MODIFIERS : List (Modifier α)).length = MODIFIERS ∧
  (∀ a, s.selectedRef = some a →
    (MODIFIERS : List (Modifier α)).length ≤ a ∧ a < s.objects.length) ∧
  (∀ a, s.activeRef = some a →
    (MODIFIERS : List (Modifier α)).length ≤ a ∧ a < s.objects.length) ∧
  (∀ a b, s.selectedRef = some a → s.activeRef = some b → a ≠ b)

/-- A state in the middle of a run with "Phase Walker", as `selectModifier` and
`initializeGame` leave the references: the offered modifiers were the catalog objects 6,
1 and 2, the selected modifier is object 8 and the active modifier is object 9, both
copies of "Phase Walker" with the charge still there; one life, and an obstacle on the
player. -/
def phaseRunState : RefGame α :=
  { game :=
      { playingState phaseWalker 1 [Obstacle.new 100 300 30] [] with
        currentModifiers := [6, 1, 2] }
    objects := MODIFIERS ++ [phaseWalker, phaseWalker]
    selectedRef := some 8
    activeRef := some 9 }

/-- The state `phaseRunState` as it would be had no copy been made: the selected and the
active modifier are the catalog object 6 itself, and the store holds the catalog objects
only. -/
def sharedRunState : RefGame α :=
  { game :=
      { playingState phaseWalker 1 [Obstacle.new 100 300 30] [] with
        currentModifiers := [6, 1, 2] }
    objects := MODIFIERS
    selectedRef := some 6
    activeRef := some 6 }

/-- The field `activeModifier` is `null` in both states or in neither: no statement of a
frame assigns the field, `phaseCharges--` writes into the object it refers to. -/
def SameActive (g g1 : Game α) : Prop :=
  g1.activeModifier.isSome = g.activeModifier.isSome

end Definitions

/-- The environment over the real numbers: `Math.sqrt` is the real square root, the
window is 800 by 600 and every draw of `Math.random()` is `0`. -/
noncomputable def realEnv : Env ℝ :=
  { sqrt := Real.sqrt
    innerWidth := 800
    innerHeight := 600
    random := fun _ => 0
    random_nonneg := fun _ => le_rfl
    random_lt_one := fun _ => zero_lt_one
    sqrt_nonneg := Real.sqrt_nonneg
    sqrt_mul_self := fun _ hs => Real.mul_self_sqrt hs }

/-- The environment over the real numbers in which every draw of `Math.random()` is
`0.99`, so that a tick of at most 32 ms spawns nothing: `Math.sqrt` is the real square
root and the window is 800 by 600. -/
noncomputable def calmEnv : Env ℝ :=
  { sqrt := Real.sqrt
    innerWidth := 800
    innerHeight := 600
    random := fun _ => 99 / 100
    random_nonneg := fun _ => by norm_num
    random_lt_one := fun _ => by norm_num
    sqrt_nonneg := Real.sqrt_nonneg
    sqrt_mul_self := fun _ hs => Real.mul_self_sqrt hs }


/-! ## The square root of the environment -/

section SqrtLemmas

variable {α : Type} [LinearOrderedField α]

theorem Env.sum_sq_nonneg (a b : α) : 0 ≤ a * a + b * b :=
  add_nonneg (mul_self_nonneg a) (mul_self_nonneg b)

/-- A non-negative number whose square is `s` is the root the environment returns. -/
theorem Env.sqrt_unique (env : Env α) {s d : α} (hd : 0 ≤ d) (hs : d * d = s) :
    env.sqrt s = d := by
  have h0 : 0 ≤ s := hs ▸ mul_self_nonneg d
  have h1 := env.sqrt_mul_self s h0
  have h2 := env.sqrt_nonneg s
  have h3 : env.sqrt s * env.sqrt s = d * d := by rw [h1, hs]
  rcases mul_self_eq_mul_self_iff.mp h3 with h | h
  · exact h
  · exact le_antisymm (by linarith) (by linarith)

/-- Comparing the root with a bound is comparing the squares. -/
theorem Env.sqrt_lt_iff (env : Env α) {s r : α} (hs : 0 ≤ s) :
    env.sqrt s < r ↔ 0 < r ∧ s < r * r := by
  have h1 := env.sqrt_mul_self s hs
  have h2 := env.sqrt_nonneg s
  constructor
  · intro h
    refine ⟨lt_of_le_of_lt h2 h, ?_⟩
    rw [← h1]
    exact mul_self_lt_mul_self h2 h
  · rintro ⟨hr, h⟩
    by_contra hn
    have h3 : r ≤ env.sqrt s := not_lt.mp hn
    have h4 : r * r ≤ env.sqrt s * env.sqrt s := mul_self_le_mul_self hr.le h3
    rw [h1] at h4
    exact absurd h (not_lt.mpr h4)

theorem Env.sqrt_zero (env : Env α) : env.sqrt 0 = 0 :=
  env.sqrt_unique le_rfl (mul_zero 0)

end SqrtLemmas

/-! ## Collision test (`Player.collidesWith`) -/

section Collision

variable {α : Type} [LinearOrderedField α]

/-- C2: `Player.collidesWith(obj)`, on an obstacle as on a power-up, is the test
`collidesAt` on the object's centre and size; it is true exactly when the Euclidean
distance `d` between the two centres (the non-negative `d` with
`d * d = dx * dx + dy * dy`) is strictly less than `(player.size + obj.size) / 2`; for a
non-negative size sum this is the comparison of the squares; at distance equal to the
threshold there is no collision. -/
theorem collidesWith_iff_distance_lt (env : Env α) (p : Player α) (x y size : α) :
    (∀ obj : Obstacle α, p.collidesWith env obj = p.collidesAt env obj.x obj.y obj.size) ∧
    (∀ obj : PowerUp α,
      p.collidesWithPowerUp env obj = p.collidesAt env obj.x obj.y obj.size) ∧
    (∀ d : α, 0 ≤ d → d * d = (p.x - x) ^ 2 + (p.y - y) ^ 2 →
      (p.collidesAt env x y size = true ↔ d < (p.size + size) / 2)) ∧
    (0 ≤ p.size + size →
      (p.collidesAt env x y size = true ↔
        (p.x - x) ^ 2 + (p.y - y) ^ 2 < ((p.size + size) / 2) ^ 2)) ∧
    (∀ d : α, 0 ≤ d → d * d = (p.x - x) ^ 2 + (p.y - y) ^ 2 →
      d = (p.size + size) / 2 → p.collidesAt env x y size = false) := by
  have key : ∀ d : α, 0 ≤ d → d * d = (p.x - x) ^ 2 + (p.y - y) ^ 2 →
      (p.collidesAt env x y size = true ↔ d < (p.size + size) / 2) := by
    intro d hd hs
    have hroot : env.sqrt ((p.x - x) * (p.x - x) + (p.y - y) * (p.y - y)) = d :=
      env.sqrt_unique hd (by rw [hs]; ring)
    simp [Player.collidesAt, hroot]
  refine ⟨fun _ => rfl, fun _ => rfl, key, ?_, ?_⟩
  · intro hsz
    have hs0 : 0 ≤ (p.x - x) * (p.x - x) + (p.y - y) * (p.y - y) :=
      Env.sum_sq_nonneg _ _
    have h := env.sqrt_lt_iff (r := (p.size + size) / 2) hs0
    simp only [Player.collidesAt, decide_eq_true_eq]
    rw [h, pow_two, pow_two, pow_two]
    constructor
    · exact fun hh => hh.2
    · intro hh
      refine ⟨?_, hh⟩
      by_contra hneg
      have hz : (p.size + size) / 2 = 0 := le_antisymm (not_lt.mp hneg) (by positivity)
      rw [hz, mul_zero] at hh
      exact absurd hh (not_lt.mpr hs0)
  · intro d hd hs heq
    have := key d hd hs
    rw [heq] at this
    cases hc : p.collidesAt env x y size
    · rfl
    · exact absurd (this.mp hc) (lt_irrefl _)

/-- Witness of C2: a player of size 20 at the origin collides with an obstacle of size 30
centred at `(3, 4)` (distance 5, threshold 25) and not with one centred at `(25, 0)`
(distance equal to the threshold). -/
theorem collidesWith_iff_distance_lt_witness :
    Player.collidesWith realEnv (Player.new 0 0 plainModifier) (Obstacle.new 3 4 30) = true ∧
    Player.collidesWith realEnv (Player.new 0 0 plainModifier) (Obstacle.new 25 0 30) = false :=
  ⟨((collidesWith_iff_distance_lt realEnv (Player.new 0 0 plainModifier) 3 4 30).2.2.1 5
      (by norm_num) (by norm_num [Player.new])).mpr
      (by norm_num [Player.new, orElse, plainModifier]),
   (collidesWith_iff_distance_lt realEnv (Player.new 0 0 plainModifier) 25 0 30).2.2.2.2 25
      (by norm_num) (by norm_num [Player.new])
      (by norm_num [Player.new, orElse, plainModifier])⟩

end Collision

/-! ## Explosions -/

section Frames

variable {α : Type} [LinearOrderedField α]

theorem addExplosionLoop_eq (env : Env α) (x y : α) (color : String) (n : Nat) (g : Game α) :
    addExplosionLoop env x y color n g =
      { g with
        particles := g.particles ++ burst env x y color g.randIx n
        randIx := g.randIx + 3 * n } := by
  induction n generalizing g with
  | zero => simp [addExplosionLoop, burst]
  | succ n ih =>
    simp only [addExplosionLoop, random, ih, burst]
    simp [List.append_assoc, Nat.mul_succ, Nat.add_assoc, Nat.add_comm 3]

theorem addExplosion_eq (env : Env α) (x y : α) (color : String) (g : Game α) :
    addExplosion env x y color g =
      { g with
        particles := g.particles ++ burst env x y color g.randIx (particleCount g)
        randIx := g.randIx + 3 * particleCount g } := by
  simp only [addExplosion, particleCount, addExplosionLoop_eq]

theorem burst_length (env : Env α) (x y : α) (color : String) (start n : Nat) :
    (burst env x y color start n).length = n := by
  induction n generalizing start with
  | zero => rfl
  | succ n ih => simp [burst, ih]

theorem burst_life (env : Env α) (x y : α) (color : String) (start n : Nat) :
    ∀ q ∈ burst env x y color start n, q.life = 1000 ∧ q.x = x ∧ q.y = y := by
  induction n generalizing start with
  | zero => simp [burst]
  | succ n ih =>
    intro q hq
    simp only [burst, List.mem_cons] at hq
    rcases hq with rfl | hq
    · simp [Particle.new]
    · exact ih _ q hq

end Frames

/-! ### `forEach` -/

section ForEach

variable {α : Type}

theorem forEachFrom_fixed {β : Type} (arr : Game α → List β)
    (callback : β → Nat → Game α → Except (Game α) (Game α)) (g : Game α) :
    ∀ (n k : Nat),
      (∀ j b, k ≤ j → j < k + n → (arr g)[j]? = some b → callback b j g = .ok g) →
      forEachFrom arr callback n k g = .ok g := by
  intro n
  induction n with
  | zero => intro k _; rfl
  | succ n ih =>
    intro k h
    have hrest : forEachFrom arr callback n (k + 1) g = .ok g :=
      ih (k + 1) (fun j b h1 h2 h3 => h j b (by omega) (by omega) h3)
    unfold forEachFrom
    cases hk : (arr g)[k]? with
    | none => simpa using hrest
    | some b =>
      simp only []
      rw [h k b le_rfl (by omega) hk]
      exact hrest

theorem forEachFrom_add {β : Type} (arr : Game α → List β)
    (callback : β → Nat → Game α → Except (Game α) (Game α)) :
    ∀ (a b k : Nat) (g : Game α),
      forEachFrom arr callback (a + b) k g =
        (forEachFrom arr callback a k g).bind (forEachFrom arr callback b (k + a)) := by
  intro a
  induction a with
  | zero => intro b k g; simp [forEachFrom, Except.bind]
  | succ a ih =>
    intro b k g
    have e : a + 1 + b = (a + b) + 1 := by omega
    rw [e]
    unfold forEachFrom
    cases hk : (arr g)[k]? with
    | none =>
      simp only []
      rw [ih b (k + 1) g]
      have e2 : k + 1 + a = k + (a + 1) := by omega
      rw [e2]
    | some x =>
      simp only []
      cases hc : callback x k g with
      | error e => rfl
      | ok g1 =>
        simp only [Except.bind]
        rw [ih b (k + 1) g1]
        have e2 : k + 1 + a = k + (a + 1) := by omega
        rw [e2]
        rfl

/-- An invariant of the callback is an invariant of the loop, and the loop returns. -/
theorem forEachFrom_invariant {β : Type} (arr : Game α → List β)
    (callback : β → Nat → Game α → Except (Game α) (Game α)) (P : Game α → Prop)
    (h : ∀ b k g, P g → (arr g)[k]? = some b → ∃ g1, callback b k g = .ok g1 ∧ P g1) :
    ∀ (n k : Nat) (g : Game α), P g →
      ∃ g1, forEachFrom arr callback n k g = .ok g1 ∧ P g1 := by
  intro n
  induction n with
  | zero => intro k g hg; exact ⟨g, rfl, hg⟩
  | succ n ih =>
    intro k g hg
    unfold forEachFrom
    cases hk : (arr g)[k]? with
    | none => exact ih (k + 1) g hg
    | some b =>
      obtain ⟨g1, h1, h2⟩ := h b k g hg hk
      simp only [h1, Except.bind]
      exact ih (k + 1) g1 h2

end ForEach

/-! ## Passes with a single hit -/

section ForEachSingle

variable {α : Type}

/-- A pass in which the callback changes nothing except at one position. -/
theorem forEach_single {β : Type} (arr : Game α → List β)
    (callback : β → Nat → Game α → Except (Game α) (Game α)) (g g1 : Game α)
    (pre post : List β) (o : β) (harr : arr g = pre ++ o :: post)
    (hpre : ∀ j b, j < pre.length → (arr g)[j]? = some b → callback b j g = .ok g)
    (hhit : callback o pre.length g = .ok g1)
    (hpost : ∀ j b, pre.length + 1 ≤ j → (arr g1)[j]? = some b → callback b j g1 = .ok g1) :
    forEach arr callback g = .ok g1 := by
  have hlen : (arr g).length = pre.length + (post.length + 1) := by
    rw [harr]; simp
  unfold forEach
  rw [hlen, forEachFrom_add]
  rw [forEachFrom_fixed arr callback g pre.length 0
    (fun j b _ h2 h3 => hpre j b (by omega) h3)]
  simp only [Except.bind, Nat.zero_add]
  unfold forEachFrom
  have hk : (arr g)[pre.length]? = some o := by
    rw [harr, List.getElem?_append_right le_rfl]; simp
  simp only [hk, hhit, Except.bind]
  exact forEachFrom_fixed arr callback g1 post.length (pre.length + 1)
    (fun j b h1 _ h3 => hpost j b h1 h3)

end ForEachSingle

section ObstacleCallback

variable {α : Type} [LinearOrderedField α]

theorem obstacleCallback_miss (env : Env α) (o : Obstacle α) (k : Nat) (g : Game α)
    (p : Player α) (hp : g.player = some p) (hc : p.collidesWith env o = false) :
    obstacleCallback env o k g = .ok g := by
  simp [obstacleCallback, hp, hc]

theorem powerUpCallback_miss (env : Env α) (u : PowerUp α) (k : Nat) (g : Game α)
    (p : Player α) (hp : g.player = some p) (hc : p.collidesWithPowerUp env u = false) :
    powerUpCallback env u k g = .ok g := by
  simp [powerUpCallback, hp, hc]

/-- The power-up pass changes nothing when no power-up touches the player. -/
theorem checkPowerUpCollisions_none (env : Env α) (g : Game α) (p : Player α)
    (hp : g.player = some p) (hc : ∀ u ∈ g.powerUps, p.collidesWithPowerUp env u = false) :
    checkPowerUpCollisions env g = .ok g := by
  unfold checkPowerUpCollisions forEach
  apply forEachFrom_fixed
  intro j b _ _ hb
  exact powerUpCallback_miss env b j g p hp (hc b (List.getElem?_mem hb))

end ObstacleCallback

/-! ## Obstacle-hit resolution (`checkCollisions`) -/

section Resolution

variable {α : Type} [LinearOrderedField α]

/-- With an active modifier, `gameOver()` returns; its effect, field by field. -/
theorem gameOver_eq (g : Game α) (h : g.activeModifier.isSome = true) :
    gameOver g = .ok { g with
      gameState := GameState.gameOver
      audio := g.audio ++ [Cue.theme "gameOver"]
      highScore := if g.score > g.highScore then g.score else g.highScore
      storage := if g.score > g.highScore then some g.score else g.storage } := by
  obtain ⟨m, hm⟩ := Option.isSome_iff_exists.mp h
  unfold gameOver playTheme
  by_cases hs : g.score > g.highScore <;> simp [hs, hm]

theorem obstacleCallback_shield (env : Env α) (o : Obstacle α) (k : Nat) (g : Game α)
    (p : Player α) (hp : g.player = some p) (hhit : p.collidesWith env o = true)
    (hshield : p.hasShield = true) :
    obstacleCallback env o k g =
      .ok (addExplosion env o.x o.y "#00FFFF" { g with obstacles := g.obstacles.eraseIdx k }) := by
  simp [obstacleCallback, hp, hhit, hshield]

theorem obstacleCallback_phase (env : Env α) (o : Obstacle α) (k : Nat) (g : Game α)
    (p : Player α) (m : Modifier α) (c : Int) (hp : g.player = some p)
    (hm : g.activeModifier = some m) (hhit : p.collidesWith env o = true)
    (hshield : p.hasShield = false) (hph : m.effect.phaseCharges = some c) (hc : 0 < c) :
    obstacleCallback env o k g =
      .ok (addExplosion env o.x o.y "#FFD700" { g with
        activeModifier := some { m with effect := { m.effect with phaseCharges := some (c - 1) } }
        obstacles := g.obstacles.eraseIdx k }) := by
  simp [obstacleCallback, hp, hm, hhit, hshield, hph, hc]

theorem obstacleCallback_life (env : Env α) (o : Obstacle α) (k : Nat) (g : Game α)
    (p : Player α) (m : Modifier α) (hp : g.player = some p)
    (hm : g.activeModifier = some m) (hhit : p.collidesWith env o = true)
    (hshield : p.hasShield = false)
    (hph : ∀ c, m.effect.phaseCharges = some c → c ≤ 0) :
    obstacleCallback env o k g =
      if g.lives - 1 ≤ 0 then
        gameOver (playSFX "obstacle" (addExplosion env o.x o.y "#FF4500"
          { g with lives := g.lives - 1, obstacles := g.obstacles.eraseIdx k }))
      else
        .ok (playSFX "obstacle" (addExplosion env o.x o.y "#FF4500"
          { g with lives := g.lives - 1, obstacles := g.obstacles.eraseIdx k })) := by
  have hno : (match m.effect.phaseCharges with
      | some c => decide (c > 0)
      | none => false) = false := by
    cases h : m.effect.phaseCharges with
    | none => rfl
    | some c => simpa using hph c h
  simp [obstacleCallback, hp, hm, hhit, hshield, hno, addExplosion_eq, playSFX]

/-- A pass in which one obstacle touches the player and no power-up does is the callback
on that obstacle. -/
theorem checkCollisions_single_hit (env : Env α) (g g1 : Game α) (p : Player α)
    (pre post : List (Obstacle α)) (o : Obstacle α)
    (hp : g.player = some p) (hobs : g.obstacles = pre ++ o :: post)
    (hmiss : ∀ o1 ∈ pre ++ post, p.collidesWith env o1 = false)
    (hpu : ∀ u ∈ g.powerUps, p.collidesWithPowerUp env u = false)
    (hstep : obstacleCallback env o pre.length g = .ok g1)
    (hp1 : g1.player = some p) (hobs1 : g1.obstacles = pre ++ post)
    (hpu1 : g1.powerUps = g.powerUps) :
    checkCollisions env g = .ok g1 := by
  have h1 : checkObstacleCollisions env g = .ok g1 := by
    unfold checkObstacleCollisions
    refine forEach_single (fun g => g.obstacles) (obstacleCallback env) g g1 pre post o hobs
      ?_ hstep ?_
    · intro j b hj hb
      refine obstacleCallback_miss env b j g p hp (hmiss b ?_)
      simp only [hobs, List.getElem?_append_left hj] at hb
      exact List.mem_append_left _ (List.getElem?_mem hb)
    · intro j b hj hb
      refine obstacleCallback_miss env b j g1 p hp1 (hmiss b ?_)
      simp only [hobs1] at hb
      rw [List.getElem?_append_right (by omega)] at hb
      exact List.mem_append_right _ (List.getElem?_mem hb)
  unfold checkCollisions
  rw [h1]
  simp only [Except.bind]
  exact checkPowerUpCollisions_none env g1 p hp1 (by rw [hpu1]; exact hpu)

theorem eraseIdx_middle {β : Type} (pre post : List β) (o : β) :
    (pre ++ o :: post).eraseIdx pre.length = pre ++ post := by
  rw [List.eraseIdx_append_of_length_le le_rfl]; simp

/-- C4: obstacle-hit resolution without a shield, for a pass in which exactly one obstacle
touches the player (and no power-up does).  With a phase charge left
(`phaseCharges = c > 0`) the charge count becomes `c - 1`, lives and state are unchanged
and the obstacle is removed.  With no charge (`phaseCharges` absent or `0`) lives
decreases by exactly 1, the obstacle is removed, and the state is `gameOver` exactly when
the new lives is `0` (otherwise it stays `playing`), `gameOver()` having run once in that
case. -/
theorem obstacle_hit_resolution (env : Env α) (g : Game α) (p : Player α) (m : Modifier α)
    (pre post : List (Obstacle α)) (o : Obstacle α)
    (hp : g.player = some p) (hm : g.activeModifier = some m)
    (hshield : p.hasShield = false)
    (hobs : g.obstacles = pre ++ o :: post)
    (hhit : p.collidesWith env o = true)
    (hmiss : ∀ o1 ∈ pre ++ post, p.collidesWith env o1 = false)
    (hpu : ∀ u ∈ g.powerUps, p.collidesWithPowerUp env u = false)
    (hplay : g.gameState = GameState.playing) (hlives : 1 ≤ g.lives) :
    ∃ g1, checkCollisions env g = .ok g1 ∧ g1.obstacles = pre ++ post ∧
      (∀ c : Int, m.effect.phaseCharges = some c → 0 < c →
        g1.activeModifier =
          some { m with effect := { m.effect with phaseCharges := some (c - 1) } } ∧
        g1.lives = g.lives ∧ g1.gameState = GameState.playing ∧
        gameOverCalls g1 = gameOverCalls g) ∧
      (m.effect.phaseCharges = none ∨ m.effect.phaseCharges = some 0 →
        g1.activeModifier = some m ∧ g1.lives = g.lives - 1 ∧
        (g1.gameState = GameState.gameOver ↔ g1.lives = 0) ∧
        (g1.gameState ≠ GameState.gameOver → g1.gameState = GameState.playing) ∧
        gameOverCalls g1 = gameOverCalls g + (if g.lives = 1 then 1 else 0)) := by
  have herase := eraseIdx_middle pre post o
  by_cases hcharge : ∃ c : Int, m.effect.phaseCharges = some c ∧ 0 < c
  · obtain ⟨c, hph, hc⟩ := hcharge
    refine ⟨_, checkCollisions_single_hit env g _ p pre post o hp hobs hmiss hpu
      (obstacleCallback_phase env o pre.length g p m c hp hm hhit hshield hph hc)
      ?_ ?_ ?_, ?_, ?_, ?_⟩
    · simp [addExplosion_eq, hp]
    · simp [addExplosion_eq, hobs, herase]
    · simp [addExplosion_eq]
    · simp [addExplosion_eq, hobs, herase]
    · intro c1 hc1 _
      have : c1 = c := by rw [hph] at hc1; exact (Option.some.inj hc1).symm
      subst this
      simp [addExplosion_eq, hplay, gameOverCalls]
    · rintro (h | h) <;> rw [hph] at h
      · exact absurd h (by simp)
      · have : c = 0 := Option.some.inj h
        omega
  · have hph : ∀ c, m.effect.phaseCharges = some c → c ≤ 0 := by
      intro c h
      by_contra hn
      exact hcharge ⟨c, h, by omega⟩
    have hcb := obstacleCallback_life env o pre.length g p m hp hm hhit hshield hph
    by_cases hl : g.lives = 1
    · have hle : g.lives - 1 ≤ 0 := by omega
      rw [if_pos hle, gameOver_eq _ (by simp [addExplosion_eq, playSFX, hm])] at hcb
      refine ⟨_, checkCollisions_single_hit env g _ p pre post o hp hobs hmiss hpu hcb
        ?_ ?_ ?_, ?_, ?_, ?_⟩
      · simp [addExplosion_eq, playSFX, hp]
      · simp [addExplosion_eq, playSFX, hobs, herase]
      · simp [addExplosion_eq, playSFX]
      · simp [addExplosion_eq, playSFX, hobs, herase]
      · intro c1 hc1 hpos
        exact absurd (hph c1 hc1) (by omega)
      · intro _
        simp [addExplosion_eq, playSFX, hm, hl, gameOverCalls, List.count_append]
    · have hle : ¬ g.lives - 1 ≤ 0 := by omega
      rw [if_neg hle] at hcb
      refine ⟨_, checkCollisions_single_hit env g _ p pre post o hp hobs hmiss hpu hcb
        ?_ ?_ ?_, ?_, ?_, ?_⟩
      · simp [addExplosion_eq, playSFX, hp]
      · simp [addExplosion_eq, playSFX, hobs, herase]
      · simp [addExplosion_eq, playSFX]
      · simp [addExplosion_eq, playSFX, hobs, herase]
      · intro c1 hc1 hpos
        exact absurd (hph c1 hc1) (by omega)
      · intro _
        have h0 : ¬ g.lives - 1 = 0 := by omega
        simp [addExplosion_eq, playSFX, hm, hl, h0, hplay, gameOverCalls, List.count_append]

end Resolution

/-! ## Passes with several hits -/

section Steps

variable {α : Type}

theorem forEachFrom_succ_some {β : Type} (arr : Game α → List β)
    (callback : β → Nat → Game α → Except (Game α) (Game α)) (n k : Nat) (g : Game α) (b : β)
    (h : (arr g)[k]? = some b) :
    forEachFrom arr callback (n + 1) k g =
      (callback b k g).bind (forEachFrom arr callback n (k + 1)) := by
  rw [forEachFrom]; simp only [h]

theorem forEachFrom_succ_none {β : Type} (arr : Game α → List β)
    (callback : β → Nat → Game α → Except (Game α) (Game α)) (n k : Nat) (g : Game α)
    (h : (arr g)[k]? = none) :
    forEachFrom arr callback (n + 1) k g = forEachFrom arr callback n (k + 1) g := by
  rw [forEachFrom]; simp only [h]

end Steps

section HitFacts

variable {α : Type} [LinearOrderedField α]

/-- What the callback does on an obstacle that touches an unshielded player without a
phase charge. -/
theorem obstacleCallback_life_spec (env : Env α) (o : Obstacle α) (k : Nat) (g : Game α)
    (p : Player α) (m : Modifier α) (hp : g.player = some p)
    (hm : g.activeModifier = some m) (hhit : p.collidesWith env o = true)
    (hshield : p.hasShield = false)
    (hph : ∀ c, m.effect.phaseCharges = some c → c ≤ 0) :
    ∃ g1, obstacleCallback env o k g = .ok g1 ∧ g1.player = some p ∧
      g1.activeModifier = some m ∧ g1.lives = g.lives - 1 ∧
      g1.obstacles = g.obstacles.eraseIdx k ∧ g1.powerUps = g.powerUps ∧
      gameOverCalls g1 = gameOverCalls g + (if g.lives ≤ 1 then 1 else 0) ∧
      g1.gameState = (if g.lives ≤ 1 then GameState.gameOver else g.gameState) := by
  have hcb := obstacleCallback_life env o k g p m hp hm hhit hshield hph
  by_cases hl : g.lives ≤ 1
  · have hle : g.lives - 1 ≤ 0 := by omega
    rw [if_pos hle, gameOver_eq _ (by simp [addExplosion_eq, playSFX, hm])] at hcb
    exact ⟨_, hcb, by simp [addExplosion_eq, playSFX, hp, hm, hl, gameOverCalls,
      List.count_append]⟩
  · have hle : ¬ g.lives - 1 ≤ 0 := by omega
    rw [if_neg hle] at hcb
    exact ⟨_, hcb, by simp [addExplosion_eq, playSFX, hp, hm, hl, gameOverCalls,
      List.count_append]⟩

/-- What the callback does on an obstacle that touches a shielded player. -/
theorem obstacleCallback_shield_spec (env : Env α) (o : Obstacle α) (k : Nat) (g : Game α)
    (p : Player α) (hp : g.player = some p) (hhit : p.collidesWith env o = true)
    (hshield : p.hasShield = true) :
    ∃ g1, obstacleCallback env o k g = .ok g1 ∧ g1.player = some p ∧
      g1.activeModifier = g.activeModifier ∧ g1.lives = g.lives ∧
      g1.obstacles = g.obstacles.eraseIdx k ∧ g1.powerUps = g.powerUps ∧
      gameOverCalls g1 = gameOverCalls g ∧ g1.gameState = g.gameState :=
  ⟨_, obstacleCallback_shield env o k g p hp hhit hshield,
    by simp [addExplosion_eq, hp, gameOverCalls]⟩

/-- Two obstacles that touch an unshielded player with one life and no phase charge, one
obstacle apart in the list: the pass takes two lives and runs `gameOver()` twice. -/
theorem checkCollisions_two_hits (env : Env α) (g : Game α) (p : Player α) (m : Modifier α)
    (a b c : Obstacle α) (hp : g.player = some p) (hm : g.activeModifier = some m)
    (hshield : p.hasShield = false) (hph : ∀ c, m.effect.phaseCharges = some c → c ≤ 0)
    (hobs : g.obstacles = [a, b, c]) (hpu : g.powerUps = [])
    (ha : p.collidesWith env a = true) (hc : p.collidesWith env c = true)
    (hl : g.lives = 1) :
    ∃ g1, checkCollisions env g = .ok g1 ∧ g1.lives = -1 ∧
      gameOverCalls g1 = gameOverCalls g + 2 ∧ g1.obstacles = [b] ∧
      g1.gameState = GameState.gameOver := by
  obtain ⟨g1, e1, hp1, hm1, hl1, ho1, hu1, hc1, _⟩ :=
    obstacleCallback_life_spec env a 0 g p m hp hm ha hshield hph
  obtain ⟨g2, e2, _, _, hl2, ho2, hu2, hc2, hs2⟩ :=
    obstacleCallback_life_spec env c 1 g1 p m hp1 hm1 hc hshield hph
  rw [hobs] at ho1
  simp only [List.eraseIdx] at ho1
  rw [ho1] at ho2
  simp only [List.eraseIdx] at ho2
  refine ⟨g2, ?_, by omega, ?_, ho2, ?_⟩
  · unfold checkCollisions checkObstacleCollisions checkPowerUpCollisions forEach
    simp only [hobs, List.length_cons, List.length_nil, Nat.zero_add, Nat.reduceAdd]
    rw [forEachFrom_succ_some _ _ _ _ _ a (by simp [hobs]), e1]
    simp only [Except.bind]
    rw [forEachFrom_succ_some _ _ _ _ _ c (by simp [ho1]), e2]
    simp only [Except.bind]
    rw [forEachFrom_succ_none _ _ _ _ _ (by simp [ho2])]
    simp [forEachFrom, hu2, hu1, hpu]
  · rw [hc2, hc1, hl]
    have : g1.lives ≤ 1 := by omega
    simp [this]
  · rw [hs2]
    have : g1.lives ≤ 1 := by omega
    simp [this]

/-- Two adjacent obstacles that both touch a shielded player: the pass removes the first
and never visits the second. -/
theorem checkCollisions_shield_skips (env : Env α) (g : Game α) (p : Player α)
    (a b : Obstacle α) (hp : g.player = some p) (hshield : p.hasShield = true)
    (hobs : g.obstacles = [a, b]) (hpu : g.powerUps = [])
    (ha : p.collidesWith env a = true) :
    ∃ g1, checkCollisions env g = .ok g1 ∧ g1.obstacles = [b] ∧ g1.player = some p := by
  obtain ⟨g1, e1, hp1, _, _, ho1, hu1, _, _⟩ :=
    obstacleCallback_shield_spec env a 0 g p hp ha hshield
  rw [hobs] at ho1
  simp only [List.eraseIdx] at ho1
  refine ⟨g1, ?_, ho1, hp1⟩
  unfold checkCollisions checkObstacleCollisions checkPowerUpCollisions forEach
  simp only [hobs, List.length_cons, List.length_nil, Nat.zero_add, Nat.reduceAdd]
  rw [forEachFrom_succ_some _ _ _ _ _ a (by simp [hobs]), e1]
  simp only [Except.bind]
  rw [forEachFrom_succ_none _ _ _ _ _ (by simp [ho1])]
  simp [forEachFrom, hu1, hpu]

end HitFacts

/-! ## Concrete passes over the real numbers -/

section Concrete

theorem collides_on_player (size : ℝ) (hs : 0 < size) (m : Modifier ℝ)
    (hm : m.effect.size = none) :
    (Player.new 100 300 m).collidesWith realEnv (Obstacle.new 100 300 size) = true := by
  simp only [Player.collidesWith, Player.collidesAt, Player.new, Obstacle.new, realEnv, hm, orElse,
    decide_eq_true_eq]
  norm_num
  linarith

/-- C1 (evaluation of the code at the failing input): a player with one life, no shield and
no phase charge, and the obstacle list `[A, B, C]` where `A` and `C` lie on the player and
`B` is far away.  One call of `checkCollisions` leaves `lives = -1` and has run
`gameOver()` twice. -/
theorem lives_negative_after_two_hits :
    ∃ g1, checkCollisions realEnv (playingState plainModifier 1
        [Obstacle.new 100 300 30, Obstacle.new 700 100 30, Obstacle.new 100 300 40] []) = .ok g1 ∧
      g1.lives = -1 ∧ gameOverCalls g1 = 2 ∧ g1.gameState = GameState.gameOver := by
  obtain ⟨g1, h1, h2, h3, _, h5⟩ := checkCollisions_two_hits realEnv
    (playingState plainModifier 1
      [Obstacle.new 100 300 30, Obstacle.new 700 100 30, Obstacle.new 100 300 40] [])
    (Player.new 100 300 plainModifier) plainModifier
    (Obstacle.new 100 300 30) (Obstacle.new 700 100 30) (Obstacle.new 100 300 40)
    rfl rfl rfl (by simp [plainModifier]) rfl rfl
    (collides_on_player 30 (by norm_num) plainModifier rfl)
    (collides_on_player 40 (by norm_num) plainModifier rfl) rfl
  exact ⟨g1, h1, h2, by simpa [gameOverCalls, playingState, Game.initial] using h3, h5⟩

/-- C3 (evaluation of the code at the failing input): a shielded player and the obstacle
list `[A, B]`, both obstacles lying on the player.  After `checkCollisions`, `B` is still
in the list although it touches the player. -/
theorem shield_leaves_colliding_obstacle :
    ∃ g1 p, checkCollisions realEnv (shieldedState plainModifier 1
        [Obstacle.new 100 300 30, Obstacle.new 100 300 40] []) = .ok g1 ∧
      g1.player = some p ∧ p.hasShield = true ∧
      Obstacle.new 100 300 40 ∈ g1.obstacles ∧
      p.collidesWith realEnv (Obstacle.new 100 300 40) = true := by
  obtain ⟨g1, h1, h2, h3⟩ := checkCollisions_shield_skips realEnv
    (shieldedState plainModifier 1 [Obstacle.new 100 300 30, Obstacle.new 100 300 40] [])
    { Player.new 100 300 plainModifier with hasShield := true, shieldTime := 5000 }
    (Obstacle.new 100 300 30) (Obstacle.new 100 300 40) rfl rfl rfl rfl
    (by simpa [Player.collidesWith, Player.collidesAt] using
      collides_on_player 30 (by norm_num) plainModifier rfl)
  refine ⟨g1, _, h1, h3, rfl, by simp [h2], ?_⟩
  simpa [Player.collidesWith, Player.collidesAt] using
    collides_on_player 40 (by norm_num) plainModifier rfl

/-- Witness of C4, the scenario of the specification: no modifier effect, `lives = 1`, a
single obstacle at the player's exact position; one pass gives `lives = 0` and
`gameOver`. -/
theorem obstacle_hit_resolution_witness :
    ∃ g1, checkCollisions realEnv
        (playingState plainModifier 1 [Obstacle.new 100 300 30] []) = .ok g1 ∧
      g1.obstacles = [] ∧ g1.lives = 0 ∧ g1.gameState = GameState.gameOver := by
  obtain ⟨g1, h1, h2, _, h4⟩ := obstacle_hit_resolution realEnv
    (playingState plainModifier 1 [Obstacle.new 100 300 30] [])
    (Player.new 100 300 plainModifier) plainModifier [] [] (Obstacle.new 100 300 30)
    rfl rfl rfl rfl (collides_on_player 30 (by norm_num) plainModifier rfl)
    (by simp) (by simp [playingState]) rfl (by simp [playingState])
  obtain ⟨_, h5, h6, _, _⟩ := h4 (Or.inl rfl)
  have h7 : g1.lives = 0 := by rw [h5]; rfl
  exact ⟨g1, h1, h2, h7, h6.mpr h7⟩

end Concrete

/-! ## Magnet attraction (`updateGameObjects`) -/

section Magnet

variable {α : Type} [LinearOrderedField α]

theorem Env.sqrt_distSq (env : Env α) (x1 y1 x2 y2 : α) :
    env.sqrt (distSq x1 y1 x2 y2) * env.sqrt (distSq x1 y1 x2 y2) = distSq x1 y1 x2 y2 :=
  env.sqrt_mul_self _ (Env.sum_sq_nonneg _ _)

/-- C5 (amended): while the magnet is active (`hasMagnet`, or a truthy `magnetRange` of the
modifier), a power-up whose distance `d` to the player, taken after its own movement of
the tick, satisfies `1 < d < 150 * (magnetRange || 1)` is pulled to distance `|d - 2|`,
which is strictly smaller than `d`. -/
theorem magnet_pulls_closer (env : Env α) (p : Player α) (m : Modifier α)
    (scaledDelta speed : α) (u : PowerUp α)
    (hactive : (p.hasMagnet || truthy m.effect.magnetRange) = true)
    (hfar : 1 < env.sqrt (distSq p.x p.y (u.update scaledDelta speed).x
      (u.update scaledDelta speed).y))
    (hnear : env.sqrt (distSq p.x p.y (u.update scaledDelta speed).x
      (u.update scaledDelta speed).y) < orElse m.effect.magnetRange 1 * 150) :
    ∃ u1, magnetStep env p m scaledDelta speed u = some u1 ∧
      env.sqrt (distSq p.x p.y u1.x u1.y) =
        |env.sqrt (distSq p.x p.y (u.update scaledDelta speed).x
          (u.update scaledDelta speed).y) - 2| ∧
      env.sqrt (distSq p.x p.y u1.x u1.y) <
        env.sqrt (distSq p.x p.y (u.update scaledDelta speed).x
          (u.update scaledDelta speed).y) := by
  generalize hu0 : u.update scaledDelta speed = u0 at hfar hnear ⊢
  generalize hd : env.sqrt (distSq p.x p.y u0.x u0.y) = d at hfar hnear ⊢
  have hdd : d * d = distSq p.x p.y u0.x u0.y := by rw [← hd]; exact env.sqrt_distSq _ _ _ _
  have hd0 : d ≠ 0 := by linarith
  have hd' : env.sqrt ((p.x - u0.x) * (p.x - u0.x) + (p.y - u0.y) * (p.y - u0.y)) = d := hd
  have hstep : magnetStep env p m scaledDelta speed u = some { u0 with
      x := u0.x + (p.x - u0.x) / d * 2
      y := u0.y + (p.y - u0.y) / d * 2 } := by
    unfold magnetStep
    simp only [hu0, hactive, if_true, hd', hnear, hd0, if_false]
  have key : env.sqrt (distSq p.x p.y (u0.x + (p.x - u0.x) / d * 2)
      (u0.y + (p.y - u0.y) / d * 2)) = |d - 2| := by
    apply env.sqrt_unique (abs_nonneg _)
    rw [abs_mul_abs_self]
    simp only [distSq] at hdd ⊢
    field_simp
    have : ((p.x - u0.x) * (p.x - u0.x) + (p.y - u0.y) * (p.y - u0.y)) * ((d - 2) * (d - 2))
        = (d * d) * ((d - 2) * (d - 2)) := by rw [hdd]
    nlinarith [this]
  refine ⟨_, hstep, key, ?_⟩
  show env.sqrt (distSq p.x p.y (u0.x + (p.x - u0.x) / d * 2)
      (u0.y + (p.y - u0.y) / d * 2)) < d
  rw [key, abs_lt]
  constructor <;> linarith

end Magnet

section MagnetConcrete

/-- Counterexample to C5 as stated: the magnet is active and the power-up is at distance
`1 / 2` from the player, inside the radius 150.  The pull moves it by 2 along the unit
vector, past the player, to distance `3 / 2`: farther away, not closer. -/
theorem magnet_overshoots_near_player :
    magnetStep realEnv magnetPlayer plainModifier 0 0 (PowerUp.new (201 / 2) 300 .score) =
      some (PowerUp.new (197 / 2) 300 .score) ∧
    ((magnetPlayer : Player ℝ).hasMagnet || truthy (plainModifier : Modifier ℝ).effect.magnetRange) = true ∧
    realEnv.sqrt (distSq magnetPlayer.x magnetPlayer.y (201 / 2) 300) = 1 / 2 ∧
    (1 / 2 : ℝ) < orElse (plainModifier : Modifier ℝ).effect.magnetRange 1 * 150 ∧
    realEnv.sqrt (distSq magnetPlayer.x magnetPlayer.y (197 / 2) 300) = 3 / 2 ∧
    ¬ (realEnv.sqrt (distSq magnetPlayer.x magnetPlayer.y (197 / 2) 300) <
      realEnv.sqrt (distSq magnetPlayer.x magnetPlayer.y (201 / 2) 300)) := by
  have h1 : realEnv.sqrt (distSq magnetPlayer.x magnetPlayer.y (201 / 2) 300) = 1 / 2 :=
    realEnv.sqrt_unique (by norm_num) (by norm_num [distSq, magnetPlayer, Player.new])
  have h2 : realEnv.sqrt (distSq magnetPlayer.x magnetPlayer.y (197 / 2) 300) = 3 / 2 :=
    realEnv.sqrt_unique (by norm_num) (by norm_num [distSq, magnetPlayer, Player.new])
  have h3 : realEnv.sqrt
      ((magnetPlayer.x - ((PowerUp.new (201 / 2) 300 .score).update 0 0).x) *
        (magnetPlayer.x - ((PowerUp.new (201 / 2) 300 .score).update 0 0).x) +
       (magnetPlayer.y - ((PowerUp.new (201 / 2) 300 .score).update 0 0).y) *
        (magnetPlayer.y - ((PowerUp.new (201 / 2) 300 .score).update 0 0).y)) = 1 / 2 :=
    realEnv.sqrt_unique (by norm_num)
      (by norm_num [magnetPlayer, Player.new, PowerUp.new, PowerUp.update])
  refine ⟨?_, rfl, h1, by norm_num [orElse, plainModifier], h2, by rw [h1, h2]; norm_num⟩
  unfold magnetStep
  simp only [h3]
  norm_num [magnetPlayer, Player.new, PowerUp.new, PowerUp.update, orElse, truthy, plainModifier]

/-- Witness of C5 (amended): the magnet is active and the power-up is at `(103, 304)`,
at distance 5 from the player at `(100, 300)`; the pull brings it to distance 3. -/
theorem magnet_pulls_closer_witness :
    ∃ u1, magnetStep realEnv magnetPlayer plainModifier 0 0 (PowerUp.new 103 304 .score) =
        some u1 ∧
      realEnv.sqrt (distSq magnetPlayer.x magnetPlayer.y u1.x u1.y) <
        realEnv.sqrt (distSq magnetPlayer.x magnetPlayer.y 103 304) := by
  have h1 : realEnv.sqrt (distSq magnetPlayer.x magnetPlayer.y
      ((PowerUp.new 103 304 .score).update 0 0).x
      ((PowerUp.new 103 304 .score).update 0 0).y) = 5 :=
    realEnv.sqrt_unique (by norm_num)
      (by norm_num [distSq, magnetPlayer, Player.new, PowerUp.new, PowerUp.update])
  obtain ⟨u1, h2, _, h4⟩ := magnet_pulls_closer realEnv magnetPlayer plainModifier 0 0
    (PowerUp.new 103 304 .score) rfl (by rw [h1]; norm_num)
    (by rw [h1]; norm_num [orElse, plainModifier])
  refine ⟨u1, h2, ?_⟩
  have e : (distSq magnetPlayer.x magnetPlayer.y 103 304 : ℝ) =
      distSq magnetPlayer.x magnetPlayer.y ((PowerUp.new 103 304 .score).update 0 0).x
        ((PowerUp.new 103 304 .score).update 0 0).y := by
    norm_num [distSq, PowerUp.new, PowerUp.update]
  rw [e]
  exact h4

end MagnetConcrete

/-! ## What a frame leaves alone -/

section Relations

variable {α : Type}

/-- A reflexive and transitive relation kept by both parts of a `bind` is kept by it. -/
theorem final_bind_rel (R : Game α → Game α → Prop)
    (htrans : ∀ a b c, R a b → R b c → R a c) (g0 : Game α)
    (x : Except (Game α) (Game α)) (f : Game α → Except (Game α) (Game α))
    (hx : R g0 (final x)) (hf : ∀ g, R g (final (f g))) :
    R g0 (final (x.bind f)) := by
  cases x with
  | error e => exact hx
  | ok g1 => exact htrans _ _ _ hx (hf g1)

/-- A reflexive and transitive relation kept by the callback is kept by the loop. -/
theorem forEachFrom_rel {β : Type} (R : Game α → Game α → Prop)
    (hrefl : ∀ a, R a a) (htrans : ∀ a b c, R a b → R b c → R a c)
    (arr : Game α → List β) (callback : β → Nat → Game α → Except (Game α) (Game α))
    (h : ∀ b k g, R g (final (callback b k g))) :
    ∀ (n k : Nat) (g : Game α), R g (final (forEachFrom arr callback n k g)) := by
  intro n
  induction n with
  | zero => intro k g; exact hrefl g
  | succ n ih =>
    intro k g
    unfold forEachFrom
    cases (arr g)[k]? with
    | none => exact ih (k + 1) g
    | some b =>
      exact final_bind_rel R htrans g _ _ (h b k g) (ih (k + 1))

end Relations

section Stable

variable {α : Type} [LinearOrderedField α]

theorem TickStable.refl (g : Game α) : TickStable g g :=
  ⟨le_rfl, rfl, rfl, rfl, rfl, rfl⟩

theorem TickStable.trans (a b c : Game α) (h1 : TickStable a b) (h2 : TickStable b c) :
    TickStable a c := by
  obtain ⟨h11, h12, h13, h14, h15, h16⟩ := h1
  obtain ⟨h21, h22, h23, h24, h25, h26⟩ := h2
  exact ⟨le_trans h11 h21, by rw [h22, h12], by rw [h23, h13], by rw [h24, h14],
    by rw [h25, h15], by rw [h26, h16]⟩

theorem tickStable_of_fields (g0 g g1 : Game α) (h : TickStable g0 g)
    (h1 : g1.highScore = g.highScore) (h2 : g1.catalog = g.catalog)
    (h3 : g1.currentModifiers = g.currentModifiers)
    (h4 : g1.selectedModifier = g.selectedModifier)
    (h5 : g1.performanceLevel = g.performanceLevel)
    (h6 : g1.pendingInits = g.pendingInits) : TickStable g0 g1 :=
  TickStable.trans g0 g g1 h ⟨h1.ge, h2, h3, h4, h5, h6⟩

theorem gameOver_stable (g0 g : Game α) (h : TickStable g0 g) :
    TickStable g0 (final (gameOver g)) := by
  refine TickStable.trans g0 g _ h ?_
  unfold gameOver playTheme
  by_cases hs : g.score > g.highScore
  · cases hm : g.activeModifier <;> simp [hs, hm, final, TickStable, le_of_lt hs]
  · cases hm : g.activeModifier <;> simp [hs, hm, final, TickStable]

theorem addExplosion_stable (env : Env α) (x y : α) (c : String) (g0 g : Game α)
    (h : TickStable g0 g) : TickStable g0 (addExplosion env x y c g) := by
  rw [addExplosion_eq]; exact h

theorem playSFX_stable (name : String) (g0 g : Game α) (h : TickStable g0 g) :
    TickStable g0 (playSFX name g) := h

theorem obstacleCallback_stable (env : Env α) (o : Obstacle α) (k : Nat) (g : Game α) :
    TickStable g (final (obstacleCallback env o k g)) := by
  have h0 := TickStable.refl g
  unfold obstacleCallback
  split
  · exact h0
  · split
    · split
      · exact addExplosion_stable _ _ _ _ _ _ h0
      · split
        · exact h0
        · split
          · exact addExplosion_stable _ _ _ _ _ _ h0
          · dsimp only
            split
            · exact gameOver_stable _ _ (playSFX_stable _ _ _
                (addExplosion_stable _ _ _ _ _ _ h0))
            · exact playSFX_stable _ _ _ (addExplosion_stable _ _ _ _ _ _ h0)
    · exact h0

theorem foldl_addExplosion_stable (env : Env α) (c : String) (obs : List (Obstacle α)) :
    ∀ (g0 g : Game α), TickStable g0 g →
      TickStable g0 (obs.foldl (fun g ob => addExplosion env ob.x ob.y c g) g) := by
  induction obs with
  | nil => intro g0 g h; exact h
  | cons o rest ih =>
    intro g0 g h
    exact ih g0 _ (addExplosion_stable _ _ _ _ _ _ h)

theorem collectPowerUp_stable (env : Env α) (u : PowerUp α) (g : Game α) :
    TickStable g (final (collectPowerUp env u g)) := by
  have h0 := TickStable.refl g
  unfold collectPowerUp
  split
  · exact h0
  · split
    · exact h0
    · split <;> exact h0
    · split <;> exact h0
    · split <;> exact h0
    · exact h0
    · exact h0
    · exact foldl_addExplosion_stable env _ _ g _ h0

theorem powerUpCallback_stable (env : Env α) (u : PowerUp α) (k : Nat) (g : Game α) :
    TickStable g (final (powerUpCallback env u k g)) := by
  have h0 := TickStable.refl g
  unfold powerUpCallback
  split
  · exact h0
  · split
    · refine final_bind_rel TickStable TickStable.trans g _ _ (collectPowerUp_stable env u g) ?_
      intro g1
      exact playSFX_stable _ _ _ (addExplosion_stable _ _ _ _ _ _ (TickStable.refl g1))
    · exact h0

theorem checkCollisions_stable (env : Env α) (g : Game α) :
    TickStable g (final (checkCollisions env g)) := by
  unfold checkCollisions
  refine final_bind_rel TickStable TickStable.trans g _ _ ?_ ?_
  · exact forEachFrom_rel TickStable TickStable.refl TickStable.trans _ _
      (obstacleCallback_stable env) _ _ g
  · intro g1
    exact forEachFrom_rel TickStable TickStable.refl TickStable.trans _ _
      (powerUpCallback_stable env) _ _ g1

theorem updateTimeDilation_stable (env : Env α) (g : Game α) :
    TickStable g (final (updateTimeDilation env g)) := by
  have h0 := TickStable.refl g
  unfold updateTimeDilation
  dsimp only
  split <;> exact h0

theorem spawnObstacle_stable (env : Env α) (g0 g : Game α) (h : TickStable g0 g) :
    TickStable g0 (spawnObstacle env g) := h

theorem addParticle_stable (env : Env α) (x y : α) (c : String) (life : α) (g0 g : Game α)
    (h : TickStable g0 g) : TickStable g0 (addParticle env x y c life g) := h

theorem updateGameObjects_stable (env : Env α) (scaledDelta speed : α) (g : Game α) :
    TickStable g (final (updateGameObjects env scaledDelta speed g)) := by
  have h0 := TickStable.refl g
  unfold updateGameObjects
  dsimp only
  split <;> exact h0

theorem capParticles_stable (g0 g : Game α) (h : TickStable g0 g) :
    TickStable g0 (capParticles g) := by
  unfold capParticles
  dsimp only
  repeat' split
  all_goals exact tickStable_of_fields _ _ _ h rfl rfl rfl rfl rfl rfl

theorem emitTrail_stable (env : Env α) (g0 g : Game α) (h : TickStable g0 g) :
    TickStable g0 (final (emitTrail env g)) := by
  unfold emitTrail
  dsimp only [random]
  repeat' split
  all_goals exact tickStable_of_fields _ _ _ h rfl rfl rfl rfl rfl rfl

end Stable

section StableUpdate

variable {α : Type} [LinearOrderedField α] [FloorRing α]

theorem spawnPowerUp_stable (env : Env α) (g0 g : Game α) (h : TickStable g0 g) :
    TickStable g0 (final (spawnPowerUp env g)) := by
  unfold spawnPowerUp
  dsimp only [random]
  split <;> exact h

theorem update_eq_stages (env : Env α) (inp : Input α) (deltaTime : α) (g : Game α) :
    update env inp deltaTime g =
      (updatePlayer env inp (deltaTime * g.timeScale)
        (updateTimers (deltaTime * g.timeScale) g)).bind fun g1 =>
      (updateDilation env g1).bind fun g2 =>
      (powerUpTrial env (deltaTime * g.timeScale)
        (obstacleTrial env (deltaTime * g.timeScale) g2)).bind fun g3 =>
      (updateGameObjects env (deltaTime * g.timeScale) g3.currentSpeed g3).bind fun g4 =>
      (emitTrail env (capParticles g4)).bind fun g5 =>
      (checkCollisions env g5).bind (updateScore (deltaTime * g.timeScale)) := by
  unfold update updatePlayer updateTimers
  dsimp only
  split
  · rfl
  · simp only [Except.bind]
    unfold updateDilation
    dsimp only
    split
    · rfl
    · rfl


theorem update_stable (env : Env α) (inp : Input α) (deltaTime : α) (g : Game α) :
    TickStable g (final (update env inp deltaTime g)) := by
  have hb := @final_bind_rel α TickStable TickStable.trans
  have h0 : TickStable g (updateTimers (deltaTime * g.timeScale) g) := by
    unfold updateTimers
    dsimp only
    split <;> exact TickStable.refl g
  rw [update_eq_stages]
  refine hb g _ _ ?_ ?_
  · unfold updatePlayer
    split <;> exact h0
  · intro g1
    refine hb g1 _ _ ?_ ?_
    · unfold updateDilation
      split
      · exact TickStable.refl g1
      · split
        · exact updateTimeDilation_stable env g1
        · exact TickStable.refl g1
    · intro g2
      refine hb g2 _ _ ?_ ?_
      · have h1 : TickStable g2 (obstacleTrial env (deltaTime * g.timeScale) g2) := by
          unfold obstacleTrial
          dsimp only [random]
          repeat' split
          all_goals exact TickStable.refl g2
        unfold powerUpTrial
        dsimp only [random]
        split
        · exact spawnPowerUp_stable env g2 _ h1
        · exact h1
      · intro g3
        refine hb g3 _ _ (updateGameObjects_stable env _ _ g3) ?_
        intro g4
        refine hb g4 _ _ ?_ ?_
        · exact emitTrail_stable env g4 _ (capParticles_stable g4 g4 (TickStable.refl g4))
        · intro g5
          refine hb g5 _ _ (checkCollisions_stable env g5) ?_
          intro g6
          unfold updateScore
          dsimp only
          split <;> exact TickStable.refl g6

theorem gameLoop_stable (env : Env α) (inp : Input α) (currentTime : α) (g : Game α) :
    TickStable g (final (gameLoop env inp currentTime g)) := by
  unfold gameLoop
  dsimp only
  split
  · exact TickStable.trans g { g with lastTime := currentTime, frameCount := g.frameCount + 1 } _
      (TickStable.refl g) (update_stable env inp _ _)
  · exact TickStable.refl g

end StableUpdate

/-! ## High score (`gameOver`) -/

section HighScore

variable {α : Type} [LinearOrderedField α]

theorem selectModifier_stable (g : Game α) (index : Int) :
    g.highScore ≤ (final (selectModifier g index)).highScore ∧
    (final (selectModifier g index)).catalog = g.catalog ∧
    (final (selectModifier g index)).currentModifiers = g.currentModifiers := by
  unfold selectModifier
  split <;> simp [final, playSFX]

theorem initializeGame_stable (env : Env α) (g : Game α) :
    g.highScore ≤ (final (initializeGame env g)).highScore ∧
    (final (initializeGame env g)).catalog = g.catalog ∧
    (final (initializeGame env g)).currentModifiers = g.currentModifiers := by
  unfold initializeGame applyModifier
  dsimp only [playTheme, playSFX]
  cases g.selectedModifier with
  | none => simp [final, Except.bind]
  | some m =>
    simp only [Option.map_some']
    cases (jsonCopy m).effect.extraLives with
    | none => simp [final, Except.bind]
    | some n =>
      by_cases hn : n = 0 <;> simp [final, Except.bind, hn]

theorem fireTimer_stable (env : Env α) (g : Game α) :
    g.highScore ≤ (final (fireTimer env g)).highScore ∧
    (final (fireTimer env g)).catalog = g.catalog ∧
    (final (fireTimer env g)).currentModifiers = g.currentModifiers := by
  unfold fireTimer
  split
  · simp [final]
  · exact initializeGame_stable env { g with pendingInits := g.pendingInits - 1 }

end HighScore

section HighScoreOps

variable {α : Type} [LinearOrderedField α] [FloorRing α]

/-- No operation lowers the high score or changes the catalog; only the start action
changes the offered modifiers. -/
theorem step_stable (op : Op α) (g : Game α) :
    g.highScore ≤ (final (step op g)).highScore ∧
    (final (step op g)).catalog = g.catalog ∧
    ((∀ shuffled, op ≠ Op.startGame shuffled) →
      (final (step op g)).currentModifiers = g.currentModifiers) := by
  cases op with
  | startGame shuffled =>
    exact ⟨le_rfl, rfl, fun h => absurd rfl (h shuffled)⟩
  | selectModifier index =>
    obtain ⟨h1, h2, h3⟩ := selectModifier_stable g index
    exact ⟨h1, h2, fun _ => h3⟩
  | fireTimer env =>
    obtain ⟨h1, h2, h3⟩ := fireTimer_stable env g
    exact ⟨h1, h2, fun _ => h3⟩
  | restartGame => exact ⟨le_rfl, rfl, fun _ => rfl⟩
  | frame env inp currentTime =>
    obtain ⟨h1, h2, h3, _⟩ := gameLoop_stable env inp currentTime g
    exact ⟨h1, h2, fun _ => h3⟩

theorem run_stable (ops : List (Op α)) :
    ∀ g : Game α, g.highScore ≤ (run ops g).highScore ∧ (run ops g).catalog = g.catalog ∧
      ((∀ op ∈ ops, ∀ shuffled, op ≠ Op.startGame shuffled) →
        (run ops g).currentModifiers = g.currentModifiers) := by
  induction ops with
  | nil => intro g; exact ⟨le_rfl, rfl, fun _ => rfl⟩
  | cons op rest ih =>
    intro g
    obtain ⟨h1, h2, h3⟩ := step_stable op g
    obtain ⟨k1, k2, k3⟩ := ih (final (step op g))
    refine ⟨le_trans h1 k1, by rw [← h2]; exact k2, ?_⟩
    intro hno
    have e1 := h3 (hno op (List.mem_cons_self _ _))
    have e2 := k3 (fun o ho => hno o (List.mem_cons_of_mem _ ho))
    rw [← e1]
    exact e2

/-- C6: `gameOver()` sets the high score to the score when the score strictly exceeds it
(and stores it), and leaves high score and storage alone otherwise; so the high score
afterwards is `max highScore score`.  With an active modifier `gameOver()` returns.  No
operation of the game, and no sequence of operations, lowers the high score. -/
theorem gameOver_highScore (g : Game α) :
    (final (gameOver g)).highScore = max g.highScore g.score ∧
    (g.score > g.highScore →
      (final (gameOver g)).highScore = g.score ∧ (final (gameOver g)).storage = some g.score) ∧
    (¬ g.score > g.highScore →
      (final (gameOver g)).highScore = g.highScore ∧ (final (gameOver g)).storage = g.storage) ∧
    (g.activeModifier.isSome = true → gameOver g = .ok (final (gameOver g))) ∧
    (∀ op : Op α, g.highScore ≤ (final (step op g)).highScore) ∧
    (∀ ops : List (Op α), g.highScore ≤ (run ops g).highScore) := by
  have hfin : final (gameOver g) = { g with
      gameState := GameState.gameOver
      audio := g.audio ++ [Cue.theme "gameOver"]
      highScore := if g.score > g.highScore then g.score else g.highScore
      storage := if g.score > g.highScore then some g.score else g.storage } := by
    unfold gameOver playTheme
    by_cases hs : g.score > g.highScore
    · cases hm : g.activeModifier <;> simp [hs, hm, final]
    · cases hm : g.activeModifier <;> simp [hs, hm, final]
  refine ⟨?_, ?_, ?_, ?_, fun op => (step_stable op g).1, fun ops => (run_stable ops g).1⟩
  · rw [hfin]
    by_cases hs : g.score > g.highScore
    · simp [hs, max_eq_right (le_of_lt hs)]
    · simp [hs, max_eq_left (not_lt.mp hs)]
  · intro hs
    rw [hfin]
    simp [hs]
  · intro hs
    rw [hfin]
    simp [hs]
  · intro h
    rw [gameOver_eq g h, final]

end HighScoreOps

section HighScoreConcrete

/-- Witness of C6: with score 500 over a high score of 300 `gameOver()` raises the high
score to 500; with score 100 it leaves the 300. -/
theorem gameOver_highScore_witness :
    (final (gameOver { playingState (plainModifier : Modifier ℝ) 0 [] [] with
      score := 500, highScore := 300 })).highScore = 500 ∧
    (final (gameOver { playingState (plainModifier : Modifier ℝ) 0 [] [] with
      score := 100, highScore := 300 })).highScore = 300 :=
  ⟨((gameOver_highScore { playingState (plainModifier : Modifier ℝ) 0 [] [] with
      score := 500, highScore := 300 }).2.1 (by norm_num)).1,
   ((gameOver_highScore { playingState (plainModifier : Modifier ℝ) 0 [] [] with
      score := 100, highScore := 300 }).2.2.1 (by norm_num)).1⟩

end HighScoreConcrete

/-! ## Pruning of the collections (`update`) -/

section PresentFields

variable {α : Type}

theorem present_of_fields (g g1 : Game α) (h : Present g) (h1 : g1.player = g.player)
    (h2 : g1.activeModifier = g.activeModifier) : Present g1 := by
  unfold Present at *
  rw [h1, h2]; exact h

end PresentFields

section Pruning

variable {α : Type} [LinearOrderedField α]

theorem pruned_of_fields (g g1 : Game α) (h : Pruned g) (h1 : g1.obstacles = g.obstacles)
    (h2 : g1.powerUps = g.powerUps) (h3 : g1.particles = g.particles) : Pruned g1 := by
  unfold Pruned at *
  rw [h1, h2, h3]; exact h

theorem foldl_addExplosion_powerUps (env : Env α) (c : String) (obs : List (Obstacle α)) :
    ∀ g : Game α,
      (obs.foldl (fun g ob => addExplosion env ob.x ob.y c g) g).powerUps = g.powerUps := by
  induction obs with
  | nil => intro g; rfl
  | cons o rest ih =>
    intro g
    simp only [List.foldl_cons]
    rw [ih, addExplosion_eq]

theorem addExplosion_inv (env : Env α) (x y : α) (c : String) (g : Game α)
    (h : Present g ∧ Pruned g) : Present (addExplosion env x y c g) ∧
      Pruned (addExplosion env x y c g) := by
  obtain ⟨hp, ho, hu, hq⟩ := h
  rw [addExplosion_eq]
  refine ⟨hp, ho, hu, ?_⟩
  intro q hq1
  simp only [List.mem_append] at hq1
  rcases hq1 with hq1 | hq1
  · exact hq q hq1
  · rw [(burst_life env x y c _ _ q hq1).1]; norm_num

theorem mem_eraseIdx {β : Type} (l : List β) (k : Nat) (b : β) (h : b ∈ l.eraseIdx k) :
    b ∈ l :=
  (List.eraseIdx_sublist l k).subset h

theorem obstacleCallback_inv (env : Env α) (o : Obstacle α) (k : Nat) (g : Game α)
    (h : Present g ∧ Pruned g) :
    ∃ g1, obstacleCallback env o k g = .ok g1 ∧ Present g1 ∧ Pruned g1 := by
  obtain ⟨⟨hp, hm⟩, ho, hu, hq⟩ := h
  obtain ⟨p, hp1⟩ := Option.isSome_iff_exists.mp hp
  obtain ⟨m, hm1⟩ := Option.isSome_iff_exists.mp hm
  have herase : ∀ o1 ∈ g.obstacles.eraseIdx k, o1.x > -100 :=
    fun o1 h1 => ho o1 (mem_eraseIdx _ _ _ h1)
  by_cases hhit : p.collidesWith env o = true
  · by_cases hs : p.hasShield = true
    · exact ⟨_, obstacleCallback_shield env o k g p hp1 hhit hs,
        addExplosion_inv env _ _ _ _ ⟨⟨hp, hm⟩, herase, hu, hq⟩⟩
    · have hs1 : p.hasShield = false := by simpa using hs
      by_cases hc : ∃ c : Int, m.effect.phaseCharges = some c ∧ 0 < c
      · obtain ⟨c, hc1, hc2⟩ := hc
        exact ⟨_, obstacleCallback_phase env o k g p m c hp1 hm1 hhit hs1 hc1 hc2,
          addExplosion_inv env _ _ _ _ ⟨⟨hp, rfl⟩, herase, hu, hq⟩⟩
      · have hph : ∀ c, m.effect.phaseCharges = some c → c ≤ 0 := by
          intro c h1
          by_contra hn
          exact hc ⟨c, h1, by omega⟩
        have hcb := obstacleCallback_life env o k g p m hp1 hm1 hhit hs1 hph
        have hinv := addExplosion_inv env o.x o.y "#FF4500"
          { g with lives := g.lives - 1, obstacles := g.obstacles.eraseIdx k }
          ⟨⟨hp, hm⟩, herase, hu, hq⟩
        by_cases hl : g.lives - 1 ≤ 0
        · rw [if_pos hl, gameOver_eq (playSFX "obstacle" _) hinv.1.2] at hcb
          exact ⟨_, hcb, present_of_fields _ _ hinv.1 rfl rfl,
            pruned_of_fields _ _ hinv.2 rfl rfl rfl⟩
        · rw [if_neg hl] at hcb
          exact ⟨_, hcb, present_of_fields _ _ hinv.1 rfl rfl,
            pruned_of_fields _ _ hinv.2 rfl rfl rfl⟩
  · have hmiss : p.collidesWith env o = false := by simpa using hhit
    exact ⟨g, obstacleCallback_miss env o k g p hp1 hmiss, ⟨hp, hm⟩, ho, hu, hq⟩

theorem foldl_addExplosion_inv (env : Env α) (c : String) (obs : List (Obstacle α)) :
    ∀ g : Game α, Present g ∧ Pruned g →
      Present (obs.foldl (fun g ob => addExplosion env ob.x ob.y c g) g) ∧
      Pruned (obs.foldl (fun g ob => addExplosion env ob.x ob.y c g) g) := by
  induction obs with
  | nil => intro g h; exact h
  | cons o rest ih =>
    intro g h
    exact ih _ (addExplosion_inv env _ _ _ _ h)

theorem collectPowerUp_inv (env : Env α) (u : PowerUp α) (g : Game α)
    (h : Present g ∧ Pruned g) :
    ∃ g1, collectPowerUp env u g = .ok g1 ∧ Present g1 ∧ Pruned g1 ∧
      g1.powerUps = g.powerUps := by
  obtain ⟨⟨hp, hm⟩, ho, hu, hq⟩ := h
  obtain ⟨p, hp1⟩ := Option.isSome_iff_exists.mp hp
  obtain ⟨m, hm1⟩ := Option.isSome_iff_exists.mp hm
  unfold collectPowerUp
  simp only [hm1, hp1]
  cases u.type
  case nuke =>
    have h1 := foldl_addExplosion_inv env "#FF4500" g.obstacles g ⟨⟨hp, hm⟩, ho, hu, hq⟩
    have h2 := foldl_addExplosion_powerUps env "#FF4500" g.obstacles g
    exact ⟨_, rfl, h1.1, ⟨by simp, h1.2.2.1, h1.2.2.2⟩, h2⟩
  all_goals exact ⟨_, rfl, ⟨by simp [hp, hm, hm1, hp1], by simp [hp, hm, hm1, hp1]⟩, ⟨ho, hu, hq⟩, rfl⟩

theorem powerUpCallback_inv (env : Env α) (u : PowerUp α) (k : Nat) (g : Game α)
    (h : Present g ∧ Pruned g) :
    ∃ g1, powerUpCallback env u k g = .ok g1 ∧ Present g1 ∧ Pruned g1 := by
  obtain ⟨p, hp1⟩ := Option.isSome_iff_exists.mp h.1.1
  by_cases hhit : p.collidesWithPowerUp env u = true
  · obtain ⟨g1, e1, hpres, ⟨ho, hu, hq⟩, _⟩ := collectPowerUp_inv env u g h
    have hinv := addExplosion_inv env u.x u.y u.color
      { g1 with powerUps := g1.powerUps.eraseIdx k }
      ⟨hpres, ho, fun u1 h1 => hu u1 (mem_eraseIdx _ _ _ h1), hq⟩
    refine ⟨playSFX "powerup" (addExplosion env u.x u.y u.color
      { g1 with powerUps := g1.powerUps.eraseIdx k }), ?_,
      present_of_fields _ _ hinv.1 rfl rfl, pruned_of_fields _ _ hinv.2 rfl rfl rfl⟩
    simp [powerUpCallback, hp1, hhit, e1, Except.bind]
  · have hmiss : p.collidesWithPowerUp env u = false := by simpa using hhit
    exact ⟨g, powerUpCallback_miss env u k g p hp1 hmiss, h⟩

/-- With player and modifier present `checkCollisions` returns, and it keeps the
collections pruned. -/
theorem checkCollisions_inv (env : Env α) (g : Game α) (h : Present g ∧ Pruned g) :
    ∃ g1, checkCollisions env g = .ok g1 ∧ Present g1 ∧ Pruned g1 := by
  obtain ⟨g1, e1, h1⟩ := forEachFrom_invariant (fun g => g.obstacles) (obstacleCallback env)
    (fun g => Present g ∧ Pruned g) (fun b k g hg _ => obstacleCallback_inv env b k g hg)
    g.obstacles.length 0 g h
  obtain ⟨g2, e2, h2⟩ := forEachFrom_invariant (fun g => g.powerUps) (powerUpCallback env)
    (fun g => Present g ∧ Pruned g) (fun b k g hg _ => powerUpCallback_inv env b k g hg)
    g1.powerUps.length 0 g1 h1
  refine ⟨g2, ?_, h2⟩
  unfold checkCollisions checkObstacleCollisions checkPowerUpCollisions forEach
  simp only [e1, Except.bind]
  exact e2

theorem updateTimeDilation_inv (env : Env α) (g : Game α) (h : Present g) :
    ∃ g1, updateTimeDilation env g = .ok g1 ∧ Present g1 ∧
      g1.obstacles = g.obstacles ∧ g1.powerUps = g.powerUps ∧ g1.particles = g.particles := by
  obtain ⟨p, hp1⟩ := Option.isSome_iff_exists.mp h.1
  unfold updateTimeDilation
  dsimp only
  split
  · exact ⟨_, rfl, present_of_fields _ _ h rfl rfl, rfl, rfl, rfl⟩
  · rename_i h1
    rw [hp1] at h1
    exact absurd h1 (by simp)
  · exact ⟨_, rfl, present_of_fields _ _ h rfl rfl, rfl, rfl, rfl⟩

theorem updateGameObjects_inv (env : Env α) (scaledDelta speed : α) (g : Game α)
    (h : Present g) :
    ∃ g1, updateGameObjects env scaledDelta speed g = .ok g1 ∧ Present g1 ∧ Pruned g1 := by
  obtain ⟨p, hp1⟩ := Option.isSome_iff_exists.mp h.1
  obtain ⟨m, hm1⟩ := Option.isSome_iff_exists.mp h.2
  unfold updateGameObjects
  dsimp only
  split
  · rename_i h1; rw [hp1] at h1; exact absurd h1 (by simp)
  · rename_i h1 h2; rw [hm1] at h2; exact absurd h2 (by simp)
  · refine ⟨_, rfl, present_of_fields _ _ h rfl rfl, ?_, ?_, ?_⟩
    · intro o ho
      simpa using (List.mem_filter.mp ho).2
    · intro u hu
      simpa using (List.mem_filter.mp hu).2
    · intro q hq
      simpa using (List.mem_filter.mp hq).2

end Pruning

section PruningUpdate

variable {α : Type} [LinearOrderedField α] [FloorRing α]

/-- The index `Math.floor(Math.random() * 7)` always names an entry of
`POWER_UP_TYPES`, so `spawnPowerUp()` returns. -/
theorem spawnPowerUp_inv (env : Env α) (g : Game α) (h : Present g) :
    ∃ g1, spawnPowerUp env g = .ok g1 ∧ Present g1 := by
  have h0 := env.random_nonneg g.randIx
  have h1 := env.random_lt_one g.randIx
  have hlo : (0 : Int) ≤ ⌊env.random g.randIx * ((POWER_UP_TYPES.length : Nat) : α)⌋ :=
    Int.floor_nonneg.mpr (mul_nonneg h0 (Nat.cast_nonneg _))
  have hhi : ⌊env.random g.randIx * ((POWER_UP_TYPES.length : Nat) : α)⌋ < 7 := by
    rw [Int.floor_lt]
    simp only [POWER_UP_TYPES, List.length_cons, List.length_nil]
    push_cast
    linarith
  obtain ⟨n, hn⟩ := Int.eq_ofNat_of_zero_le hlo
  have hn7 : n < 7 := by omega
  have hget : ∃ t, POWER_UP_TYPES[n]? = some t := by
    have : n < POWER_UP_TYPES.length := by simpa [POWER_UP_TYPES] using hn7
    exact ⟨POWER_UP_TYPES[n], List.getElem?_eq_getElem this⟩
  obtain ⟨t, ht⟩ := hget
  unfold spawnPowerUp
  dsimp only [random]
  rw [hn]
  simp only [Int.ofNat_nonneg, if_true, Int.toNat_ofNat, ht]
  exact ⟨_, rfl, present_of_fields _ _ h rfl rfl⟩

/-- C8: with player and modifier in place (as in every `playing` state) `update` returns,
and after it every obstacle and every power-up left in its collection has `x > -100`
and every particle left has `life > 0`, whatever the delta, the input, the random draws
and the collections before. -/
theorem update_prunes (env : Env α) (inp : Input α) (deltaTime : α) (g : Game α)
    (p : Player α) (m : Modifier α) (hp : g.player = some p)
    (hm : g.activeModifier = some m) :
    ∃ g1, update env inp deltaTime g = .ok g1 ∧
      (∀ o ∈ g1.obstacles, o.x > -100) ∧ (∀ u ∈ g1.powerUps, u.x > -100) ∧
      (∀ q ∈ g1.particles, q.life > 0) := by
  have hpres : Present g := ⟨by simp [hp], by simp [hm]⟩
  rw [update_eq_stages]
  generalize deltaTime * g.timeScale = sd
  -- timers and player
  have h1 : ∃ g1, updatePlayer env inp sd (updateTimers sd g) = .ok g1 ∧ Present g1 := by
    have hp0 : (updateTimers sd g).player = some p := by
      unfold updateTimers; dsimp only; split <;> exact hp
    have hm0 : (updateTimers sd g).activeModifier = some m := by
      unfold updateTimers; dsimp only; split <;> exact hm
    unfold updatePlayer
    rw [hp0]
    exact ⟨_, rfl, by simp [Present, hm0]⟩
  obtain ⟨g1, e1, p1⟩ := h1
  -- time dilation
  have h2 : ∃ g2, updateDilation env g1 = .ok g2 ∧ Present g2 := by
    obtain ⟨m1, hm1⟩ := Option.isSome_iff_exists.mp p1.2
    unfold updateDilation
    rw [hm1]
    dsimp only
    split
    · obtain ⟨g2, e2, p2, _⟩ := updateTimeDilation_inv env g1 p1
      exact ⟨g2, e2, p2⟩
    · exact ⟨g1, rfl, p1⟩
  obtain ⟨g2, e2, p2⟩ := h2
  -- spawn trials
  have h3a : Present (obstacleTrial env sd g2) := by
    unfold obstacleTrial
    dsimp only [random]
    repeat' split
    all_goals exact present_of_fields _ _ p2 rfl rfl
  have h3 : ∃ g3, powerUpTrial env sd (obstacleTrial env sd g2) = .ok g3 ∧ Present g3 := by
    unfold powerUpTrial
    dsimp only [random]
    split
    · exact spawnPowerUp_inv env _ (present_of_fields _ _ h3a rfl rfl)
    · exact ⟨_, rfl, present_of_fields _ _ h3a rfl rfl⟩
  obtain ⟨g3, e3, p3⟩ := h3
  -- movement and pruning
  obtain ⟨g4, e4, p4, q4⟩ := updateGameObjects_inv env sd g3.currentSpeed g3 p3
  -- particle limit and trail
  have h5a : Present (capParticles g4) ∧ Pruned (capParticles g4) := by
    have key : ∀ n : Nat,
        Present (if g4.particles.length > n then
          { g4 with particles := g4.particles.drop (g4.particles.length - n) } else g4) ∧
        Pruned (if g4.particles.length > n then
          { g4 with particles := g4.particles.drop (g4.particles.length - n) } else g4) := by
      intro n
      by_cases hn : g4.particles.length > n
      · rw [if_pos hn]
        exact ⟨present_of_fields _ _ p4 rfl rfl, q4.1, q4.2.1,
          fun q hq => q4.2.2 q (List.mem_of_mem_drop hq)⟩
      · rw [if_neg hn]
        exact ⟨p4, q4⟩
    unfold capParticles
    exact key _
  have h5 : ∃ g5, emitTrail env (capParticles g4) = .ok g5 ∧ Present g5 ∧ Pruned g5 := by
    obtain ⟨p5, hp5⟩ := Option.isSome_iff_exists.mp h5a.1.1
    generalize capParticles g4 = gc at h5a hp5
    unfold emitTrail
    dsimp only [random]
    by_cases hc : env.random gc.randIx <
        (if gc.performanceLevel = PerformanceLevel.low then 1 / 10 else 3 / 10)
    · rw [if_pos hc]
      split
      · rename_i h1
        exact absurd (Eq.trans (Eq.symm h1) hp5) (by simp)
      · refine ⟨_, rfl, present_of_fields _ _ h5a.1 rfl rfl, h5a.2.1, h5a.2.2.1, ?_⟩
        intro q hq
        simp only [addParticle, random, List.mem_append, List.mem_singleton] at hq
        rcases hq with hq | hq
        · exact h5a.2.2.2 q hq
        · rw [hq]; simp [Particle.new]
    · rw [if_neg hc]
      exact ⟨_, rfl, present_of_fields _ _ h5a.1 rfl rfl,
        pruned_of_fields _ _ h5a.2 rfl rfl rfl⟩
  obtain ⟨g5, e5, p5, q5⟩ := h5
  -- collisions and score
  obtain ⟨g6, e6, p6, q6⟩ := checkCollisions_inv env g5 ⟨p5, q5⟩
  obtain ⟨m6, hm6⟩ := Option.isSome_iff_exists.mp p6.2
  simp only [e1, e2, e3, e4, e5, e6, Except.bind]
  unfold updateScore
  simp only [hm6]
  exact ⟨_, rfl, q6⟩

end PruningUpdate

section PruningConcrete

/-- Witness of C8: a run with an obstacle at `x = -99`, about to pass the boundary; the
frame returns and leaves the collections pruned. -/
theorem update_prunes_witness :
    ∃ g1, update realEnv noInput 16
        (playingState plainModifier 1 [Obstacle.new (-99) 100 30] []) = .ok g1 ∧
      (∀ o ∈ g1.obstacles, o.x > -100) ∧ (∀ u ∈ g1.powerUps, u.x > -100) ∧
      (∀ q ∈ g1.particles, q.life > 0) :=
  update_prunes realEnv noInput 16
    (playingState plainModifier 1 [Obstacle.new (-99) 100 30] [])
    (Player.new 100 300 plainModifier) plainModifier rfl rfl

end PruningConcrete

/-! ## Modifier selection and run initialisation -/

section Selection

variable {α : Type}

theorem jsonCopy_eq (m : Modifier α) : jsonCopy m = m := rfl

theorem currentModifier_none (g : Game α) (index : Int)
    (h : index < 0 ∨ (g.currentModifiers.length : Int) ≤ index) :
    currentModifier g index = none := by
  unfold currentModifier
  split
  · rename_i h0
    have hlen : g.currentModifiers.length ≤ index.toNat := by omega
    rw [List.getElem?_eq_none hlen]
    rfl
  · rfl

/-- C9: an index that names none of the offered modifiers (negative, or at or beyond the
number offered; after the start action that is any index outside `0..2`; any index at
all while nothing is offered) makes `selectModifier` raise with every field as it was:
nothing is selected, no sound is played and no `initializeGame` is scheduled. -/
theorem selectModifier_rejects (g : Game α) (index : Int) :
    (index < 0 ∨ (g.currentModifiers.length : Int) ≤ index →
      selectModifier g index = .error g) ∧
    (∀ shuffled : List Nat, index < 0 ∨ 3 ≤ index →
      selectModifier (startGame shuffled g) index = .error (startGame shuffled g)) ∧
    (g.currentModifiers = [] → selectModifier g index = .error g) := by
  have key : ∀ g1 : Game α, index < 0 ∨ (g1.currentModifiers.length : Int) ≤ index →
      selectModifier g1 index = .error g1 := by
    intro g1 h
    unfold selectModifier
    rw [currentModifier_none g1 index h]
  refine ⟨key g, ?_, ?_⟩
  · intro shuffled h
    apply key
    rcases h with h | h
    · exact Or.inl h
    · right
      have : (startGame shuffled g).currentModifiers.length ≤ 3 := by
        simp [startGame, generateModifierOptions, playSFX]
      omega
  · intro h
    apply key
    rw [h]
    simp only [List.length_nil, Nat.cast_zero]
    omega

end Selection

section Initialize

variable {α : Type} [LinearOrderedField α]

/-- The effect of `initializeGame()` once a modifier has been selected. -/
theorem initializeGame_eq (env : Env α) (g : Game α) (m : Modifier α)
    (hsel : g.selectedModifier = some m) :
    initializeGame env g = .ok { g with
      gameState := GameState.playing
      audio := g.audio ++ [Cue.theme "game"] ++ [Cue.sfx "start"]
      score := 0
      lives := 1 + m.effect.extraLives.getD 0
      gameSpeed := 2
      timeScale := 1
      obstacles := []
      powerUps := []
      particles := []
      activeModifier := some m
      player := some (Player.new 100 (env.innerHeight / 2) m) } := by
  unfold initializeGame applyModifier
  dsimp only [playTheme, playSFX]
  simp only [hsel, Option.map_some', jsonCopy_eq]
  cases he : m.effect.extraLives with
  | none => simp [Except.bind]
  | some n =>
    by_cases hn : n = 0
    · simp [Except.bind, hn]
    · simp [Except.bind, hn]

theorem orElse_eq_getD (v : Option α) (d : α) (h : v ≠ some 0) : orElse v d = v.getD d := by
  cases v with
  | none => rfl
  | some x =>
    have hx : x ≠ 0 := fun hx => h (by rw [hx])
    simp [orElse, hx]

/-- C10: once a modifier `m` is selected, `initializeGame()` returns with the state
`playing`, score 0, lives `1 + extraLives` (0 when absent), gameSpeed 2, timeScale 1,
empty obstacle, power-up and particle collections, a copy of `m` as active modifier and
a new player at `(100, innerHeight / 2)` of size `20 * (size || 1)` and speed
`5 * (speed || 1)`, with the three boost flags false and the three boost timers 0.
`size || 1` is `size`, or `1` when it is absent, unless `size` is `0`; no entry of
`MODIFIERS` has a `size` or `speed` of `0`. -/
theorem initializeGame_resets (env : Env α) (g : Game α) (m : Modifier α)
    (hsel : g.selectedModifier = some m) :
    ∃ g1 p, initializeGame env g = .ok g1 ∧ g1.gameState = GameState.playing ∧
      g1.score = 0 ∧ g1.lives = 1 + m.effect.extraLives.getD 0 ∧ g1.gameSpeed = 2 ∧
      g1.timeScale = 1 ∧ g1.obstacles = [] ∧ g1.powerUps = [] ∧ g1.particles = [] ∧
      g1.activeModifier = some m ∧ g1.player = some p ∧
      p.x = 100 ∧ p.y = env.innerHeight / 2 ∧
      p.size = 20 * orElse m.effect.size 1 ∧ p.speed = 5 * orElse m.effect.speed 1 ∧
      (m.effect.size ≠ some 0 → p.size = 20 * m.effect.size.getD 1) ∧
      (m.effect.speed ≠ some 0 → p.speed = 5 * m.effect.speed.getD 1) ∧
      p.hasShield = false ∧ p.hasMagnet = false ∧ p.hasSpeedBoost = false ∧
      p.shieldTime = 0 ∧ p.magnetTime = 0 ∧ p.speedTime = 0 ∧
      (∀ c ∈ (MODIFIERS : List (Modifier α)),
        c.effect.size ≠ some 0 ∧ c.effect.speed ≠ some 0) := by
  refine ⟨_, Player.new 100 (env.innerHeight / 2) m, initializeGame_eq env g m hsel,
    rfl, rfl, rfl, rfl, rfl, rfl, rfl, rfl, rfl, rfl, rfl, rfl, rfl, rfl, ?_, ?_,
    rfl, rfl, rfl, rfl, rfl, rfl, ?_⟩
  · intro h
    show 20 * orElse m.effect.size 1 = _
    rw [orElse_eq_getD _ _ h]
  · intro h
    show 5 * orElse m.effect.speed 1 = _
    rw [orElse_eq_getD _ _ h]
  · intro c hc
    simp only [List.mem_cons, MODIFIERS, List.mem_singleton, List.not_mem_nil, or_false] at hc
    rcases hc with rfl | rfl | rfl | rfl | rfl | rfl | rfl | rfl <;> simp

end Initialize

section SelectionConcrete

/-- Witness of C9: in the constructor's state nothing is offered, so index 0 is rejected;
after the start action index 3 is rejected. -/
theorem selectModifier_rejects_witness :
    selectModifier (Game.initial (0 : ℝ) PerformanceLevel.high) 0 =
      .error (Game.initial 0 PerformanceLevel.high) ∧
    selectModifier (startGame [6, 1, 2, 3, 4, 5, 0, 7]
        (Game.initial (0 : ℝ) PerformanceLevel.high)) 3 =
      .error (startGame [6, 1, 2, 3, 4, 5, 0, 7] (Game.initial 0 PerformanceLevel.high)) :=
  ⟨(selectModifier_rejects (Game.initial (0 : ℝ) PerformanceLevel.high) 0).2.2 rfl,
   (selectModifier_rejects (Game.initial (0 : ℝ) PerformanceLevel.high) 3).2.1
      [6, 1, 2, 3, 4, 5, 0, 7] (Or.inr le_rfl)⟩

/-- Witness of C10: with "Giant Mode" selected, `initializeGame()` gives one life and a
player of size 40 and speed 5. -/
theorem initializeGame_resets_witness :
    ∃ g1 p, initializeGame realEnv
        { Game.initial (0 : ℝ) PerformanceLevel.high with selectedModifier := some giantMode }
        = .ok g1 ∧
      g1.score = 0 ∧ g1.lives = 1 ∧ g1.player = some p ∧ p.size = 40 ∧ p.speed = 5 := by
  obtain ⟨g1, p, h1, _, h3, h4, _, _, _, _, _, _, h11, _, _, _, _, h16, h17, _⟩ :=
    initializeGame_resets realEnv
      { Game.initial (0 : ℝ) PerformanceLevel.high with selectedModifier := some giantMode }
      giantMode rfl
  refine ⟨g1, p, h1, h3, by simpa [giantMode] using h4, h11, ?_, ?_⟩
  · rw [h16 (by simp [giantMode])]; norm_num [giantMode]
  · rw [h17 (by simp [giantMode])]; norm_num [giantMode]

end SelectionConcrete

/-! ## The obstacle pass under a shield -/

section ShieldPass

variable {α : Type} [LinearOrderedField α]

/-- Under an active shield the pass over the obstacles returns and leaves lives, the
active modifier (so its phase charges), the state and the number of `gameOver()` runs
as they were, whatever the obstacle list. -/
theorem checkObstacleCollisions_shield (env : Env α) (g : Game α) (p : Player α)
    (hp : g.player = some p) (hshield : p.hasShield = true) :
    ∃ g1, checkObstacleCollisions env g = .ok g1 ∧ g1.player = some p ∧
      g1.lives = g.lives ∧ g1.activeModifier = g.activeModifier ∧
      g1.gameState = g.gameState ∧ gameOverCalls g1 = gameOverCalls g ∧
      g1.powerUps = g.powerUps := by
  unfold checkObstacleCollisions forEach
  refine forEachFrom_invariant (fun g => g.obstacles) (obstacleCallback env)
    (fun g1 => g1.player = some p ∧ g1.lives = g.lives ∧
      g1.activeModifier = g.activeModifier ∧ g1.gameState = g.gameState ∧
      gameOverCalls g1 = gameOverCalls g ∧ g1.powerUps = g.powerUps) ?_ _ 0 g
    ⟨hp, rfl, rfl, rfl, rfl, rfl⟩
  intro b k g1 ⟨h1, h2, h3, h4, h5, h6⟩ _
  by_cases hhit : p.collidesWith env b = true
  · obtain ⟨g2, e, k1, k2, k3, _, k5, k6, k7⟩ :=
      obstacleCallback_shield_spec env b k g1 p h1 hhit hshield
    exact ⟨g2, e, k1, by rw [k3, h2], by rw [k2, h3], by rw [k7, h4], by rw [k6, h5],
      by rw [k5, h6]⟩
  · have hmiss : p.collidesWith env b = false := by simpa using hhit
    exact ⟨g1, obstacleCallback_miss env b k g1 p h1 hmiss, h1, h2, h3, h4, h5, h6⟩

end ShieldPass

/-! ## Timed boosts (`Player.update`, `Player.activate...`) -/

section Boosts

variable {α : Type} [LinearOrderedField α]

/-- C15: after `Player.update` with delta `dt`, each of the three boost timers is
`max 0 (previous - dt)` and its flag says whether the new timer is positive, so a timer
that has run out (`previous <= dt`) is `0` with its flag cleared.  Activating one boost
sets its timer to the duration and leaves the other two timers and all three flags as
they were. -/
theorem boosts_decay_independent (env : Env α) (p : Player α) (dt duration : α)
    (inp : Input α) (useVirtualJoystick : Bool) :
    ((p.update env dt inp useVirtualJoystick).shieldTime = max 0 (p.shieldTime - dt) ∧
     (p.update env dt inp useVirtualJoystick).magnetTime = max 0 (p.magnetTime - dt) ∧
     (p.update env dt inp useVirtualJoystick).speedTime = max 0 (p.speedTime - dt)) ∧
    ((p.update env dt inp useVirtualJoystick).hasShield =
        decide ((p.update env dt inp useVirtualJoystick).shieldTime > 0) ∧
     (p.update env dt inp useVirtualJoystick).hasMagnet =
        decide ((p.update env dt inp useVirtualJoystick).magnetTime > 0) ∧
     (p.update env dt inp useVirtualJoystick).hasSpeedBoost =
        decide ((p.update env dt inp useVirtualJoystick).speedTime > 0)) ∧
    ((p.shieldTime ≤ dt → (p.update env dt inp useVirtualJoystick).shieldTime = 0 ∧
        (p.update env dt inp useVirtualJoystick).hasShield = false) ∧
     (p.magnetTime ≤ dt → (p.update env dt inp useVirtualJoystick).magnetTime = 0 ∧
        (p.update env dt inp useVirtualJoystick).hasMagnet = false) ∧
     (p.speedTime ≤ dt → (p.update env dt inp useVirtualJoystick).speedTime = 0 ∧
        (p.update env dt inp useVirtualJoystick).hasSpeedBoost = false)) ∧
    (p.activateShield duration = { p with shieldTime := duration } ∧
     p.activateMagnet duration = { p with magnetTime := duration } ∧
     p.activateSpeedBoost duration = { p with speedTime := duration }) ∧
    ((p.activateShield duration).magnetTime = p.magnetTime ∧
     (p.activateShield duration).speedTime = p.speedTime ∧
     (p.activateShield duration).hasMagnet = p.hasMagnet ∧
     (p.activateShield duration).hasSpeedBoost = p.hasSpeedBoost) ∧
    ((p.activateMagnet duration).shieldTime = p.shieldTime ∧
     (p.activateMagnet duration).speedTime = p.speedTime ∧
     (p.activateMagnet duration).hasShield = p.hasShield ∧
     (p.activateMagnet duration).hasSpeedBoost = p.hasSpeedBoost) ∧
    ((p.activateSpeedBoost duration).shieldTime = p.shieldTime ∧
     (p.activateSpeedBoost duration).magnetTime = p.magnetTime ∧
     (p.activateSpeedBoost duration).hasShield = p.hasShield ∧
     (p.activateSpeedBoost duration).hasMagnet = p.hasMagnet) := by
  refine ⟨⟨rfl, rfl, rfl⟩, ⟨rfl, rfl, rfl⟩, ⟨?_, ?_, ?_⟩, ⟨rfl, rfl, rfl⟩,
    ⟨rfl, rfl, rfl, rfl⟩, ⟨rfl, rfl, rfl, rfl⟩, ⟨rfl, rfl, rfl, rfl⟩⟩
  · intro h
    have h0 : max 0 (p.shieldTime - dt) = 0 := max_eq_left (by linarith)
    exact ⟨h0, by show decide (max 0 (p.shieldTime - dt) > 0) = false; simp [h0]⟩
  · intro h
    have h0 : max 0 (p.magnetTime - dt) = 0 := max_eq_left (by linarith)
    exact ⟨h0, by show decide (max 0 (p.magnetTime - dt) > 0) = false; simp [h0]⟩
  · intro h
    have h0 : max 0 (p.speedTime - dt) = 0 := max_eq_left (by linarith)
    exact ⟨h0, by show decide (max 0 (p.speedTime - dt) > 0) = false; simp [h0]⟩

end Boosts

section BoostsConcrete

/-- Witness of C15: a shield with 5000 ms left and a magnet with 10 ms left; after an
update with delta 16 the shield has 4984 ms and is on, the magnet is at 0 and off. -/
theorem boosts_decay_independent_witness :
    ((boostedPlayer : Player ℝ).update realEnv 16 noInput false).shieldTime = 4984 ∧
    ((boostedPlayer : Player ℝ).update realEnv 16 noInput false).hasShield = true ∧
    ((boostedPlayer : Player ℝ).update realEnv 16 noInput false).magnetTime = 0 ∧
    ((boostedPlayer : Player ℝ).update realEnv 16 noInput false).hasMagnet = false := by
  obtain ⟨⟨h1, _, _⟩, ⟨h2, _, _⟩, ⟨_, h3, _⟩, _⟩ :=
    boosts_decay_independent realEnv (boostedPlayer : Player ℝ) 16 0 noInput false
  have e1 : ((boostedPlayer : Player ℝ).update realEnv 16 noInput false).shieldTime = 4984 := by
    rw [h1]; norm_num [boostedPlayer]
  refine ⟨e1, ?_, (h3 (by norm_num [boostedPlayer])).1, (h3 (by norm_num [boostedPlayer])).2⟩
  rw [h2, e1]; norm_num

end BoostsConcrete

/-! ## Power-up effects (`collectPowerUp`) -/

section Collect

variable {α : Type} [LinearOrderedField α]

theorem collectPowerUp_score (env : Env α) (u : PowerUp α) (g : Game α) (m : Modifier α)
    (hm : g.activeModifier = some m) (hu : u.type = PowerUpType.score) :
    collectPowerUp env u g =
      .ok { g with score := g.score + 100 * orElse m.effect.pointMultiplier 1 } := by
  unfold collectPowerUp
  simp only [hm, hu, PowerUpType.points]

theorem foldl_addExplosion_eq (env : Env α) (obs : List (Obstacle α)) :
    ∀ g : Game α,
      obs.foldl (fun g ob => addExplosion env ob.x ob.y "#FF4500" g) g =
        { g with
          particles := g.particles ++ (nukeBursts env (particleCount g) obs g.randIx).flatten
          randIx := g.randIx + 3 * particleCount g * obs.length } := by
  induction obs with
  | nil => intro g; simp [nukeBursts]
  | cons o rest ih =>
    intro g
    rw [List.foldl_cons, ih, addExplosion_eq]
    have hc : particleCount { g with
        particles := g.particles ++ burst env o.x o.y "#FF4500" g.randIx (particleCount g)
        randIx := g.randIx + 3 * particleCount g } = particleCount g := rfl
    simp only [hc, nukeBursts, List.flatten_cons, List.length_cons, List.append_assoc]
    congr 1
    ring

theorem collectPowerUp_nuke (env : Env α) (u : PowerUp α) (g : Game α) (m : Modifier α)
    (hm : g.activeModifier = some m) (hu : u.type = PowerUpType.nuke) :
    collectPowerUp env u g =
      .ok { g with
        obstacles := []
        particles := g.particles ++ (nukeBursts env (particleCount g) g.obstacles g.randIx).flatten
        randIx := g.randIx + 3 * particleCount g * g.obstacles.length } := by
  unfold collectPowerUp
  simp only [hm, hu, foldl_addExplosion_eq]

theorem burst_at (env : Env α) (x y : α) (color : String) (start n : Nat) :
    ∀ q ∈ burst env x y color start n, q.x = x ∧ q.y = y ∧ q.color = color ∧ q.life = 1000 := by
  induction n generalizing start with
  | zero => simp [burst]
  | succ n ih =>
    intro q hq
    simp only [burst, List.mem_cons] at hq
    rcases hq with rfl | hq
    · simp [Particle.new]
    · exact ih _ q hq

theorem nukeBursts_forall (env : Env α) (count : Nat) (obs : List (Obstacle α)) :
    ∀ start : Nat, List.Forall₂
      (fun ob b => b.length = count ∧
        ∀ q ∈ b, q.x = ob.x ∧ q.y = ob.y ∧ q.color = "#FF4500" ∧ q.life = 1000)
      obs (nukeBursts env count obs start) := by
  induction obs with
  | nil => intro start; exact List.Forall₂.nil
  | cons o rest ih =>
    intro start
    exact List.Forall₂.cons ⟨burst_length env _ _ _ _ _, burst_at env _ _ _ _ _⟩ (ih _)

end Collect

/-! ## Pick-ups in `checkCollisions` -/

section Pickup

variable {α : Type} [LinearOrderedField α]

theorem powerUpCallback_hit (env : Env α) (u : PowerUp α) (k : Nat) (g g1 : Game α)
    (p : Player α) (hp : g.player = some p) (hhit : p.collidesWithPowerUp env u = true)
    (hc : collectPowerUp env u g = .ok g1) :
    powerUpCallback env u k g =
      .ok (playSFX "powerup" (addExplosion env u.x u.y u.color
        { g1 with powerUps := g1.powerUps.eraseIdx k })) := by
  unfold powerUpCallback
  simp only [hp, hhit, if_true, hc, Except.bind]

/-- The obstacle pass changes nothing when no obstacle touches the player. -/
theorem checkObstacleCollisions_none (env : Env α) (g : Game α) (p : Player α)
    (hp : g.player = some p) (hc : ∀ o ∈ g.obstacles, p.collidesWith env o = false) :
    checkObstacleCollisions env g = .ok g := by
  unfold checkObstacleCollisions forEach
  apply forEachFrom_fixed
  intro j b _ _ hb
  exact obstacleCallback_miss env b j g p hp (hc b (List.getElem?_mem hb))

/-- A pass in which no obstacle and exactly one power-up touches the player is the
callback on that power-up. -/
theorem checkCollisions_single_pickup (env : Env α) (g g1 : Game α) (p p1 : Player α)
    (pre post : List (PowerUp α)) (u : PowerUp α)
    (hp : g.player = some p) (hobs : ∀ o ∈ g.obstacles, p.collidesWith env o = false)
    (hpu : g.powerUps = pre ++ u :: post)
    (hmiss : ∀ u1 ∈ pre ++ post, p.collidesWithPowerUp env u1 = false)
    (hstep : powerUpCallback env u pre.length g = .ok g1)
    (hp1 : g1.player = some p1) (hpu1 : g1.powerUps = pre ++ post)
    (hmiss1 : ∀ u1 ∈ pre ++ post, p1.collidesWithPowerUp env u1 = false) :
    checkCollisions env g = .ok g1 := by
  unfold checkCollisions
  rw [checkObstacleCollisions_none env g p hp hobs]
  simp only [Except.bind]
  unfold checkPowerUpCollisions
  refine forEach_single (fun g => g.powerUps) (powerUpCallback env) g g1 pre post u hpu
    ?_ hstep ?_
  · intro j b hj hb
    refine powerUpCallback_miss env b j g p hp (hmiss b ?_)
    simp only [hpu, List.getElem?_append_left hj] at hb
    exact List.mem_append_left _ (List.getElem?_mem hb)
  · intro j b hj hb
    refine powerUpCallback_miss env b j g1 p1 hp1 (hmiss1 b ?_)
    simp only [hpu1] at hb
    rw [List.getElem?_append_right (by omega)] at hb
    exact List.mem_append_right _ (List.getElem?_mem hb)

/-- C12: position 1 of `MODIFIERS` is "Giant Mode"; a player constructed with it has size
40, twice the 20 of a player without size effect, and a run initialised with it has such
a player and "Giant Mode" as active modifier.  Collecting a "score" power-up adds
`100 * (pointMultiplier || 1)` to the score and changes nothing else: 200 under
"Giant Mode", 100 when the modifier has no `pointMultiplier`.  The same holds for the
pass of `checkCollisions` in which that power-up is the only entity touching the
player, which also removes it. -/
theorem giant_mode_scenario (env : Env α) (g : Game α) (m : Modifier α) (u : PowerUp α) :
    ((MODIFIERS : List (Modifier α))[1]? = some giantMode) ∧
    (∀ x y : α, (Player.new x y giantMode).size = 40 ∧
      (Player.new x y plainModifier).size = 20) ∧
    (∀ g0 : Game α, g0.selectedModifier = some giantMode →
      ∃ g1 p1, initializeGame env g0 = .ok g1 ∧ g1.activeModifier = some giantMode ∧
        g1.player = some p1 ∧ p1.size = 40 ∧ g1.score = 0) ∧
    (g.activeModifier = some m → u.type = PowerUpType.score →
      collectPowerUp env u g =
        .ok { g with score := g.score + 100 * orElse m.effect.pointMultiplier 1 }) ∧
    (g.activeModifier = some giantMode → u.type = PowerUpType.score →
      ∃ g1, collectPowerUp env u g = .ok g1 ∧ g1.score = g.score + 200) ∧
    (g.activeModifier = some m → m.effect.pointMultiplier = none →
      u.type = PowerUpType.score →
      ∃ g1, collectPowerUp env u g = .ok g1 ∧ g1.score = g.score + 100) ∧
    (∀ (p : Player α) (pre post : List (PowerUp α)), g.player = some p →
      g.activeModifier = some m → u.type = PowerUpType.score →
      (∀ o ∈ g.obstacles, p.collidesWith env o = false) →
      g.powerUps = pre ++ u :: post → p.collidesWithPowerUp env u = true →
      (∀ u1 ∈ pre ++ post, p.collidesWithPowerUp env u1 = false) →
      ∃ g1, checkCollisions env g = .ok g1 ∧ g1.powerUps = pre ++ post ∧
        g1.score = g.score + 100 * orElse m.effect.pointMultiplier 1) := by
  refine ⟨rfl, ?_, ?_, ?_, ?_, ?_, ?_⟩
  · intro x y
    constructor
    · simp [Player.new, giantMode, orElse]; norm_num
    · simp [Player.new, plainModifier, orElse]
  · intro g0 h0
    refine ⟨_, _, initializeGame_eq env g0 giantMode h0, rfl, rfl, ?_, rfl⟩
    simp [Player.new, giantMode, orElse]; norm_num
  · intro hm hu
    exact collectPowerUp_score env u g m hm hu
  · intro hm hu
    refine ⟨_, collectPowerUp_score env u g giantMode hm hu, ?_⟩
    simp [giantMode, orElse]; norm_num
  · intro hm hpm hu
    refine ⟨_, collectPowerUp_score env u g m hm hu, ?_⟩
    simp [hpm, orElse]
  · intro p pre post hp hm hu hobs hpu hhit hmiss
    have hcb := powerUpCallback_hit env u pre.length g _ p hp hhit
      (collectPowerUp_score env u g m hm hu)
    refine ⟨_, checkCollisions_single_pickup env g _ p p pre post u hp hobs hpu hmiss hcb
      ?_ ?_ hmiss, ?_, ?_⟩
    · simp [addExplosion_eq, playSFX, hp]
    · simp [addExplosion_eq, playSFX, hpu, eraseIdx_middle]
    · simp [addExplosion_eq, playSFX, hpu, eraseIdx_middle]
    · simp [addExplosion_eq, playSFX]

/-- C13: collecting a "nuke" power-up returns with an empty obstacle collection and with
one explosion burst appended per former obstacle, in the order of the list: burst `i`
consists of `particleCount` particles (10, or 5 on the low performance tier), all at the
position of obstacle `i`.  Score, lives and power-ups are untouched.  In the pass of
`checkCollisions` in which that power-up is the only entity touching the player, the
power-up is removed as well and the burst that every pick-up gets, at the position of
the power-up, follows the bursts of the obstacles. -/
theorem nuke_clears_obstacles (env : Env α) (g : Game α) (u : PowerUp α) (m : Modifier α)
    (hm : g.activeModifier = some m) (hu : u.type = PowerUpType.nuke) :
    (∃ (g1 : Game α) (bursts : List (List (Particle α))),
      collectPowerUp env u g = .ok g1 ∧ g1.obstacles = [] ∧
      g1.particles = g.particles ++ bursts.flatten ∧
      bursts.length = g.obstacles.length ∧
      List.Forall₂ (fun ob b => b.length = particleCount g ∧
        ∀ q ∈ b, q.x = ob.x ∧ q.y = ob.y ∧ q.color = "#FF4500" ∧ q.life = 1000)
        g.obstacles bursts ∧
      particleCount g = (if g.performanceLevel = PerformanceLevel.low then 5 else 10) ∧
      g1.particles.length = g.particles.length + g.obstacles.length * particleCount g ∧
      g1.score = g.score ∧ g1.lives = g.lives ∧ g1.powerUps = g.powerUps) ∧
    (∀ (p : Player α) (pre post : List (PowerUp α)), g.player = some p →
      (∀ o ∈ g.obstacles, p.collidesWith env o = false) →
      g.powerUps = pre ++ u :: post → p.collidesWithPowerUp env u = true →
      (∀ u1 ∈ pre ++ post, p.collidesWithPowerUp env u1 = false) →
      ∃ (g1 : Game α) (bursts : List (List (Particle α))) (own : List (Particle α)),
        checkCollisions env g = .ok g1 ∧ g1.obstacles = [] ∧ g1.powerUps = pre ++ post ∧
        g1.particles = g.particles ++ bursts.flatten ++ own ∧
        bursts.length = g.obstacles.length ∧
        List.Forall₂ (fun ob b => b.length = particleCount g ∧
          ∀ q ∈ b, q.x = ob.x ∧ q.y = ob.y ∧ q.color = "#FF4500" ∧ q.life = 1000)
          g.obstacles bursts ∧
        own.length = particleCount g ∧ ∀ q ∈ own, q.x = u.x ∧ q.y = u.y) := by
  have hf := nukeBursts_forall env (particleCount g) g.obstacles g.randIx
  have hlen : ∀ (obs : List (Obstacle α)) (bs : List (List (Particle α))),
      List.Forall₂ (fun ob b => b.length = particleCount g ∧
        ∀ q ∈ b, q.x = ob.x ∧ q.y = ob.y ∧ q.color = "#FF4500" ∧ q.life = 1000) obs bs →
      bs.flatten.length = obs.length * particleCount g := by
    intro obs bs h
    induction h with
    | nil => simp
    | cons h1 _ ih =>
      simp only [List.flatten_cons, List.length_append, List.length_cons, ih, h1.1]
      ring
  constructor
  · refine ⟨_, nukeBursts env (particleCount g) g.obstacles g.randIx,
      collectPowerUp_nuke env u g m hm hu, rfl, rfl, hf.length_eq.symm, hf, rfl, ?_,
      rfl, rfl, rfl⟩
    simp [hlen _ _ hf]
  · intro p pre post hp hobs hpu hhit hmiss
    have hcb := powerUpCallback_hit env u pre.length g _ p hp hhit
      (collectPowerUp_nuke env u g m hm hu)
    refine ⟨_, nukeBursts env (particleCount g) g.obstacles g.randIx,
      burst env u.x u.y u.color (g.randIx + 3 * particleCount g * g.obstacles.length)
        (particleCount g),
      checkCollisions_single_pickup env g _ p p pre post u hp hobs hpu hmiss hcb
        ?_ ?_ hmiss, ?_, ?_, ?_, hf.length_eq.symm, hf, burst_length _ _ _ _ _ _, ?_⟩
    · simp [addExplosion_eq, playSFX, hp]
    · simp [addExplosion_eq, playSFX, hpu, eraseIdx_middle]
    · simp [addExplosion_eq, playSFX]
    · simp [addExplosion_eq, playSFX, hpu, eraseIdx_middle]
    · simp only [addExplosion_eq, playSFX]
      rfl
    · intro q hq
      obtain ⟨h1, h2, -⟩ := burst_at env u.x u.y u.color _ _ q hq
      exact ⟨h1, h2⟩

end Pickup

section PickupConcrete

/-- Witness of C12: a run initialised with "Giant Mode" has a player of size 40, and
collecting a "score" power-up in it brings the score from 0 to 200. -/
theorem giant_mode_scenario_witness :
    ∃ g1 p1 g2, initializeGame realEnv
        { Game.initial (0 : ℝ) PerformanceLevel.high with selectedModifier := some giantMode }
        = .ok g1 ∧
      g1.player = some p1 ∧ p1.size = 40 ∧
      collectPowerUp realEnv (PowerUp.new 100 300 PowerUpType.score) g1 = .ok g2 ∧
      g2.score = 200 := by
  obtain ⟨g1, p1, h1, h2, h3, h4, h5⟩ :=
    (giant_mode_scenario realEnv (Game.initial (0 : ℝ) PerformanceLevel.high) plainModifier
      (PowerUp.new 100 300 PowerUpType.score)).2.2.1
      { Game.initial (0 : ℝ) PerformanceLevel.high with selectedModifier := some giantMode } rfl
  obtain ⟨g2, k1, k2⟩ :=
    (giant_mode_scenario realEnv g1 plainModifier
      (PowerUp.new 100 300 PowerUpType.score)).2.2.2.2.1 h2 rfl
  exact ⟨g1, p1, g2, h1, h3, h4, k1, by rw [k2, h5]; norm_num⟩

/-- Witness of C13, the scenario of the specification: with 5 obstacles, collecting a
"nuke" leaves 0 obstacles and appends 5 bursts, 50 particles in all. -/
theorem nuke_clears_obstacles_witness :
    ∃ (g1 : Game ℝ) (bursts : List (List (Particle ℝ))),
      collectPowerUp realEnv (PowerUp.new 100 300 PowerUpType.nuke)
        (playingState plainModifier 1 fiveObstacles []) = .ok g1 ∧
      g1.obstacles = [] ∧ g1.particles = bursts.flatten ∧ bursts.length = 5 ∧
      g1.particles.length = 50 := by
  obtain ⟨g1, bursts, h1, h2, h3, h4, _, _, h7, _⟩ :=
    (nuke_clears_obstacles realEnv (playingState plainModifier 1 fiveObstacles [])
      (PowerUp.new 100 300 PowerUpType.nuke) plainModifier rfl rfl).1
  exact ⟨g1, bursts, h1, h2, by simpa [playingState, Game.initial] using h3,
    by simpa [playingState, fiveObstacles] using h4,
    by simpa [playingState, fiveObstacles, Game.initial, particleCount] using h7⟩

end PickupConcrete

/-! ## What a pass of `checkCollisions` leaves alone -/

section PassFrames

variable {α : Type} [LinearOrderedField α]

theorem pointMultiplierOf_congr (g g1 : Game α)
    (h : g1.activeModifier.map Modifier.sansCharges =
      g.activeModifier.map Modifier.sansCharges) :
    pointMultiplierOf g1 = pointMultiplierOf g := by
  unfold pointMultiplierOf
  cases h1 : g1.activeModifier with
  | none =>
    cases h0 : g.activeModifier with
    | none => rfl
    | some m => rw [h1, h0] at h; exact absurd h (by simp)
  | some m1 =>
    cases h0 : g.activeModifier with
    | none => rw [h1, h0] at h; exact absurd h (by simp)
    | some m =>
      rw [h1, h0] at h
      have h2 : m1.sansCharges = m.sansCharges := by simpa using h
      have h3 : m1.sansCharges.effect.pointMultiplier = m.sansCharges.effect.pointMultiplier := by
        rw [h2]
      exact congrArg (fun v => orElse v 1) h3

theorem passFrame_refl (g : Game α) : PassFrame g g :=
  ⟨rfl, rfl, rfl, rfl, ⟨[], by simp⟩, ⟨0, by simp⟩, fun h => h⟩

theorem passFrame_trans (a b c : Game α) (h1 : PassFrame a b) (h2 : PassFrame b c) :
    PassFrame a c := by
  obtain ⟨a1, a2, a3, a4, ⟨e1, a5⟩, ⟨k1, a6⟩, a7⟩ := h1
  obtain ⟨b1, b2, b3, b4, ⟨e2, b5⟩, ⟨k2, b6⟩, b7⟩ := h2
  refine ⟨by rw [b1, a1], by rw [b2, a2], by rw [b3, a3], by rw [b4, a4],
    ⟨e1 ++ e2, by rw [b5, a5, List.append_assoc]⟩, ⟨k1 + k2, ?_⟩, fun h => b7 (a7 h)⟩
  rw [b6, a6, pointMultiplierOf_congr a b a4]
  push_cast
  ring

/-- A step that changes none of the framed fields. -/
theorem passFrame_of_fields (g0 g g1 : Game α) (h : PassFrame g0 g)
    (h1 : g1.timeScale = g.timeScale) (h2 : g1.currentSpeed = g.currentSpeed)
    (h3 : g1.gameSpeed = g.gameSpeed) (h4 : g1.activeModifier = g.activeModifier)
    (h5 : g1.particles = g.particles) (h6 : g1.score = g.score)
    (h7 : g1.slowTime = g.slowTime) : PassFrame g0 g1 :=
  passFrame_trans g0 g g1 h
    ⟨h1, h2, h3, by rw [h4], ⟨[], by rw [h5]; simp⟩, ⟨0, by rw [h6]; simp⟩,
      fun h0 => by rw [h7]; exact h0⟩

theorem passFrame_addExplosion (env : Env α) (x y : α) (c : String) (g0 g : Game α)
    (h : PassFrame g0 g) : PassFrame g0 (addExplosion env x y c g) := by
  refine passFrame_trans g0 g _ h ?_
  rw [addExplosion_eq]
  exact ⟨rfl, rfl, rfl, rfl, ⟨_, rfl⟩, ⟨0, by simp⟩, fun h => h⟩

theorem passFrame_foldl_addExplosion (env : Env α) (c : String) (obs : List (Obstacle α)) :
    ∀ (g0 g : Game α), PassFrame g0 g →
      PassFrame g0 (obs.foldl (fun g ob => addExplosion env ob.x ob.y c g) g) := by
  induction obs with
  | nil => intro g0 g h; exact h
  | cons o rest ih =>
    intro g0 g h
    exact ih g0 _ (passFrame_addExplosion _ _ _ _ _ _ h)

theorem present_addExplosion (env : Env α) (x y : α) (c : String) (g : Game α)
    (h : Present g) : Present (addExplosion env x y c g) := by
  rw [addExplosion_eq]; exact h

theorem present_foldl_addExplosion (env : Env α) (c : String) (obs : List (Obstacle α)) :
    ∀ g : Game α, Present g →
      Present (obs.foldl (fun g ob => addExplosion env ob.x ob.y c g) g) := by
  induction obs with
  | nil => intro g h; exact h
  | cons o rest ih =>
    intro g h
    exact ih _ (present_addExplosion _ _ _ _ _ h)

theorem obstacleCallback_frame (env : Env α) (o : Obstacle α) (k : Nat) (g0 g : Game α)
    (h : Present g ∧ PassFrame g0 g) :
    ∃ g1, obstacleCallback env o k g = .ok g1 ∧ Present g1 ∧ PassFrame g0 g1 := by
  obtain ⟨⟨hp, hm⟩, hf⟩ := h
  obtain ⟨p, hp1⟩ := Option.isSome_iff_exists.mp hp
  obtain ⟨m, hm1⟩ := Option.isSome_iff_exists.mp hm
  by_cases hhit : p.collidesWith env o = true
  · by_cases hs : p.hasShield = true
    · exact ⟨_, obstacleCallback_shield env o k g p hp1 hhit hs,
        present_addExplosion _ _ _ _ _ (present_of_fields g _ ⟨hp, hm⟩ rfl rfl),
        passFrame_addExplosion _ _ _ _ _ _
          (passFrame_of_fields g0 g _ hf rfl rfl rfl rfl rfl rfl rfl)⟩
    · have hs1 : p.hasShield = false := by simpa using hs
      by_cases hc : ∃ c : Int, m.effect.phaseCharges = some c ∧ 0 < c
      · obtain ⟨c, hc1, hc2⟩ := hc
        refine ⟨_, obstacleCallback_phase env o k g p m c hp1 hm1 hhit hs1 hc1 hc2,
          present_addExplosion _ _ _ _ _ ⟨hp, rfl⟩,
          passFrame_addExplosion _ _ _ _ _ _ (passFrame_trans g0 g _ hf ?_)⟩
        exact ⟨rfl, rfl, rfl, by rw [hm1]; rfl, ⟨[], by simp⟩, ⟨0, by simp⟩, fun h => h⟩
      · have hph : ∀ c, m.effect.phaseCharges = some c → c ≤ 0 := by
          intro c h1
          by_contra hn
          exact hc ⟨c, h1, by omega⟩
        have hcb := obstacleCallback_life env o k g p m hp1 hm1 hhit hs1 hph
        have hpres := present_addExplosion env o.x o.y "#FF4500"
          { g with lives := g.lives - 1, obstacles := g.obstacles.eraseIdx k }
          (present_of_fields g _ ⟨hp, hm⟩ rfl rfl)
        have hfr := passFrame_addExplosion env o.x o.y "#FF4500" g0
          { g with lives := g.lives - 1, obstacles := g.obstacles.eraseIdx k }
          (passFrame_of_fields g0 g _ hf rfl rfl rfl rfl rfl rfl rfl)
        by_cases hl : g.lives - 1 ≤ 0
        · rw [if_pos hl, gameOver_eq (playSFX "obstacle" _) hpres.2] at hcb
          exact ⟨_, hcb, present_of_fields _ _ hpres rfl rfl,
            passFrame_of_fields g0 _ _ hfr rfl rfl rfl rfl rfl rfl rfl⟩
        · rw [if_neg hl] at hcb
          exact ⟨_, hcb, present_of_fields _ _ hpres rfl rfl,
            passFrame_of_fields g0 _ _ hfr rfl rfl rfl rfl rfl rfl rfl⟩
  · have hmiss : p.collidesWith env o = false := by simpa using hhit
    exact ⟨g, obstacleCallback_miss env o k g p hp1 hmiss, ⟨hp, hm⟩, hf⟩

theorem collectPowerUp_frame (env : Env α) (u : PowerUp α) (g0 g : Game α)
    (h : Present g ∧ PassFrame g0 g) :
    ∃ g1, collectPowerUp env u g = .ok g1 ∧ Present g1 ∧ PassFrame g0 g1 := by
  obtain ⟨⟨hp, hm⟩, hf⟩ := h
  obtain ⟨p, hp1⟩ := Option.isSome_iff_exists.mp hp
  obtain ⟨m, hm1⟩ := Option.isSome_iff_exists.mp hm
  cases ht : u.type
  case score =>
    refine ⟨_, collectPowerUp_score env u g m hm1 ht, present_of_fields g _ ⟨hp, hm⟩ rfl rfl,
      passFrame_trans g0 g _ hf ⟨rfl, rfl, rfl, rfl, ⟨[], by simp⟩, ⟨1, ?_⟩, fun h => h⟩⟩
    simp [pointMultiplierOf, hm1]
  case nuke =>
    refine ⟨_, collectPowerUp_nuke env u g m hm1 ht, present_of_fields g _ ⟨hp, hm⟩ rfl rfl,
      passFrame_trans g0 g _ hf ⟨rfl, rfl, rfl, rfl, ⟨_, rfl⟩, ⟨0, by simp⟩, fun h => h⟩⟩
  case slow =>
    unfold collectPowerUp
    simp only [hm1, hp1, ht]
    refine ⟨_, rfl, ⟨by simp [hp, hm, hm1, hp1], by simp [hp, hm, hm1, hp1]⟩,
      passFrame_trans g0 g _ hf ⟨rfl, rfl, rfl, by simp [hm1], ⟨[], by simp⟩, ⟨0, by simp⟩,
        fun _ => ?_⟩⟩
    simp [PowerUpType.duration]
  all_goals
    unfold collectPowerUp
    simp only [hm1, hp1, ht]
    exact ⟨_, rfl, ⟨by simp [hp, hm, hm1, hp1], by simp [hp, hm, hm1, hp1]⟩,
      passFrame_of_fields g0 g _ hf rfl rfl rfl (by simp [hm1]) rfl rfl rfl⟩

theorem powerUpCallback_frame (env : Env α) (u : PowerUp α) (k : Nat) (g0 g : Game α)
    (h : Present g ∧ PassFrame g0 g) :
    ∃ g1, powerUpCallback env u k g = .ok g1 ∧ Present g1 ∧ PassFrame g0 g1 := by
  obtain ⟨p, hp1⟩ := Option.isSome_iff_exists.mp h.1.1
  by_cases hhit : p.collidesWithPowerUp env u = true
  · obtain ⟨g1, e1, hpres, hfr⟩ := collectPowerUp_frame env u g0 g h
    exact ⟨_, powerUpCallback_hit env u k g g1 p hp1 hhit e1,
      present_of_fields _ _ (present_addExplosion env u.x u.y u.color
        { g1 with powerUps := g1.powerUps.eraseIdx k }
        (present_of_fields g1 _ hpres rfl rfl)) rfl rfl,
      passFrame_of_fields g0 _ _ (passFrame_addExplosion env u.x u.y u.color g0
        { g1 with powerUps := g1.powerUps.eraseIdx k }
        (passFrame_of_fields g0 g1 _ hfr rfl rfl rfl rfl rfl rfl rfl)) rfl rfl rfl rfl rfl rfl rfl⟩
  · have hmiss : p.collidesWithPowerUp env u = false := by simpa using hhit
    exact ⟨g, powerUpCallback_miss env u k g p hp1 hmiss, h⟩

/-- With player and modifier present `checkCollisions` returns, and what it leaves alone. -/
theorem checkCollisions_frame (env : Env α) (g : Game α) (h : Present g) :
    ∃ g1, checkCollisions env g = .ok g1 ∧ Present g1 ∧ PassFrame g g1 := by
  obtain ⟨g1, e1, h1⟩ := forEachFrom_invariant (fun g => g.obstacles) (obstacleCallback env)
    (fun g1 => Present g1 ∧ PassFrame g g1)
    (fun b k g1 hg _ => obstacleCallback_frame env b k g g1 hg)
    g.obstacles.length 0 g ⟨h, passFrame_refl g⟩
  obtain ⟨g2, e2, h2⟩ := forEachFrom_invariant (fun g => g.powerUps) (powerUpCallback env)
    (fun g1 => Present g1 ∧ PassFrame g g1)
    (fun b k g1 hg _ => powerUpCallback_frame env b k g g1 hg)
    g1.powerUps.length 0 g1 h1
  refine ⟨g2, ?_, h2⟩
  unfold checkCollisions checkObstacleCollisions checkPowerUpCollisions forEach
  simp only [e1, Except.bind]
  exact e2

end PassFrames

/-! ## The parts of `update`, one by one -/

section CapShape

variable {α : Type}

theorem capParticles_eq (g : Game α) :
    capParticles g =
      { g with particles := g.particles.drop (g.particles.length - maxParticles g) } := by
  have key : ∀ n : Nat,
      (if g.particles.length > n then
        { g with particles := g.particles.drop (g.particles.length - n) } else g) =
      { g with particles := g.particles.drop (g.particles.length - n) } := by
    intro n
    by_cases hn : g.particles.length > n
    · rw [if_pos hn]
    · rw [if_neg hn]
      have : g.particles.length - n = 0 := by omega
      rw [this, List.drop_zero]
  unfold capParticles
  exact key _

end CapShape

section StageShapes

variable {α : Type} [LinearOrderedField α]

theorem updateTimers_eq (scaledDelta : α) (g : Game α) :
    updateTimers scaledDelta g = { g with
      slowTime := if g.slowTime > 0 then max 0 (g.slowTime - scaledDelta) else g.slowTime
      currentSpeed := g.gameSpeed *
        (if (if g.slowTime > 0 then max 0 (g.slowTime - scaledDelta) else g.slowTime) > 0
          then 1 / 2 else 1) } := by
  unfold updateTimers
  by_cases h : g.slowTime > 0
  · simp only [h, if_true]
  · simp only [h, if_false]

theorem updatePlayer_eq (env : Env α) (inp : Input α) (scaledDelta : α) (g : Game α)
    (p : Player α) (hp : g.player = some p) :
    updatePlayer env inp scaledDelta g =
      .ok { g with player := some (p.update env scaledDelta inp g.useVirtualJoystick) } := by
  unfold updatePlayer
  rw [hp]

theorem updateTimeDilation_eq (env : Env α) (g : Game α) (p : Player α)
    (hp : g.player = some p) :
    updateTimeDilation env g =
      .ok { g with timeScale := if nearObstacle env p g.obstacles then 3 / 10 else 1 } := by
  unfold updateTimeDilation
  dsimp only
  split
  · rename_i h
    simp [nearObstacle, h]
  · rename_i h1
    rw [hp] at h1
    exact absurd h1 (by simp)
  · rename_i _ p1 h1 _
    have : p1 = p := by
      rw [hp] at h1
      exact (Option.some.inj h1).symm
    subst this
    rfl

theorem updateDilation_eq (env : Env α) (g : Game α) (p : Player α) (m : Modifier α)
    (hp : g.player = some p) (hm : g.activeModifier = some m) :
    updateDilation env g = .ok { g with
      timeScale := if m.effect.timeDilation = some true then
        (if nearObstacle env p g.obstacles then 3 / 10 else 1) else g.timeScale } := by
  unfold updateDilation
  split
  · rename_i h
    rw [hm] at h
    exact absurd h (by simp)
  · rename_i m1 h1
    have : m1 = m := by
      rw [hm] at h1
      exact (Option.some.inj h1).symm
    subst this
    by_cases h : m1.effect.timeDilation = some true
    · rw [if_pos h, if_pos h, updateTimeDilation_eq env g p hp]
    · rw [if_neg h, if_neg h]

theorem obstacleTrial_shape (env : Env α) (scaledDelta : α) (g : Game α) :
    ∃ (obs : List (Obstacle α)) (n : Nat),
      obstacleTrial env scaledDelta g = { g with obstacles := obs, randIx := n } := by
  unfold obstacleTrial
  dsimp only [random]
  by_cases h : env.random g.randIx <
      (if g.performanceLevel = PerformanceLevel.low then 15 / 1000 else 2 / 100) *
        (scaledDelta / 16)
  · rw [if_pos h]
    exact ⟨_, _, rfl⟩
  · rw [if_neg h]
    exact ⟨_, _, rfl⟩

theorem emitTrail_shape (env : Env α) (g : Game α) (p : Player α) (hp : g.player = some p) :
    ∃ (extra : List (Particle α)) (n : Nat),
      emitTrail env g = .ok { g with particles := g.particles ++ extra, randIx := n } ∧
      extra.length ≤ 1 ∧
      (env.random g.randIx <
          (if g.performanceLevel = PerformanceLevel.low then 1 / 10 else 3 / 10) →
        extra.length = 1) := by
  unfold emitTrail
  dsimp only [random]
  by_cases hc : env.random g.randIx <
      (if g.performanceLevel = PerformanceLevel.low then 1 / 10 else 3 / 10)
  · rw [if_pos hc]
    split
    · rename_i h1
      exact absurd (Eq.trans (Eq.symm h1) hp) (by simp)
    · exact ⟨[_], _, rfl, by simp, fun _ => rfl⟩
  · rw [if_neg hc]
    exact ⟨[], _, by rw [List.append_nil], by simp, fun h => absurd h hc⟩

theorem updateGameObjects_shape (env : Env α) (scaledDelta speed : α) (g : Game α)
    (p : Player α) (m : Modifier α) (hp1 : g.player = some p)
    (hm1 : g.activeModifier = some m) :
    updateGameObjects env scaledDelta speed g = .ok { g with
      obstacles := (g.obstacles.map fun (o : Obstacle α) => o.update scaledDelta speed).filter
        fun o => decide (o.x > -100)
      powerUps := (g.powerUps.filterMap (magnetStep env p m scaledDelta speed)).filter
        fun u => decide (u.x > -100)
      particles := (g.particles.map fun (q : Particle α) => q.update scaledDelta).filter
        fun q => decide (q.life > 0) } := by
  unfold updateGameObjects
  dsimp only
  split
  · rename_i h1; rw [hp1] at h1; exact absurd h1 (by simp)
  · rename_i h1 h2; rw [hm1] at h2; exact absurd h2 (by simp)
  · split
    · rename_i p1 m1 h1 h2
      have e1 : p1 = p := by
        rw [hp1] at h1
        exact (Option.some.inj h1).symm
      have e2 : m1 = m := by
        rw [hm1] at h2
        exact (Option.some.inj h2).symm
      subst e1
      subst e2
      rfl
    · rename_i h1
      exact (h1 p m hp1 hm1).elim

end StageShapes

section StageShapesFloor

variable {α : Type} [LinearOrderedField α] [FloorRing α]

theorem spawnPowerUp_shape (env : Env α) (g : Game α) :
    ∃ (pus : List (PowerUp α)) (n : Nat),
      spawnPowerUp env g = .ok { g with powerUps := pus, randIx := n } := by
  have h0 := env.random_nonneg g.randIx
  have h1 := env.random_lt_one g.randIx
  have hlo : (0 : Int) ≤ ⌊env.random g.randIx * ((POWER_UP_TYPES.length : Nat) : α)⌋ :=
    Int.floor_nonneg.mpr (mul_nonneg h0 (Nat.cast_nonneg _))
  have hhi : ⌊env.random g.randIx * ((POWER_UP_TYPES.length : Nat) : α)⌋ < 7 := by
    rw [Int.floor_lt]
    simp only [POWER_UP_TYPES, List.length_cons, List.length_nil]
    push_cast
    linarith
  obtain ⟨n, hn⟩ := Int.eq_ofNat_of_zero_le hlo
  have hn7 : n < 7 := by omega
  have hget : ∃ t, POWER_UP_TYPES[n]? = some t := by
    have : n < POWER_UP_TYPES.length := by simpa [POWER_UP_TYPES] using hn7
    exact ⟨POWER_UP_TYPES[n], List.getElem?_eq_getElem this⟩
  obtain ⟨t, ht⟩ := hget
  unfold spawnPowerUp
  dsimp only [random]
  rw [hn]
  simp only [Int.ofNat_nonneg, if_true, Int.toNat_ofNat, ht]
  exact ⟨_, _, rfl⟩

theorem powerUpTrial_shape (env : Env α) (scaledDelta : α) (g : Game α) :
    ∃ (pus : List (PowerUp α)) (n : Nat),
      powerUpTrial env scaledDelta g = .ok { g with powerUps := pus, randIx := n } := by
  unfold powerUpTrial
  dsimp only [random]
  by_cases h : env.random g.randIx < 5 / 1000 * (scaledDelta / 16)
  · rw [if_pos h]
    obtain ⟨pus, n, e⟩ := spawnPowerUp_shape env { g with randIx := g.randIx + 1 }
    exact ⟨pus, n, e⟩
  · rw [if_neg h]
    exact ⟨_, _, rfl⟩

theorem updateScore_eq (scaledDelta : α) (g : Game α) (m : Modifier α)
    (hm : g.activeModifier = some m) :
    updateScore scaledDelta g = .ok { g with
      gameSpeed := g.gameSpeed + 5 / 10000 * scaledDelta
      score := g.score +
        ((⌊1 / 10 * scaledDelta * orElse m.effect.pointMultiplier 1⌋ : Int) : α) } := by
  unfold updateScore
  dsimp only
  rw [hm]

end StageShapesFloor

/-! ## A whole tick, part by part -/

section TickChainBase

variable {α : Type} [LinearOrderedField α]

theorem updateTimers_player (scaledDelta : α) (g : Game α) :
    (updateTimers scaledDelta g).player = g.player ∧
    (updateTimers scaledDelta g).activeModifier = g.activeModifier ∧
    (updateTimers scaledDelta g).useVirtualJoystick = g.useVirtualJoystick ∧
    (updateTimers scaledDelta g).obstacles = g.obstacles ∧
    (updateTimers scaledDelta g).timeScale = g.timeScale := by
  rw [updateTimers_eq]
  exact ⟨rfl, rfl, rfl, rfl, rfl⟩

/-- From `updateGameObjects` to `checkCollisions`: with player `p` and active modifier `m`
present, the three parts succeed; `g4` is the state with the entities moved at the
given speed, `g5` is `g4` after the particle limit with at most one trail particle
behind, `g6` is the result of `checkCollisions`. -/
theorem tick_tail (env : Env α) (scaledDelta speed : α) (g : Game α) (p : Player α)
    (m : Modifier α) (hp : g.player = some p) (hm : g.activeModifier = some m) :
    ∃ g4 g5 g6 : Game α,
      updateGameObjects env scaledDelta speed g = .ok g4 ∧
      g4 = { g with
        obstacles := (g.obstacles.map fun (o : Obstacle α) => o.update scaledDelta speed).filter
          fun o => decide (o.x > -100)
        powerUps := (g.powerUps.filterMap (magnetStep env p m scaledDelta speed)).filter
          fun u => decide (u.x > -100)
        particles := (g.particles.map fun (q : Particle α) => q.update scaledDelta).filter
          fun q => decide (q.life > 0) } ∧
      emitTrail env (capParticles g4) = .ok g5 ∧
      (∃ (extra : List (Particle α)) (n : Nat),
        g5 = { g4 with particles := (capParticles g4).particles ++ extra, randIx := n } ∧
        extra.length ≤ 1 ∧
        (env.random g4.randIx <
            (if g4.performanceLevel = PerformanceLevel.low then 1 / 10 else 3 / 10) →
          extra.length = 1)) ∧
      checkCollisions env g5 = .ok g6 ∧ Present g6 ∧ PassFrame g5 g6 := by
  obtain ⟨g4, h4, e4⟩ : ∃ g4 : Game α, g4 = { g with
        obstacles := (g.obstacles.map fun (o : Obstacle α) => o.update scaledDelta speed).filter
          fun o => decide (o.x > -100)
        powerUps := (g.powerUps.filterMap (magnetStep env p m scaledDelta speed)).filter
          fun u => decide (u.x > -100)
        particles := (g.particles.map fun (q : Particle α) => q.update scaledDelta).filter
          fun q => decide (q.life > 0) } ∧
      updateGameObjects env scaledDelta speed g = .ok g4 :=
    ⟨_, rfl, updateGameObjects_shape env scaledDelta speed g p m hp hm⟩
  have hp4 : g4.player = some p := by rw [h4]; exact hp
  have hm4 : g4.activeModifier = some m := by rw [h4]; exact hm
  obtain ⟨extra, n, e5, k1, k2⟩ := emitTrail_shape env (capParticles g4) p
    (by rw [capParticles_eq]; exact hp4)
  have e5a : emitTrail env (capParticles g4) = .ok
      { g4 with particles := (capParticles g4).particles ++ extra, randIx := n } :=
    e5.trans (by rw [capParticles_eq])
  obtain ⟨g6, e6, h6, f6⟩ := checkCollisions_frame env
    { g4 with particles := (capParticles g4).particles ++ extra, randIx := n }
    ⟨by simp [hp4], by simp [hm4]⟩
  refine ⟨g4, _, g6, e4, h4, e5a, ⟨extra, n, rfl, k1, ?_⟩, e6, h6, f6⟩
  rw [capParticles_eq] at k2
  exact k2

end TickChainBase

section TickChain

variable {α : Type} [LinearOrderedField α] [FloorRing α]

/-- From the start of `update` to the spawn trials: with player `p` and active modifier
`m` present, the parts succeed, and the state `g3` they leave is the state after the
timers with the player updated, the time scale chosen for the next tick, and some
obstacles, power-ups and draws. -/
theorem tick_head (env : Env α) (inp : Input α) (deltaTime : α) (g : Game α)
    (p : Player α) (m : Modifier α) (hp : g.player = some p)
    (hm : g.activeModifier = some m) :
    ∃ g3 : Game α,
      (∃ (obs : List (Obstacle α)) (pus : List (PowerUp α)) (n : Nat),
        g3 = { updateTimers (deltaTime * g.timeScale) g with
          player := some (p.update env (deltaTime * g.timeScale) inp g.useVirtualJoystick)
          timeScale := if m.effect.timeDilation = some true then
            (if nearObstacle env
                (p.update env (deltaTime * g.timeScale) inp g.useVirtualJoystick) g.obstacles
              then 3 / 10 else 1)
            else g.timeScale
          obstacles := obs
          powerUps := pus
          randIx := n }) ∧
      ((updatePlayer env inp (deltaTime * g.timeScale)
        (updateTimers (deltaTime * g.timeScale) g)).bind fun g1 =>
      (updateDilation env g1).bind fun g2 =>
      powerUpTrial env (deltaTime * g.timeScale)
        (obstacleTrial env (deltaTime * g.timeScale) g2)) = .ok g3 := by
  obtain ⟨t1, t2, t3, t4, t5⟩ := updateTimers_player (deltaTime * g.timeScale) g
  have e1 : updatePlayer env inp (deltaTime * g.timeScale)
      (updateTimers (deltaTime * g.timeScale) g) =
      .ok { updateTimers (deltaTime * g.timeScale) g with
        player := some (p.update env (deltaTime * g.timeScale) inp g.useVirtualJoystick) } := by
    refine (updatePlayer_eq env inp (deltaTime * g.timeScale)
      (updateTimers (deltaTime * g.timeScale) g) p (t1.trans hp)).trans ?_
    dsimp only
    rw [t3]
  have e2 : updateDilation env
      { updateTimers (deltaTime * g.timeScale) g with
        player := some (p.update env (deltaTime * g.timeScale) inp g.useVirtualJoystick) } =
      .ok { updateTimers (deltaTime * g.timeScale) g with
        player := some (p.update env (deltaTime * g.timeScale) inp g.useVirtualJoystick)
        timeScale := if m.effect.timeDilation = some true then
          (if nearObstacle env
              (p.update env (deltaTime * g.timeScale) inp g.useVirtualJoystick) g.obstacles
            then 3 / 10 else 1)
          else g.timeScale } := by
    refine (updateDilation_eq env
      { updateTimers (deltaTime * g.timeScale) g with
        player := some (p.update env (deltaTime * g.timeScale) inp g.useVirtualJoystick) }
      (p.update env (deltaTime * g.timeScale) inp g.useVirtualJoystick) m rfl
      (t2.trans hm)).trans ?_
    dsimp only
    rw [t4, t5]
  obtain ⟨obs, n1, e3⟩ := obstacleTrial_shape env (deltaTime * g.timeScale)
    { updateTimers (deltaTime * g.timeScale) g with
      player := some (p.update env (deltaTime * g.timeScale) inp g.useVirtualJoystick)
      timeScale := if m.effect.timeDilation = some true then
        (if nearObstacle env
            (p.update env (deltaTime * g.timeScale) inp g.useVirtualJoystick) g.obstacles
          then 3 / 10 else 1)
        else g.timeScale }
  obtain ⟨pus, n2, e4⟩ := powerUpTrial_shape env (deltaTime * g.timeScale)
    { updateTimers (deltaTime * g.timeScale) g with
      player := some (p.update env (deltaTime * g.timeScale) inp g.useVirtualJoystick)
      timeScale := if m.effect.timeDilation = some true then
        (if nearObstacle env
            (p.update env (deltaTime * g.timeScale) inp g.useVirtualJoystick) g.obstacles
          then 3 / 10 else 1)
        else g.timeScale
      obstacles := obs
      randIx := n1 }
  refine ⟨_, ⟨obs, pus, n2, rfl⟩, ?_⟩
  simp only [e1, e2, e3, e4, Except.bind]

/-- With player `p` and active modifier `m` present, `update` returns, and its parts
succeed one after the other: the state `g3` after the two spawn trials differs from the
state after the dilation step only in obstacles, power-ups and draws; `g4` is the result
of `updateGameObjects` with the speed chosen at the start of the tick; `g5` is `g4`
after the particle limit, with at most one trail particle behind; `g6` is the result of
`checkCollisions`; the result of `update` is that of the last part on `g6`. -/
theorem update_chain (env : Env α) (inp : Input α) (deltaTime : α) (g : Game α)
    (p : Player α) (m : Modifier α) (hp : g.player = some p)
    (hm : g.activeModifier = some m) :
    ∃ g3 g4 g5 g6 : Game α,
      ((updatePlayer env inp (deltaTime * g.timeScale)
        (updateTimers (deltaTime * g.timeScale) g)).bind fun g1 =>
      (updateDilation env g1).bind fun g2 =>
      powerUpTrial env (deltaTime * g.timeScale)
        (obstacleTrial env (deltaTime * g.timeScale) g2)) = .ok g3 ∧
      (∃ (obs : List (Obstacle α)) (pus : List (PowerUp α)) (n : Nat),
        g3 = { updateTimers (deltaTime * g.timeScale) g with
          player := some (p.update env (deltaTime * g.timeScale) inp g.useVirtualJoystick)
          timeScale := if m.effect.timeDilation = some true then
            (if nearObstacle env
                (p.update env (deltaTime * g.timeScale) inp g.useVirtualJoystick) g.obstacles
              then 3 / 10 else 1)
            else g.timeScale
          obstacles := obs
          powerUps := pus
          randIx := n }) ∧
      updateGameObjects env (deltaTime * g.timeScale) g3.currentSpeed g3 = .ok g4 ∧
      g4 = { g3 with
        obstacles := (g3.obstacles.map fun (o : Obstacle α) =>
          o.update (deltaTime * g.timeScale) g3.currentSpeed).filter
            fun o => decide (o.x > -100)
        powerUps := (g3.powerUps.filterMap (magnetStep env
          (p.update env (deltaTime * g.timeScale) inp g.useVirtualJoystick) m
          (deltaTime * g.timeScale) g3.currentSpeed)).filter fun u => decide (u.x > -100)
        particles := (g3.particles.map fun (q : Particle α) =>
          q.update (deltaTime * g.timeScale)).filter fun q => decide (q.life > 0) } ∧
      emitTrail env (capParticles g4) = .ok g5 ∧
      (∃ (extra : List (Particle α)) (n : Nat),
        g5 = { g4 with particles := (capParticles g4).particles ++ extra, randIx := n } ∧
        extra.length ≤ 1 ∧
        (env.random g4.randIx <
            (if g4.performanceLevel = PerformanceLevel.low then 1 / 10 else 3 / 10) →
          extra.length = 1)) ∧
      checkCollisions env g5 = .ok g6 ∧ Present g6 ∧ PassFrame g5 g6 ∧
      update env inp deltaTime g = updateScore (deltaTime * g.timeScale) g6 := by
  obtain ⟨g3, ⟨obs, pus, n, h3⟩, e3⟩ := tick_head env inp deltaTime g p m hp hm
  have hp3 : g3.player =
      some (p.update env (deltaTime * g.timeScale) inp g.useVirtualJoystick) := by rw [h3]
  have hm3 : g3.activeModifier = some m := by
    rw [h3]
    exact (updateTimers_player (deltaTime * g.timeScale) g).2.1.trans hm
  obtain ⟨g4, g5, g6, e4, h4, e5, h5, e6, h6, f6⟩ :=
    tick_tail env (deltaTime * g.timeScale) g3.currentSpeed g3 _ m hp3 hm3
  refine ⟨g3, g4, g5, g6, e3, ⟨obs, pus, n, h3⟩, e4, h4, e5, h5, e6, h6, f6, ?_⟩
  rw [update_eq_stages]
  have key : ∀ (r : Except (Game α) (Game α)) (f1 f2 f3 : Game α → Except (Game α) (Game α)),
      r = .ok g3 → f1 g3 = .ok g4 → f2 g4 = .ok g5 → f3 g5 = .ok g6 →
      ∀ f4 : Game α → Except (Game α) (Game α),
        (r.bind fun a => (f1 a).bind fun b => (f2 b).bind fun c => (f3 c).bind f4) = f4 g6 := by
    intro r f1 f2 f3 a1 a2 a3 a4 f4
    simp only [a1, a2, a3, a4, Except.bind]
  have assoc : ∀ (r1 : Except (Game α) (Game α)) (k1 k2 k3 : Game α → Except (Game α) (Game α)),
      (r1.bind fun a => (k1 a).bind fun b => (k2 b).bind k3) =
      ((r1.bind fun a => (k1 a).bind k2).bind k3) := by
    intro r1 k1 k2 k3
    cases r1 with
    | error e => rfl
    | ok a =>
      simp only [Except.bind]
      cases k1 a with
      | error e => rfl
      | ok b => rfl
  rw [assoc]
  exact key _ (fun a => updateGameObjects env (deltaTime * g.timeScale) a.currentSpeed a)
    (fun b => emitTrail env (capParticles b)) (checkCollisions env) e3 e4 e5 e6 _

end TickChain

/-! ## What a tick does to the clock, the score and the speeds -/

section SansCharges

variable {α : Type}

theorem sansCharges_pointMultiplier (m1 m : Modifier α)
    (h : m1.sansCharges = m.sansCharges) :
    m1.effect.pointMultiplier = m.effect.pointMultiplier ∧
    m1.effect.timeDilation = m.effect.timeDilation := by
  have h1 : m1.sansCharges.effect.pointMultiplier = m.sansCharges.effect.pointMultiplier := by
    rw [h]
  have h2 : m1.sansCharges.effect.timeDilation = m.sansCharges.effect.timeDilation := by
    rw [h]
  exact ⟨h1, h2⟩

end SansCharges

section TickSummaryBase

variable {α : Type} [LinearOrderedField α]

theorem updateTimers_fields (scaledDelta : α) (g : Game α) :
    (updateTimers scaledDelta g).gameSpeed = g.gameSpeed ∧
    (updateTimers scaledDelta g).score = g.score ∧
    (updateTimers scaledDelta g).particles = g.particles ∧
    (updateTimers scaledDelta g).performanceLevel = g.performanceLevel ∧
    (updateTimers scaledDelta g).slowTime =
      (if g.slowTime > 0 then max 0 (g.slowTime - scaledDelta) else g.slowTime) ∧
    (updateTimers scaledDelta g).currentSpeed = g.gameSpeed *
      (if (updateTimers scaledDelta g).slowTime > 0 then 1 / 2 else 1) := by
  rw [updateTimers_eq]
  exact ⟨rfl, rfl, rfl, rfl, rfl, rfl⟩

theorem updateTimers_slowTime_nonneg (scaledDelta : α) (g : Game α) (h : 0 ≤ g.slowTime) :
    0 ≤ (updateTimers scaledDelta g).slowTime := by
  rw [(updateTimers_fields scaledDelta g).2.2.2.2.1]
  split
  · exact le_max_left _ _
  · exact h

end TickSummaryBase

section TickSummary

variable {α : Type} [LinearOrderedField α] [FloorRing α]

/-- With player `p` and active modifier `m` present, `update` returns a state with player
and modifier present; its time scale is the one the dilation step chose (or the old one
without time dilation); its active modifier is `m` but for the phase charges; its score
is the old one plus a number of "score" pick-ups plus the time-based increment; its
`gameSpeed` is the old one plus the ramp; a `slowTime` that was not negative stays so. -/
theorem update_summary (env : Env α) (inp : Input α) (deltaTime : α) (g : Game α)
    (p : Player α) (m : Modifier α) (hp : g.player = some p)
    (hm : g.activeModifier = some m) :
    ∃ g7 : Game α, update env inp deltaTime g = .ok g7 ∧ Present g7 ∧
      g7.timeScale = (if m.effect.timeDilation = some true then
        (if nearObstacle env
            (p.update env (deltaTime * g.timeScale) inp g.useVirtualJoystick) g.obstacles
          then 3 / 10 else 1)
        else g.timeScale) ∧
      (0 ≤ g.slowTime → 0 ≤ g7.slowTime) ∧
      g7.activeModifier.map Modifier.sansCharges = some m.sansCharges ∧
      (∃ k : Nat, g7.score = g.score + (k : α) * (100 * orElse m.effect.pointMultiplier 1) +
        ((⌊1 / 10 * (deltaTime * g.timeScale) * orElse m.effect.pointMultiplier 1⌋ : Int) : α)) ∧
      g7.gameSpeed = g.gameSpeed + 5 / 10000 * (deltaTime * g.timeScale) := by
  obtain ⟨g3, g4, g5, g6, -, ⟨obs, pus, n, h3⟩, -, h4, -, ⟨extra, n5, h5, -, -⟩, -, h6, f6, e⟩ :=
    update_chain env inp deltaTime g p m hp hm
  obtain ⟨-, t2, -, -, -⟩ := updateTimers_player (deltaTime * g.timeScale) g
  obtain ⟨u1, u2, -, -, -, -⟩ := updateTimers_fields (deltaTime * g.timeScale) g
  have hts : g5.timeScale = (if m.effect.timeDilation = some true then
        (if nearObstacle env
            (p.update env (deltaTime * g.timeScale) inp g.useVirtualJoystick) g.obstacles
          then 3 / 10 else 1)
        else g.timeScale) := by
    rw [h5, h4, h3]
  have hsl : g5.slowTime = (updateTimers (deltaTime * g.timeScale) g).slowTime := by
    rw [h5, h4, h3]
  have ham : g5.activeModifier = some m := by
    rw [h5, h4, h3]
    exact t2.trans hm
  have hsc : g5.score = g.score := by
    rw [h5, h4, h3]
    exact u2
  have hgs : g5.gameSpeed = g.gameSpeed := by
    rw [h5, h4, h3]
    exact u1
  obtain ⟨a1, -, a3, a4, -, ⟨k, a6⟩, a7⟩ := f6
  obtain ⟨m6, hm6⟩ := Option.isSome_iff_exists.mp h6.2
  have hmm : m6.sansCharges = m.sansCharges := by
    rw [hm6, ham] at a4
    simpa using a4
  have hpm := (sansCharges_pointMultiplier m6 m hmm).1
  have hmul : pointMultiplierOf g5 = orElse m.effect.pointMultiplier 1 := by
    unfold pointMultiplierOf
    rw [ham]
  rw [updateScore_eq (deltaTime * g.timeScale) g6 m6 hm6] at e
  refine ⟨_, e, ⟨h6.1, by simp [hm6]⟩, a1.trans hts, ?_, ?_, ⟨k, ?_⟩, ?_⟩
  · intro h0
    exact a7 (by rw [hsl]; exact updateTimers_slowTime_nonneg _ g h0)
  · show g6.activeModifier.map Modifier.sansCharges = some m.sansCharges
    rw [hm6, ← hmm]
    rfl
  · show g6.score + _ = _
    rw [a6, hsc, hmul, hpm]
  · show g6.gameSpeed + _ = _
    rw [a3, hgs]

end TickSummary

/-! ## The states the operations reach -/

section ReachableMem

variable {α : Type}

theorem currentModifier_mem (g : Game α) (index : Int) (m : Modifier α)
    (h : currentModifier g index = some m) : m ∈ g.catalog := by
  unfold currentModifier at h
  split at h
  · cases hr : g.currentModifiers[index.toNat]? with
    | none => rw [hr] at h; exact absurd h (by simp)
    | some r =>
      rw [hr] at h
      exact List.getElem?_mem h
  · exact absurd h (by simp)

end ReachableMem

section ReachableInitial

variable {α : Type} [LinearOrderedField α]

theorem catalog_multiplier (m : Modifier α) (h : m ∈ (MODIFIERS : List (Modifier α))) :
    ∃ n : Nat, orElse m.effect.pointMultiplier 1 = (n : α) := by
  have h2 : orElse (some (2 : α)) 1 = ((2 : Nat) : α) := by
    simp [orElse]
  have h1 : orElse (none : Option α) 1 = ((1 : Nat) : α) := by
    simp [orElse]
  simp only [List.mem_cons, MODIFIERS, List.mem_singleton, List.not_mem_nil, or_false] at h
  rcases h with h | h | h | h | h | h | h | h <;> rw [h]
  · exact ⟨1, h1⟩
  · exact ⟨2, h2⟩
  · exact ⟨1, h1⟩
  · exact ⟨1, h1⟩
  · exact ⟨2, h2⟩
  · exact ⟨1, h1⟩
  · exact ⟨1, h1⟩
  · exact ⟨1, h1⟩

theorem wellFormed_initial (highScore : α) (level : PerformanceLevel) :
    WellFormed (Game.initial highScore level) :=
  ⟨Or.inl rfl, le_refl (0 : α), fun h => absurd h (Nat.lt_irrefl 0),
    fun h => absurd h (by simp [Game.initial]), rfl,
    fun m h => absurd h (by simp [Game.initial]),
    ⟨1, by simp [pointMultiplierOf, Game.initial]⟩, ⟨0, by simp [Game.initial]⟩⟩

end ReachableInitial

section Reachable

variable {α : Type} [LinearOrderedField α] [FloorRing α]

theorem wellFormed_update (env : Env α) (inp : Input α) (deltaTime : α) (g : Game α)
    (h : WellFormed g) (hpres : Present g) :
    WellFormed (final (update env inp deltaTime g)) := by
  obtain ⟨w1, w2, w3, -, w5, w6, ⟨n, w7⟩, ⟨z, w8⟩⟩ := h
  obtain ⟨p, hp⟩ := Option.isSome_iff_exists.mp hpres.1
  obtain ⟨m, hm⟩ := Option.isSome_iff_exists.mp hpres.2
  obtain ⟨-, s2, -, s4, -, s6⟩ := update_stable env inp deltaTime g
  obtain ⟨g7, e, h7, a1, a2, a3, ⟨k, a4⟩, -⟩ := update_summary env inp deltaTime g p m hp hm
  have hmul : pointMultiplierOf g = orElse m.effect.pointMultiplier 1 := by
    unfold pointMultiplierOf
    rw [hm]
  rw [e] at s2 s4 s6 ⊢
  change g7.catalog = _ at s2
  change g7.selectedModifier = _ at s4
  change g7.pendingInits = _ at s6
  change WellFormed g7
  obtain ⟨m7, hm7⟩ := Option.isSome_iff_exists.mp h7.2
  have hmm : m7.sansCharges = m.sansCharges := by
    rw [hm7] at a3
    simpa using a3
  refine ⟨?_, a2 w2, ?_, fun _ => h7, s2.trans w5, ?_, ⟨n, ?_⟩, ⟨z + k * (100 * n) +
    ⌊1 / 10 * (deltaTime * g.timeScale) * orElse m.effect.pointMultiplier 1⌋, ?_⟩⟩
  · rw [a1]
    split
    · split
      · exact Or.inr rfl
      · exact Or.inl rfl
    · exact w1
  · rw [s4, s6]
    exact w3
  · rw [s4]
    exact w6
  · unfold pointMultiplierOf
    rw [hm7]
    dsimp only
    rw [(sansCharges_pointMultiplier m7 m hmm).1, ← hmul]
    exact w7
  · rw [a4, w8, ← hmul, w7]
    push_cast
    ring

theorem wellFormed_step (op : Op α) (g : Game α) (h : WellFormed g) :
    WellFormed (final (step op g)) := by
  obtain ⟨w1, w2, w3, w4, w5, w6, w7, w8⟩ := h
  cases op with
  | startGame shuffled =>
    exact ⟨w1, w2, w3, fun hs => absurd hs (by simp [step, final, startGame, playSFX,
      generateModifierOptions]), w5, w6, w7, w8⟩
  | selectModifier index =>
    cases hc : currentModifier g index with
    | none =>
      have e : step (Op.selectModifier index) g = .error g := by
        simp only [step]
        unfold selectModifier
        rw [hc]
      rw [e]
      exact ⟨w1, w2, w3, w4, w5, w6, w7, w8⟩
    | some m =>
      have e : step (Op.selectModifier index) g = .ok { g with
          selectedModifier := some m
          audio := g.audio ++ [Cue.sfx "select"]
          pendingInits := g.pendingInits + 1 } := by
        simp only [step]
        unfold selectModifier
        rw [hc]
        simp only [jsonCopy_eq]
        rfl
      rw [e]
      refine ⟨w1, w2, fun _ => rfl, w4, w5, ?_, w7, w8⟩
      intro m1 hm1
      have : m = m1 := Option.some.inj hm1
      subst this
      exact catalog_multiplier m (by rw [← w5]; exact currentModifier_mem g index m hc)
  | fireTimer env =>
    by_cases h0 : g.pendingInits = 0
    · have e : step (Op.fireTimer env) g = .ok g := by
        simp only [step]
        unfold fireTimer
        rw [if_pos h0]
      rw [e]
      exact ⟨w1, w2, w3, w4, w5, w6, w7, w8⟩
    · obtain ⟨m, hm⟩ := Option.isSome_iff_exists.mp (w3 (Nat.pos_of_ne_zero h0))
      have e : step (Op.fireTimer env) g =
          initializeGame env { g with pendingInits := g.pendingInits - 1 } := by
        simp only [step]
        unfold fireTimer
        rw [if_neg h0]
      rw [e, initializeGame_eq env { g with pendingInits := g.pendingInits - 1 } m hm]
      refine ⟨Or.inl rfl, w2, ?_, fun _ => ⟨rfl, rfl⟩, w5, w6, ?_, ⟨0, ?_⟩⟩
      · intro hpos
        exact w3 (lt_of_lt_of_le hpos (Nat.sub_le _ _))
      · obtain ⟨n, hn⟩ := w6 m hm
        exact ⟨n, hn⟩
      · simp [final]
  | restartGame =>
    exact ⟨w1, w2, w3, fun hs => absurd hs (by simp [step, final, restartGame, playTheme]),
      w5, w6, w7, w8⟩
  | frame env inp currentTime =>
    by_cases hs : g.gameState = GameState.playing
    · have e : step (Op.frame env inp currentTime) g =
          update env inp (min (currentTime - g.lastTime) 32)
            { g with lastTime := currentTime, frameCount := g.frameCount + 1 } := by
        simp only [step]
        unfold gameLoop
        dsimp only
        rw [if_pos hs]
      rw [e]
      exact wellFormed_update env inp _ _ ⟨w1, w2, w3, w4, w5, w6, w7, w8⟩ (w4 hs)
    · have e : step (Op.frame env inp currentTime) g =
          .ok { g with lastTime := currentTime, frameCount := g.frameCount + 1 } := by
        simp only [step]
        unfold gameLoop
        dsimp only
        rw [if_neg hs]
      rw [e]
      exact ⟨w1, w2, w3, w4, w5, w6, w7, w8⟩

theorem wellFormed_run (ops : List (Op α)) :
    ∀ g : Game α, WellFormed g → WellFormed (run ops g) := by
  induction ops with
  | nil => intro g h; exact h
  | cons op rest ih =>
    intro g h
    exact ih _ (wellFormed_step op g h)

end Reachable

/-! ## Delta-time clamping -/

section Clamp

variable {α : Type} [LinearOrderedField α] [FloorRing α]

/-- C14: in a playing state `g` reached by any sequence of operations from the
constructor's state, `gameLoop(currentTime)` calls `update` with the delta
`min (currentTime - lastTime) 32`; `update` returns and is the composition of its parts,
each taking the scaled delta `delta * timeScale`; the time scale is 1 or 0.3, so the
scaled delta is at most 32 however large `currentTime - lastTime` is. -/
theorem delta_clamped (ops : List (Op α)) (highScore : α) (level : PerformanceLevel)
    (env : Env α) (inp : Input α) (currentTime : α) (g : Game α)
    (hg : g = run ops (Game.initial highScore level))
    (hplay : g.gameState = GameState.playing) :
    gameLoop env inp currentTime g =
      update env inp (min (currentTime - g.lastTime) 32)
        { g with lastTime := currentTime, frameCount := g.frameCount + 1 } ∧
    min (currentTime - g.lastTime) 32 ≤ 32 ∧
    (g.timeScale = 1 ∨ g.timeScale = 3 / 10) ∧
    min (currentTime - g.lastTime) 32 * g.timeScale ≤ 32 ∧
    (∃ g1, gameLoop env inp currentTime g = .ok g1) ∧
    update env inp (min (currentTime - g.lastTime) 32)
        { g with lastTime := currentTime, frameCount := g.frameCount + 1 } =
      ((updatePlayer env inp (min (currentTime - g.lastTime) 32 * g.timeScale)
        (updateTimers (min (currentTime - g.lastTime) 32 * g.timeScale)
          { g with lastTime := currentTime, frameCount := g.frameCount + 1 })).bind fun g1 =>
      (updateDilation env g1).bind fun g2 =>
      (powerUpTrial env (min (currentTime - g.lastTime) 32 * g.timeScale)
        (obstacleTrial env (min (currentTime - g.lastTime) 32 * g.timeScale) g2)).bind
      fun g3 =>
      (updateGameObjects env (min (currentTime - g.lastTime) 32 * g.timeScale)
        g3.currentSpeed g3).bind fun g4 =>
      (emitTrail env (capParticles g4)).bind fun g5 =>
      (checkCollisions env g5).bind
        (updateScore (min (currentTime - g.lastTime) 32 * g.timeScale))) := by
  have hw : WellFormed g := by
    rw [hg]
    exact wellFormed_run ops _ (wellFormed_initial highScore level)
  obtain ⟨w1, -, -, w4, -⟩ := hw
  have e : gameLoop env inp currentTime g =
      update env inp (min (currentTime - g.lastTime) 32)
        { g with lastTime := currentTime, frameCount := g.frameCount + 1 } := by
    unfold gameLoop
    dsimp only
    rw [if_pos hplay]
  have hmin : min (currentTime - g.lastTime) 32 ≤ 32 := min_le_right _ _
  obtain ⟨p, hp⟩ := Option.isSome_iff_exists.mp (w4 hplay).1
  obtain ⟨m, hm⟩ := Option.isSome_iff_exists.mp (w4 hplay).2
  obtain ⟨g7, e7, -⟩ := update_summary env inp (min (currentTime - g.lastTime) 32)
    { g with lastTime := currentTime, frameCount := g.frameCount + 1 } p m hp hm
  refine ⟨e, hmin, w1, ?_, ⟨g7, e.trans e7⟩, update_eq_stages env inp _ _⟩
  rcases w1 with h1 | h1
  · rw [h1, mul_one]
    exact hmin
  · rw [h1]
    by_cases h0 : 0 ≤ min (currentTime - g.lastTime) 32
    · nlinarith
    · have : min (currentTime - g.lastTime) 32 < 0 := lt_of_not_ge h0
      nlinarith

/-- The state after `giantRunOps`: the constructor's state with the game playing, the three
offered cards, "Giant Mode" selected and active, and a new player. -/
theorem giantRun_eq (env : Env α) (highScore : α) (level : PerformanceLevel) :
    run (giantRunOps env) (Game.initial highScore level) =
      { Game.initial highScore level with
        gameState := GameState.playing
        currentModifiers := [1, 0, 2]
        selectedModifier := some giantMode
        activeModifier := some giantMode
        player := some (Player.new 100 (env.innerHeight / 2) giantMode)
        audio := [Cue.sfx "select", Cue.sfx "select", Cue.theme "game", Cue.sfx "start"] } := by
  have h1 : currentModifier (startGame [1, 0, 2, 3, 4, 5, 6, 7]
      (Game.initial highScore level)) 0 = some giantMode := rfl
  have h2 : step (Op.selectModifier 0) (startGame [1, 0, 2, 3, 4, 5, 6, 7]
      (Game.initial highScore level)) = .ok
      { startGame [1, 0, 2, 3, 4, 5, 6, 7] (Game.initial highScore level) with
        selectedModifier := some giantMode
        audio := [Cue.sfx "select", Cue.sfx "select"]
        pendingInits := 1 } := by
    simp only [step]
    unfold selectModifier
    rw [h1]
    simp only [jsonCopy_eq]
    rfl
  have e1 : run (giantRunOps env) (Game.initial highScore level) =
      final (step (Op.fireTimer env) (final (step (Op.selectModifier 0)
        (startGame [1, 0, 2, 3, 4, 5, 6, 7] (Game.initial highScore level))))) := rfl
  rw [e1, h2]
  have e3 : step (Op.fireTimer env) (final (.ok
      { startGame [1, 0, 2, 3, 4, 5, 6, 7] (Game.initial highScore level) with
        selectedModifier := some giantMode
        audio := [Cue.sfx "select", Cue.sfx "select"]
        pendingInits := 1 })) = initializeGame env
      { startGame [1, 0, 2, 3, 4, 5, 6, 7] (Game.initial highScore level) with
        selectedModifier := some giantMode
        audio := [Cue.sfx "select", Cue.sfx "select"]
        pendingInits := 0 } := rfl
  rw [e3, initializeGame_eq env _ giantMode rfl]
  rfl

end Clamp

section ClampConcrete

/-- Witness of C14: after the start action, the choice of "Giant Mode" and its timer the
game is playing with `lastTime = 0`; a frame at time 100000 gets the delta 32. -/
theorem delta_clamped_witness :
    (run (giantRunOps realEnv) (Game.initial (0 : ℝ) PerformanceLevel.high)).gameState =
      GameState.playing ∧
    gameLoop realEnv noInput 100000
        (run (giantRunOps realEnv) (Game.initial (0 : ℝ) PerformanceLevel.high)) =
      update realEnv noInput 32
        { run (giantRunOps realEnv) (Game.initial (0 : ℝ) PerformanceLevel.high) with
          lastTime := 100000, frameCount := 1 } := by
  have hplay : (run (giantRunOps realEnv)
      (Game.initial (0 : ℝ) PerformanceLevel.high)).gameState = GameState.playing := by
    simp [run, giantRunOps, step, final, startGame, generateModifierOptions, playSFX,
      selectModifier, currentModifier, Game.initial, MODIFIERS, fireTimer, initializeGame,
      applyModifier, playTheme, jsonCopy, Except.bind]
  have h := (delta_clamped (giantRunOps realEnv) 0 PerformanceLevel.high realEnv noInput
    100000 _ rfl hplay).1
  refine ⟨hplay, h.trans ?_⟩
  have h1 : (run (giantRunOps realEnv)
      (Game.initial (0 : ℝ) PerformanceLevel.high)).lastTime = 0 := by
    simp [run, giantRunOps, step, final, startGame, generateModifierOptions, playSFX,
      selectModifier, currentModifier, Game.initial, MODIFIERS, fireTimer, initializeGame,
      applyModifier, playTheme, jsonCopy, Except.bind]
  have h2 : (run (giantRunOps realEnv)
      (Game.initial (0 : ℝ) PerformanceLevel.high)).frameCount = 0 := by
    simp [run, giantRunOps, step, final, startGame, generateModifierOptions, playSFX,
      selectModifier, currentModifier, Game.initial, MODIFIERS, fireTimer, initializeGame,
      applyModifier, playTheme, jsonCopy, Except.bind]
  rw [h1, h2]
  norm_num

end ClampConcrete

/-! ## The score -/

section Score

variable {α : Type} [LinearOrderedField α] [FloorRing α]

/-- C17: in every state `g` reached by a sequence of operations from the constructor's
state the score is an integer and the point multiplier (`pointMultiplier || 1` of the
active modifier) a natural number.  Collecting a "score" power-up while playing adds
`100 * multiplier`.  A frame while playing returns with the score grown by a number of
such pick-ups plus `floor(0.1 * scaledDelta * multiplier)`, where
`scaledDelta = min (currentTime - lastTime) 32 * timeScale`, so the score does not
decrease when `currentTime` is not before `lastTime`; a frame in another state, the start
action, the choice of a modifier and the restart action leave the score alone; only the
timer that runs `initializeGame` sets it to 0. -/
theorem score_never_decreases (ops : List (Op α)) (highScore : α)
    (level : PerformanceLevel) (g : Game α)
    (hg : g = run ops (Game.initial highScore level)) :
    (∃ n : Int, g.score = (n : α)) ∧
    (∃ n : Nat, pointMultiplierOf g = (n : α)) ∧
    (∀ (env : Env α) (u : PowerUp α), u.type = PowerUpType.score →
      g.gameState = GameState.playing →
      collectPowerUp env u g = .ok { g with score := g.score + 100 * pointMultiplierOf g }) ∧
    (∀ (env : Env α) (inp : Input α) (currentTime : α), g.gameState = GameState.playing →
      ∃ (g1 : Game α) (k : Nat), gameLoop env inp currentTime g = .ok g1 ∧
        g1.score = g.score + (k : α) * (100 * pointMultiplierOf g) +
          ((⌊1 / 10 * (min (currentTime - g.lastTime) 32 * g.timeScale) *
            pointMultiplierOf g⌋ : Int) : α) ∧
        (g.lastTime ≤ currentTime → g.score ≤ g1.score)) ∧
    (∀ (env : Env α) (inp : Input α) (currentTime : α), g.gameState ≠ GameState.playing →
      ∃ g1, gameLoop env inp currentTime g = .ok g1 ∧ g1.score = g.score) ∧
    (∀ shuffled, (startGame shuffled g).score = g.score) ∧
    (∀ index, (final (selectModifier g index)).score = g.score) ∧
    (restartGame g).score = g.score ∧
    (∀ env : Env α, (g.pendingInits = 0 → (final (fireTimer env g)).score = g.score) ∧
      (g.pendingInits ≠ 0 → (final (fireTimer env g)).score = 0)) := by
  have hw : WellFormed g := by
    rw [hg]
    exact wellFormed_run ops _ (wellFormed_initial highScore level)
  obtain ⟨w1, -, w3, w4, -, -, ⟨n, w7⟩, w8⟩ := hw
  refine ⟨w8, ⟨n, w7⟩, ?_, ?_, ?_, fun _ => rfl, ?_, rfl, ?_⟩
  · intro env u hu hplay
    obtain ⟨m, hm⟩ := Option.isSome_iff_exists.mp (w4 hplay).2
    rw [collectPowerUp_score env u g m hm hu]
    unfold pointMultiplierOf
    rw [hm]
  · intro env inp currentTime hplay
    obtain ⟨p, hp⟩ := Option.isSome_iff_exists.mp (w4 hplay).1
    obtain ⟨m, hm⟩ := Option.isSome_iff_exists.mp (w4 hplay).2
    have hmul : pointMultiplierOf g = orElse m.effect.pointMultiplier 1 := by
      unfold pointMultiplierOf
      rw [hm]
    obtain ⟨g7, e7, -, -, -, -, ⟨k, a4⟩, -⟩ := update_summary env inp
      (min (currentTime - g.lastTime) 32)
      { g with lastTime := currentTime, frameCount := g.frameCount + 1 } p m hp hm
    have e : gameLoop env inp currentTime g = .ok g7 := by
      unfold gameLoop
      dsimp only
      rw [if_pos hplay]
      exact e7
    have hsc : g7.score = g.score + (k : α) * (100 * pointMultiplierOf g) +
          ((⌊1 / 10 * (min (currentTime - g.lastTime) 32 * g.timeScale) *
            pointMultiplierOf g⌋ : Int) : α) := by
      rw [a4, hmul]
    refine ⟨g7, k, e, hsc, ?_⟩
    intro ht
    have hd : 0 ≤ min (currentTime - g.lastTime) 32 :=
      le_min (sub_nonneg.mpr ht) (by norm_num)
    have hts : 0 ≤ g.timeScale := by
      rcases w1 with h1 | h1 <;> rw [h1] <;> norm_num
    have hn : (0 : α) ≤ (n : α) := Nat.cast_nonneg n
    have hfl : (0 : Int) ≤ ⌊1 / 10 * (min (currentTime - g.lastTime) 32 * g.timeScale) *
        pointMultiplierOf g⌋ := by
      rw [w7]
      exact Int.floor_nonneg.mpr
        (mul_nonneg (mul_nonneg (by norm_num) (mul_nonneg hd hts)) hn)
    have hfl1 : (0 : α) ≤ ((⌊1 / 10 * (min (currentTime - g.lastTime) 32 * g.timeScale) *
        pointMultiplierOf g⌋ : Int) : α) := Int.cast_nonneg.mpr hfl
    have hk : (0 : α) ≤ (k : α) * (100 * pointMultiplierOf g) := by
      rw [w7]
      exact mul_nonneg (Nat.cast_nonneg k) (mul_nonneg (by norm_num) hn)
    rw [hsc]
    linarith
  · intro env inp currentTime hplay
    refine ⟨{ g with lastTime := currentTime, frameCount := g.frameCount + 1 }, ?_, rfl⟩
    unfold gameLoop
    dsimp only
    rw [if_neg hplay]
  · intro index
    unfold selectModifier
    split
    · rfl
    · rfl
  · intro env
    constructor
    · intro h0
      unfold fireTimer
      rw [if_pos h0]
      rfl
    · intro h0
      obtain ⟨m, hm⟩ := Option.isSome_iff_exists.mp (w3 (Nat.pos_of_ne_zero h0))
      unfold fireTimer
      rw [if_neg h0, initializeGame_eq env { g with pendingInits := g.pendingInits - 1 } m hm]
      rfl

end Score

section ScoreConcrete

/-- Witness of C17: in the run with "Giant Mode" (multiplier 2, score 0, time scale 1,
`lastTime = 0`) a frame at time 16 returns with the score `k * 200 + 3` for some number
`k` of pick-ups: `floor(0.1 * 16 * 2) = 3`. -/
theorem score_never_decreases_witness :
    ∃ (g1 : Game ℝ) (k : Nat),
      gameLoop realEnv noInput 16
        (run (giantRunOps realEnv) (Game.initial (0 : ℝ) PerformanceLevel.high)) = .ok g1 ∧
      g1.score = (k : ℝ) * 200 + 3 := by
  obtain ⟨g1, k, e, hs, -⟩ := (score_never_decreases (giantRunOps realEnv) (0 : ℝ)
    PerformanceLevel.high _ rfl).2.2.2.1 realEnv noInput 16
      (by rw [giantRun_eq])
  refine ⟨g1, k, e, ?_⟩
  rw [hs, giantRun_eq]
  have hm : pointMultiplierOf ({ Game.initial (0 : ℝ) PerformanceLevel.high with
        gameState := GameState.playing
        currentModifiers := [1, 0, 2]
        selectedModifier := some giantMode
        activeModifier := some giantMode
        player := some (Player.new 100 (realEnv.innerHeight / 2) giantMode)
        audio := [Cue.sfx "select", Cue.sfx "select", Cue.theme "game", Cue.sfx "start"] } :
        Game ℝ) = 2 := by
    simp [pointMultiplierOf, giantMode, orElse]
  rw [hm]
  have hf : ⌊(1 : ℝ) / 10 * (min (16 - 0) 32 * 1) * 2⌋ = 3 := by
    rw [Int.floor_eq_iff]
    norm_num
  show (0 : ℝ) + (k : ℝ) * (100 * 2) + ((⌊(1 : ℝ) / 10 * (min (16 - 0) 32 * 1) * 2⌋ : Int) : ℝ) =
    (k : ℝ) * 200 + 3
  rw [hf]
  push_cast
  ring

end ScoreConcrete

/-! ## Slow time -/

section SlowTimeBase

variable {α : Type} [LinearOrderedField α]

theorem decayed_slowTime (scaledDelta : α) (g : Game α) (hslow : 0 ≤ g.slowTime)
    (hsd : 0 ≤ scaledDelta) :
    (updateTimers scaledDelta g).slowTime = max 0 (g.slowTime - scaledDelta) := by
  rw [(updateTimers_fields scaledDelta g).2.2.2.2.1]
  split
  · rfl
  · rename_i h
    have h0 : g.slowTime = 0 := le_antisymm (not_lt.mp h) hslow
    rw [h0, zero_sub, max_eq_left (neg_nonpos.mpr hsd)]

end SlowTimeBase

section SlowTime

variable {α : Type} [LinearOrderedField α] [FloorRing α]

/-- C16: collecting a "slow" power-up sets `slowTime` to 4000.  In a tick with player and
active modifier present, `slowTime` not negative and a scaled delta
`deltaTime * timeScale` not negative, the first part of `update` leaves
`slowTime = max 0 (slowTime - scaledDelta)`, which is not negative, and `update` calls
`updateGameObjects` with the speed `gameSpeed * 0.5` if that decayed `slowTime` is
positive and `gameSpeed * 1` otherwise: the obstacles and the power-ups of that tick
are moved with this speed (a power-up outside any magnet pull is just `update`d with
it).  In every state reached from the constructor's state `slowTime` is not negative. -/
theorem slow_time_halves_speed (env : Env α) (inp : Input α) (deltaTime : α) (g : Game α)
    (p : Player α) (m : Modifier α) (hp : g.player = some p)
    (hm : g.activeModifier = some m) (hslow : 0 ≤ g.slowTime)
    (hsd : 0 ≤ deltaTime * g.timeScale) :
    (∀ u : PowerUp α, u.type = PowerUpType.slow →
      collectPowerUp env u g = .ok { g with slowTime := 4000 }) ∧
    (updateTimers (deltaTime * g.timeScale) g).slowTime =
      max 0 (g.slowTime - deltaTime * g.timeScale) ∧
    0 ≤ (updateTimers (deltaTime * g.timeScale) g).slowTime ∧
    (∃ g3 g4 : Game α,
      ((updatePlayer env inp (deltaTime * g.timeScale)
        (updateTimers (deltaTime * g.timeScale) g)).bind fun g1 =>
      (updateDilation env g1).bind fun g2 =>
      powerUpTrial env (deltaTime * g.timeScale)
        (obstacleTrial env (deltaTime * g.timeScale) g2)) = .ok g3 ∧
      g3.slowTime = max 0 (g.slowTime - deltaTime * g.timeScale) ∧
      g3.player = some (p.update env (deltaTime * g.timeScale) inp g.useVirtualJoystick) ∧
      updateGameObjects env (deltaTime * g.timeScale)
        (g.gameSpeed * (if max 0 (g.slowTime - deltaTime * g.timeScale) > 0 then 1 / 2 else 1))
        g3 = .ok g4 ∧
      g4.obstacles = (g3.obstacles.map fun (o : Obstacle α) =>
        o.update (deltaTime * g.timeScale)
          (g.gameSpeed *
            (if max 0 (g.slowTime - deltaTime * g.timeScale) > 0 then 1 / 2 else 1))).filter
        (fun o => decide (o.x > -100)) ∧
      g4.powerUps = (g3.powerUps.filterMap (magnetStep env
        (p.update env (deltaTime * g.timeScale) inp g.useVirtualJoystick) m
        (deltaTime * g.timeScale)
        (g.gameSpeed *
          (if max 0 (g.slowTime - deltaTime * g.timeScale) > 0 then 1 / 2 else 1)))).filter
        (fun u => decide (u.x > -100)) ∧
      update env inp deltaTime g =
        ((emitTrail env (capParticles g4)).bind fun g5 =>
          (checkCollisions env g5).bind (updateScore (deltaTime * g.timeScale)))) ∧
    (∀ (q : Player α) (speed : α) (u : PowerUp α), q.hasMagnet = false →
      truthy m.effect.magnetRange = false →
      magnetStep env q m (deltaTime * g.timeScale) speed u =
        some (u.update (deltaTime * g.timeScale) speed)) ∧
    (∀ (ops : List (Op α)) (highScore : α) (level : PerformanceLevel),
      0 ≤ (run ops (Game.initial highScore level)).slowTime) := by
  have hdec := decayed_slowTime (deltaTime * g.timeScale) g hslow hsd
  refine ⟨?_, hdec, updateTimers_slowTime_nonneg _ g hslow, ?_, ?_, ?_⟩
  · intro u hu
    unfold collectPowerUp
    simp only [hm, hu, PowerUpType.duration]
  · obtain ⟨g3, g4, g5, g6, e3, ⟨obs, pus, n, h3⟩, e4, h4, e5, -, e6, -, -, e⟩ :=
      update_chain env inp deltaTime g p m hp hm
    have hsl : g3.slowTime = max 0 (g.slowTime - deltaTime * g.timeScale) := by
      rw [h3]
      exact hdec
    have hsp : g3.currentSpeed = g.gameSpeed *
        (if max 0 (g.slowTime - deltaTime * g.timeScale) > 0 then 1 / 2 else 1) := by
      rw [← hdec, h3]
      exact (updateTimers_fields (deltaTime * g.timeScale) g).2.2.2.2.2
    have hpl : g3.player =
        some (p.update env (deltaTime * g.timeScale) inp g.useVirtualJoystick) := by
      rw [h3]
    rw [hsp] at e4 h4
    refine ⟨g3, g4, e3, hsl, hpl, e4, by rw [h4], by rw [h4], ?_⟩
    rw [e, e5]
    simp only [Except.bind]
    rw [e6]
  · intro q speed u hq hr
    unfold magnetStep
    simp [hq, hr]
  · intro ops highScore level
    exact (wellFormed_run ops _ (wellFormed_initial highScore level)).2.1

end SlowTime

section SlowTimeConcrete

/-- Witness of C16: with `slowTime = 4000` and time scale 1, a tick of 16 ms leaves
`slowTime = 3984` after its first part, and collecting a "slow" power-up sets it to
4000. -/
theorem slow_time_halves_speed_witness :
    (updateTimers (16 * (slowedState : Game ℝ).timeScale) (slowedState : Game ℝ)).slowTime =
      3984 ∧
    collectPowerUp realEnv (PowerUp.new 100 300 PowerUpType.slow) (slowedState : Game ℝ) =
      .ok { (slowedState : Game ℝ) with slowTime := 4000 } := by
  obtain ⟨h1, h2, -⟩ := slow_time_halves_speed realEnv noInput 16 (slowedState : Game ℝ)
    (Player.new 100 300 plainModifier) plainModifier rfl rfl
    (by norm_num [slowedState]) (by norm_num [slowedState, playingState, Game.initial])
  refine ⟨?_, h1 _ rfl⟩
  rw [h2]
  norm_num [slowedState, playingState, Game.initial]

end SlowTimeConcrete

/-! ## Time dilation -/

section DilationBase

variable {α : Type} [LinearOrderedField α]

theorem nearObstacle_iff (env : Env α) (p : Player α) (obstacles : List (Obstacle α)) :
    nearObstacle env p obstacles = true ↔
      ∃ o ∈ obstacles, env.sqrt (distSq p.x p.y o.x o.y) < 150 := by
  unfold nearObstacle distSq
  simp

/-- Without input and without the virtual joystick, a player inside the window stays where
it is. -/
theorem Player.update_idle (env : Env α) (p : Player α) (deltaTime : α)
    (hx1 : p.size ≤ p.x) (hx2 : p.x ≤ env.innerWidth - p.size)
    (hy1 : p.size ≤ p.y) (hy2 : p.y ≤ env.innerHeight - p.size) :
    (p.update env deltaTime noInput false).x = p.x ∧
    (p.update env deltaTime noInput false).y = p.y ∧
    (p.update env deltaTime noInput false).size = p.size := by
  unfold Player.update
  simp [noInput, Env.sqrt_zero, hx1, hx2, hy1, hy2]

end DilationBase

section Dilation

variable {α : Type} [LinearOrderedField α] [FloorRing α]

theorem gameLoop_keeps_timeScale (env : Env α) (inp : Input α) (currentTime : α)
    (g : Game α) (m : Modifier α) (hpres : Present g)
    (hm : g.activeModifier.map Modifier.sansCharges = some m.sansCharges)
    (hd : m.effect.timeDilation ≠ some true) :
    Present (final (gameLoop env inp currentTime g)) ∧
    (final (gameLoop env inp currentTime g)).activeModifier.map Modifier.sansCharges =
      some m.sansCharges ∧
    (final (gameLoop env inp currentTime g)).timeScale = g.timeScale := by
  by_cases hs : g.gameState = GameState.playing
  · obtain ⟨p, hp⟩ := Option.isSome_iff_exists.mp hpres.1
    obtain ⟨m1, hm1⟩ := Option.isSome_iff_exists.mp hpres.2
    have hmm : m1.sansCharges = m.sansCharges := by
      rw [hm1] at hm
      simpa using hm
    have hd1 : m1.effect.timeDilation ≠ some true := by
      rw [(sansCharges_pointMultiplier m1 m hmm).2]
      exact hd
    obtain ⟨g7, e7, h7, a1, -, a3, -, -⟩ := update_summary env inp
      (min (currentTime - g.lastTime) 32)
      { g with lastTime := currentTime, frameCount := g.frameCount + 1 } p m1 hp hm1
    have e : gameLoop env inp currentTime g = .ok g7 := by
      unfold gameLoop
      dsimp only
      rw [if_pos hs]
      exact e7
    rw [e]
    refine ⟨h7, a3.trans (by rw [hmm]), ?_⟩
    rw [if_neg hd1] at a1
    exact a1
  · have e : gameLoop env inp currentTime g =
        .ok { g with lastTime := currentTime, frameCount := g.frameCount + 1 } := by
      unfold gameLoop
      dsimp only
      rw [if_neg hs]
    rw [e]
    exact ⟨hpres, hm, rfl⟩

theorem frames_keep_timeScale (m : Modifier α) (hd : m.effect.timeDilation ≠ some true)
    (frames : List (Env α × Input α × α)) :
    ∀ g : Game α, Present g →
      g.activeModifier.map Modifier.sansCharges = some m.sansCharges →
      (run (frameOps frames) g).timeScale = g.timeScale := by
  induction frames with
  | nil => intro g _ _; rfl
  | cons f rest ih =>
    intro g hpres hm
    obtain ⟨h1, h2, h3⟩ := gameLoop_keeps_timeScale f.1 f.2.1 f.2.2 g m hpres hm hd
    have e : run (frameOps (f :: rest)) g =
        run (frameOps rest) (final (gameLoop f.1 f.2.1 f.2.2 g)) := rfl
    rw [e, ih _ h1 h2, h3]

/-- C18: in a tick with player `p` and active modifier `m` present, `update` is the
composition of its parts, each of which (movement of the player and of the entities,
the spawn trials, the decay of the particles, the score) takes
`deltaTime * timeScale` with the time scale held at the start of the tick.  With time
dilation enabled, `update` returns with the time scale 0.3 if some obstacle of the list
as it was at the start of the tick lies at distance below 150 from the player as updated
in this tick, and 1 otherwise.  Without time dilation `update` returns with the time
scale it started with, and from a state with time scale 1 every sequence of frames
leaves the time scale 1. -/
theorem time_dilation_lag (env : Env α) (inp : Input α) (deltaTime : α) (g : Game α)
    (p : Player α) (m : Modifier α) (hp : g.player = some p)
    (hm : g.activeModifier = some m) :
    update env inp deltaTime g =
      ((updatePlayer env inp (deltaTime * g.timeScale)
        (updateTimers (deltaTime * g.timeScale) g)).bind fun g1 =>
      (updateDilation env g1).bind fun g2 =>
      (powerUpTrial env (deltaTime * g.timeScale)
        (obstacleTrial env (deltaTime * g.timeScale) g2)).bind fun g3 =>
      (updateGameObjects env (deltaTime * g.timeScale) g3.currentSpeed g3).bind fun g4 =>
      (emitTrail env (capParticles g4)).bind fun g5 =>
      (checkCollisions env g5).bind (updateScore (deltaTime * g.timeScale))) ∧
    (m.effect.timeDilation = some true →
      ∃ g1, update env inp deltaTime g = .ok g1 ∧
        g1.timeScale =
          if nearObstacle env
            (p.update env (deltaTime * g.timeScale) inp g.useVirtualJoystick) g.obstacles
          then 3 / 10 else 1) ∧
    (∀ q : Player α, nearObstacle env q g.obstacles = true ↔
      ∃ o ∈ g.obstacles, env.sqrt (distSq q.x q.y o.x o.y) < 150) ∧
    (m.effect.timeDilation ≠ some true →
      ∃ g1, update env inp deltaTime g = .ok g1 ∧ g1.timeScale = g.timeScale) ∧
    (m.effect.timeDilation ≠ some true → g.timeScale = 1 →
      ∀ frames : List (Env α × Input α × α), (run (frameOps frames) g).timeScale = 1) := by
  obtain ⟨g7, e7, -, a1, -⟩ := update_summary env inp deltaTime g p m hp hm
  refine ⟨update_eq_stages env inp deltaTime g, ?_, fun q => nearObstacle_iff env q _, ?_, ?_⟩
  · intro hd
    rw [if_pos hd] at a1
    exact ⟨g7, e7, a1⟩
  · intro hd
    rw [if_neg hd] at a1
    exact ⟨g7, e7, a1⟩
  · intro hd h1 frames
    rw [frames_keep_timeScale m hd frames g ⟨by simp [hp], by simp [hm]⟩ (by rw [hm]; rfl)]
    exact h1

end Dilation

section DilationConcrete

/-- Witness of C18: a run with "Time Dilator" at time scale 1 and an obstacle at distance
50 from the player; the tick of 16 ms returns with the time scale 0.3 for the next
tick. -/
theorem time_dilation_lag_witness :
    (playingState timeDilator 1 [Obstacle.new 150 300 30] [] : Game ℝ).timeScale = 1 ∧
    ∃ g1, update realEnv noInput 16
        (playingState timeDilator 1 [Obstacle.new 150 300 30] [] : Game ℝ) = .ok g1 ∧
      g1.timeScale = 3 / 10 := by
  refine ⟨rfl, ?_⟩
  obtain ⟨g1, e, h⟩ := (time_dilation_lag realEnv noInput 16
    (playingState timeDilator 1 [Obstacle.new 150 300 30] [] : Game ℝ)
    (Player.new 100 300 timeDilator) timeDilator rfl rfl).2.1 rfl
  refine ⟨g1, e, ?_⟩
  rw [h, if_pos]
  have hsz : (Player.new 100 300 (timeDilator : Modifier ℝ)).size = 20 := by
    simp [Player.new, timeDilator, orElse]
  obtain ⟨hx, hy, -⟩ := Player.update_idle realEnv (Player.new 100 300 timeDilator)
    (16 * (playingState timeDilator 1 [Obstacle.new 150 300 30] [] : Game ℝ).timeScale)
    (by rw [hsz]; norm_num [Player.new]) (by rw [hsz]; norm_num [Player.new, realEnv])
    (by rw [hsz]; norm_num [Player.new]) (by rw [hsz]; norm_num [Player.new, realEnv])
  rw [nearObstacle_iff]
  refine ⟨Obstacle.new 150 300 30, List.mem_singleton.mpr rfl, ?_⟩
  have hu : (playingState timeDilator 1 [Obstacle.new 150 300 30] [] :
      Game ℝ).useVirtualJoystick = false := rfl
  rw [hu, hx, hy]
  unfold distSq
  rw [Env.sqrt_lt_iff realEnv (Env.sum_sq_nonneg _ _)]
  norm_num [Player.new, Obstacle.new]

end DilationConcrete

/-! ## The particle limit -/

section ParticleCapBase

variable {α : Type}

theorem capParticles_length (g : Game α) :
    (capParticles g).particles.length ≤ maxParticles g := by
  rw [capParticles_eq]
  simp only [List.length_drop]
  omega

end ParticleCapBase

section Survivors

variable {α : Type} [LinearOrderedField α]

/-- Equal particles that outlive the tick all pass the filter of `updateGameObjects`. -/
theorem survivors_replicate (n : Nat) (q : Particle α) (scaledDelta : α)
    (h : (q.update scaledDelta).life > 0) :
    (((List.replicate n q).map fun (q : Particle α) => q.update scaledDelta).filter
      fun q => decide (q.life > 0)).length = n := by
  rw [List.map_replicate, List.filter_replicate_of_pos (by simpa using h),
    List.length_replicate]

end Survivors

section ParticleCap

variable {α : Type} [LinearOrderedField α] [FloorRing α]

/-- The particles at the end of a tick: those that `updateGameObjects` left (`g4`), cut to
the last `maxParticles` by the limit, then the trail particle if one was emitted, then
whatever `checkCollisions` added. -/
theorem update_particles (env : Env α) (inp : Input α) (deltaTime : α) (g : Game α)
    (p : Player α) (m : Modifier α) (hp : g.player = some p)
    (hm : g.activeModifier = some m) :
    ∃ (g4 g7 : Game α) (trail later : List (Particle α)),
      update env inp deltaTime g = .ok g7 ∧
      g4.particles = (g.particles.map fun (q : Particle α) =>
        q.update (deltaTime * g.timeScale)).filter (fun q => decide (q.life > 0)) ∧
      maxParticles g4 = maxParticles g ∧ maxParticles g7 = maxParticles g ∧
      g7.particles = (capParticles g4).particles ++ trail ++ later ∧
      trail.length ≤ 1 ∧
      (env.random g4.randIx <
          (if g.performanceLevel = PerformanceLevel.low then 1 / 10 else 3 / 10) →
        trail.length = 1) := by
  obtain ⟨g3, g4, g5, g6, -, ⟨obs, pus, n, h3⟩, -, h4, -, ⟨extra, n5, h5, k1, k2⟩,
    e6, h6, f6, e⟩ :=
    update_chain env inp deltaTime g p m hp hm
  obtain ⟨-, -, u3, u4, -, -⟩ := updateTimers_fields (deltaTime * g.timeScale) g
  obtain ⟨m6, hm6⟩ := Option.isSome_iff_exists.mp h6.2
  obtain ⟨-, -, -, -, ⟨later, a5⟩, -, -⟩ := f6
  have hpl4 : g4.performanceLevel = g.performanceLevel := by
    rw [h4, h3]
    exact u4
  have hpart4 : g4.particles = (g.particles.map fun (q : Particle α) =>
        q.update (deltaTime * g.timeScale)).filter (fun q => decide (q.life > 0)) := by
    rw [h4, h3]
    dsimp only
    rw [u3]
  have hpl6 : g6.performanceLevel = g.performanceLevel := by
    have hs := (checkCollisions_stable env g5).2.2.2.2.1
    rw [e6] at hs
    exact hs.trans (by rw [h5]; exact hpl4)
  rw [updateScore_eq (deltaTime * g.timeScale) g6 m6 hm6] at e
  refine ⟨g4, _, extra, later, e, hpart4, ?_, ?_, ?_, k1, ?_⟩
  · unfold maxParticles
    rw [hpl4]
  · unfold maxParticles
    show (if g6.performanceLevel = PerformanceLevel.low then 50 else 200) = _
    rw [hpl6]
  · show g6.particles = _
    rw [a5, h5]
  · rw [hpl4] at k2
    exact k2

/-- C19 (amended): in a tick with player and active modifier present, the particle limit
cuts the particles that survived `updateGameObjects` to the last `maxParticles` (200,
or 50 on the low performance tier), so right after that step there are at most
`maxParticles` of them; the trail particle and the particles `checkCollisions` adds come
after the limit of the tick, and the particles at the end of the tick are the limited
ones followed by these. -/
theorem particle_cap_at_cap_step (env : Env α) (inp : Input α) (deltaTime : α) (g : Game α)
    (p : Player α) (m : Modifier α) (hp : g.player = some p)
    (hm : g.activeModifier = some m) :
    maxParticles g = (if g.performanceLevel = PerformanceLevel.low then 50 else 200) ∧
    ∃ (g4 g7 : Game α) (trail later : List (Particle α)),
      update env inp deltaTime g = .ok g7 ∧
      g4.particles = (g.particles.map fun (q : Particle α) =>
        q.update (deltaTime * g.timeScale)).filter (fun q => decide (q.life > 0)) ∧
      (capParticles g4).particles =
        g4.particles.drop (g4.particles.length - maxParticles g) ∧
      (capParticles g4).particles.length ≤ maxParticles g ∧
      g7.particles = (capParticles g4).particles ++ trail ++ later ∧
      trail.length ≤ 1 ∧
      g7.particles.length ≤ maxParticles g + 1 + later.length := by
  obtain ⟨g4, g7, trail, later, e, h4, hmax, -, h7, ht, -⟩ :=
    update_particles env inp deltaTime g p m hp hm
  have hlen := capParticles_length g4
  rw [hmax] at hlen
  refine ⟨rfl, g4, g7, trail, later, e, h4, ?_, hlen, h7, ht, ?_⟩
  · rw [capParticles_eq, hmax]
  · rw [h7, List.length_append, List.length_append]
    omega

end ParticleCap

section ParticleCapConcrete

/-- C19 (counterexample): with 200 live particles on the high performance tier (limit
200), the tick of 16 ms returns with more than 200 particles: the limit keeps the 200,
and the trail particle is added after it. -/
theorem particle_cap_exceeded :
    ∃ g1, update realEnv noInput 16 (crowdedState : Game ℝ) = .ok g1 ∧
      maxParticles g1 = 200 ∧ ¬ g1.particles.length ≤ maxParticles g1 := by
  obtain ⟨g4, g7, trail, later, e, h4, hmax, hmax7, h7, -, ht⟩ :=
    update_particles realEnv noInput 16 (crowdedState : Game ℝ)
      (Player.new 100 300 plainModifier) plainModifier rfl rfl
  have hm : maxParticles (crowdedState : Game ℝ) = 200 := rfl
  have h4len : g4.particles.length = 200 := by
    rw [h4]
    exact survivors_replicate 200 _ _ (by norm_num [Particle.update, Particle.new,
      crowdedState, playingState, Game.initial])
  have hcap : (capParticles g4).particles.length = 200 := by
    rw [capParticles_eq]
    simp [h4len, hmax, hm]
  have htrail : trail.length = 1 := by
    apply ht
    show (0 : ℝ) < _
    split <;> norm_num
  refine ⟨g7, e, hmax7.trans hm, ?_⟩
  rw [hmax7, hm, h7, List.length_append, List.length_append, hcap, htrail]
  omega

/-- Witness of C19 (amended): for the state with 200 live particles the tick returns with
at most `200 + 1` particles plus those added by `checkCollisions`. -/
theorem particle_cap_at_cap_step_witness :
    ∃ (g7 : Game ℝ) (later : List (Particle ℝ)),
      update realEnv noInput 16 (crowdedState : Game ℝ) = .ok g7 ∧
      g7.particles.length ≤ 200 + 1 + later.length := by
  obtain ⟨-, g4, g7, trail, later, e, -, -, -, -, -, h⟩ :=
    particle_cap_at_cap_step realEnv noInput 16 (crowdedState : Game ℝ)
      (Player.new 100 300 plainModifier) plainModifier rfl rfl
  exact ⟨g7, later, e, h⟩

end ParticleCapConcrete

/-! ## Two pick-ups in one pass -/

section AdjacentPickups

variable {α : Type} [LinearOrderedField α]

/-- With no obstacle and two power-ups in the list, the first a "score" power-up touching
the player: the pass collects and removes the first and never visits the second, which
has moved to the position just visited. -/
theorem checkCollisions_adjacent_pickups (env : Env α) (g : Game α) (p : Player α)
    (m : Modifier α) (u1 u2 : PowerUp α) (hp : g.player = some p)
    (hm : g.activeModifier = some m) (hobs : g.obstacles = [])
    (hpu : g.powerUps = [u1, u2]) (hhit : p.collidesWithPowerUp env u1 = true)
    (hu : u1.type = PowerUpType.score) :
    ∃ g1, checkCollisions env g = .ok g1 ∧ g1.powerUps = [u2] ∧ g1.lives = g.lives ∧
      g1.player = some p ∧ g1.score = g.score + 100 * orElse m.effect.pointMultiplier 1 := by
  have hcb := powerUpCallback_hit env u1 0 g _ p hp hhit
    (collectPowerUp_score env u1 g m hm hu)
  have hpu1 : (playSFX "powerup" (addExplosion env u1.x u1.y u1.color
      { ({ g with score := g.score + 100 * orElse m.effect.pointMultiplier 1 } : Game α) with
        powerUps := g.powerUps.eraseIdx 0 })).powerUps = [u2] := by
    simp [addExplosion_eq, playSFX, hpu]
  refine ⟨_, ?_, hpu1, ?_, ?_, ?_⟩
  · unfold checkCollisions
    rw [checkObstacleCollisions_none env g p hp (by rw [hobs]; simp)]
    simp only [Except.bind]
    unfold checkPowerUpCollisions
    refine forEach_single (fun g => g.powerUps) (powerUpCallback env) g _ [] [u2] u1 hpu
      ?_ hcb ?_
    · intro j b hj _
      exact absurd hj (by simp)
    · intro j b hj hb
      dsimp only at hb
      rw [hpu1] at hb
      have hj1 : 1 ≤ j := by simpa using hj
      rw [List.getElem?_eq_none (by simpa using hj1)] at hb
      exact absurd hb (by simp)
  · simp [addExplosion_eq, playSFX]
  · simp [addExplosion_eq, playSFX, hp]
  · simp [addExplosion_eq, playSFX]

end AdjacentPickups

section AdjacentPickupsConcrete

/-- C20 (evaluation of the code at the failing input): two power-ups lie on the player.
`checkCollisions` returns having collected the "score" one (score 100); the "extraLife"
one is still in the list and still touches the player, and the lives are still 1. -/
theorem adjacent_powerUp_missed :
    ∃ g1, checkCollisions realEnv (twoPickupsState : Game ℝ) = .ok g1 ∧
      g1.powerUps = [PowerUp.new 100 300 PowerUpType.extraLife] ∧
      g1.player = some (Player.new 100 300 plainModifier) ∧
      (Player.new 100 300 plainModifier).collidesWithPowerUp realEnv
        (PowerUp.new 100 300 PowerUpType.extraLife) = true ∧
      g1.lives = 1 ∧ g1.score = 100 := by
  have hc : ∀ t : PowerUpType, (Player.new 100 300 (plainModifier : Modifier ℝ)).collidesWithPowerUp
      realEnv (PowerUp.new 100 300 t) = true := by
    intro t
    simp only [Player.collidesWithPowerUp, Player.collidesAt, Player.new, PowerUp.new,
      plainModifier, orElse, decide_eq_true_eq, sub_self, mul_zero, add_zero]
    rw [Env.sqrt_zero]
    norm_num
  obtain ⟨g1, e, h1, h2, h3, h4⟩ := checkCollisions_adjacent_pickups realEnv
    (twoPickupsState : Game ℝ) (Player.new 100 300 plainModifier) plainModifier
    (PowerUp.new 100 300 PowerUpType.score) (PowerUp.new 100 300 PowerUpType.extraLife)
    rfl rfl rfl rfl (hc _) rfl
  refine ⟨g1, e, h1, h3, hc _, h2, ?_⟩
  rw [h4]
  simp [twoPickupsState, playingState, Game.initial, plainModifier, orElse]

end AdjacentPickupsConcrete

/-! ## Restart -/

section Restart

variable {α : Type} [LinearOrderedField α] [FloorRing α]

/-- C11 (amended): `restartGame()` sets the state to `start` and asks for the ambient
theme, and changes nothing else: the collections and the timers stay as the run left
them.  A frame in a state that is not `playing`, such as the one after the restart, only
records the time and counts the frame.  The `initializeGame()` of the next run, with a
modifier selected, empties the obstacle, power-up and particle collections and makes a
new player whose shield, magnet and speed-boost timers are 0 and flags off. -/
theorem restartGame_defers_clearing (env : Env α) (inp : Input α) (currentTime : α)
    (g : Game α) (m : Modifier α) (hsel : g.selectedModifier = some m) :
    restartGame g =
      { g with gameState := GameState.start, audio := g.audio ++ [Cue.theme "ambient"] } ∧
    (restartGame g).obstacles = g.obstacles ∧ (restartGame g).powerUps = g.powerUps ∧
    (restartGame g).particles = g.particles ∧ (restartGame g).slowTime = g.slowTime ∧
    (restartGame g).player = g.player ∧
    (∀ g0 : Game α, g0.gameState ≠ GameState.playing →
      gameLoop env inp currentTime g0 =
        .ok { g0 with lastTime := currentTime, frameCount := g0.frameCount + 1 }) ∧
    (restartGame g).gameState ≠ GameState.playing ∧
    (∃ g1 p, initializeGame env (restartGame g) = .ok g1 ∧
      g1.obstacles = [] ∧ g1.powerUps = [] ∧ g1.particles = [] ∧ g1.player = some p ∧
      p.shieldTime = 0 ∧ p.magnetTime = 0 ∧ p.speedTime = 0 ∧
      p.hasShield = false ∧ p.hasMagnet = false ∧ p.hasSpeedBoost = false) := by
  refine ⟨rfl, rfl, rfl, rfl, rfl, rfl, ?_, ?_, ?_⟩
  · intro g0 h0
    unfold gameLoop
    dsimp only
    rw [if_neg h0]
  · simp [restartGame, playTheme]
  · exact ⟨_, _, initializeGame_eq env (restartGame g) m hsel, rfl, rfl, rfl, rfl,
      rfl, rfl, rfl, rfl, rfl, rfl⟩

end Restart

section RestartConcrete

/-- C11 (counterexample): after `restartGame()` on a finished run the obstacle, the
power-up and the particle are still in the collections, `slowTime` is still 4000 and the
player's magnet timer still 4000. -/
theorem restartGame_keeps_entities :
    (restartGame (endedState : Game ℝ)).obstacles = [Obstacle.new 500 300 30] ∧
    (restartGame (endedState : Game ℝ)).powerUps = [PowerUp.new 600 200 PowerUpType.score] ∧
    (restartGame (endedState : Game ℝ)).particles =
      [Particle.new 100 300 "#FF4500" 1000 true 0 0 0] ∧
    (restartGame (endedState : Game ℝ)).slowTime = 4000 ∧
    (restartGame (endedState : Game ℝ)).player.map (fun p => p.magnetTime) = some 4000 ∧
    (restartGame (endedState : Game ℝ)).obstacles ≠ [] ∧
    (restartGame (endedState : Game ℝ)).slowTime ≠ 0 :=
  ⟨rfl, rfl, rfl, rfl, rfl, by simp [restartGame, playTheme, endedState, playingState],
    by simp [restartGame, playTheme, endedState]⟩

/-- Witness of C11 (amended): the finished run keeps its obstacle through the restart,
and the `initializeGame()` of the next run returns with empty collections. -/
theorem restartGame_defers_clearing_witness :
    (restartGame (endedState : Game ℝ)).obstacles = [Obstacle.new 500 300 30] ∧
    ∃ g1, initializeGame realEnv (restartGame (endedState : Game ℝ)) = .ok g1 ∧
      g1.obstacles = [] ∧ g1.powerUps = [] ∧ g1.particles = [] := by
  obtain ⟨-, h2, -, -, -, -, -, -, g1, p, e, k1, k2, k3, -⟩ :=
    restartGame_defers_clearing realEnv noInput 0 (endedState : Game ℝ) plainModifier rfl
  exact ⟨h2, g1, e, k1, k2, k3⟩

end RestartConcrete

/-! ## Slow time across runs -/

section SlowCarry

variable {α : Type} [LinearOrderedField α]

/-- Neither branch of `initializeGame()` assigns `slowTime`. -/
theorem initializeGame_slowTime (env : Env α) (g : Game α) :
    (final (initializeGame env g)).slowTime = g.slowTime := by
  unfold initializeGame applyModifier
  dsimp only [playTheme, playSFX]
  cases g.selectedModifier with
  | none => simp [final, Except.bind]
  | some m =>
    simp only [Option.map_some']
    cases (jsonCopy m).effect.extraLives with
    | none => simp [final, Except.bind]
    | some n =>
      by_cases hn : n = 0 <;> simp [final, Except.bind, hn]

end SlowCarry

section SlowCarryOps

variable {α : Type} [LinearOrderedField α] [FloorRing α]

/-- Only a frame changes `slowTime`: the start action, the choice of a modifier, the timer
that runs `initializeGame()` and the restart action leave it as it was. -/
theorem step_keeps_slowTime (op : Op α) (g : Game α)
    (h : ∀ env inp currentTime, op ≠ Op.frame env inp currentTime) :
    (final (step op g)).slowTime = g.slowTime := by
  cases op with
  | startGame shuffled => rfl
  | selectModifier index =>
    simp only [step]
    unfold selectModifier
    split <;> rfl
  | fireTimer env =>
    simp only [step]
    unfold fireTimer
    split
    · rfl
    · exact initializeGame_slowTime env { g with pendingInits := g.pendingInits - 1 }
  | restartGame => rfl
  | frame env inp currentTime => exact absurd rfl (h env inp currentTime)

/-- The state after `nextRunOps` from the finished run `endedState`: the new run is
playing with the fields `initializeGame()` assigns, and the rest as the old run left
it. -/
theorem nextRun_eq (env : Env α) :
    run (nextRunOps env) (endedState : Game α) =
      { (endedState : Game α) with
        gameState := GameState.playing
        currentModifiers := [1, 0, 2]
        selectedModifier := some giantMode
        activeModifier := some giantMode
        player := some (Player.new 100 (env.innerHeight / 2) giantMode)
        audio := [Cue.theme "ambient", Cue.sfx "select", Cue.sfx "select",
          Cue.theme "game", Cue.sfx "start"]
        score := 0
        lives := 1
        gameSpeed := 2
        timeScale := 1
        obstacles := []
        powerUps := []
        particles := [] } := by
  have h1 : currentModifier (startGame [1, 0, 2, 3, 4, 5, 6, 7]
      (restartGame (endedState : Game α))) 0 = some giantMode := rfl
  have h2 : step (Op.selectModifier 0) (startGame [1, 0, 2, 3, 4, 5, 6, 7]
      (restartGame (endedState : Game α))) = .ok
      { startGame [1, 0, 2, 3, 4, 5, 6, 7] (restartGame (endedState : Game α)) with
        selectedModifier := some giantMode
        audio := [Cue.theme "ambient", Cue.sfx "select", Cue.sfx "select"]
        pendingInits := 1 } := by
    simp only [step]
    unfold selectModifier
    rw [h1]
    simp only [jsonCopy_eq]
    rfl
  have e1 : run (nextRunOps env) (endedState : Game α) =
      final (step (Op.fireTimer env) (final (step (Op.selectModifier 0)
        (startGame [1, 0, 2, 3, 4, 5, 6, 7] (restartGame (endedState : Game α)))))) := rfl
  rw [e1, h2]
  have e3 : step (Op.fireTimer env) (final (.ok
      { startGame [1, 0, 2, 3, 4, 5, 6, 7] (restartGame (endedState : Game α)) with
        selectedModifier := some giantMode
        audio := [Cue.theme "ambient", Cue.sfx "select", Cue.sfx "select"]
        pendingInits := 1 })) = initializeGame env
      { startGame [1, 0, 2, 3, 4, 5, 6, 7] (restartGame (endedState : Game α)) with
        selectedModifier := some giantMode
        audio := [Cue.theme "ambient", Cue.sfx "select", Cue.sfx "select"]
        pendingInits := 0 } := rfl
  rw [e3, initializeGame_eq env _ giantMode rfl]
  rfl

end SlowCarryOps

section SlowCarryConcrete

/-- C21 (evaluation of the code at the failing input): the run `endedState` ended with
`slowTime = 4000`.  `initializeGame()` never assigns `slowTime`, and neither does any
operation but a frame.  After the restart action, the start action, the choice of a modifier
and `initializeGame()`, the new run is playing with `gameSpeed = 2` and `slowTime` still
4000; in its first tick of 16 ms the first part of `update` leaves `slowTime = 3984`
and the speed `1`, half of `gameSpeed`, and `updateGameObjects` is called with that
speed. -/
theorem slow_time_survives_restart :
    (endedState : Game ℝ).gameState = GameState.gameOver ∧
    (endedState : Game ℝ).slowTime = 4000 ∧
    (∀ (env : Env ℝ) (g : Game ℝ), (final (initializeGame env g)).slowTime = g.slowTime) ∧
    (∀ (shuffled : List Nat) (g : Game ℝ),
      (final (step (Op.startGame shuffled) g)).slowTime = g.slowTime) ∧
    (∀ (index : Int) (g : Game ℝ),
      (final (step (Op.selectModifier index) g)).slowTime = g.slowTime) ∧
    (∀ (env : Env ℝ) (g : Game ℝ),
      (final (step (Op.fireTimer env) g)).slowTime = g.slowTime) ∧
    (∀ g : Game ℝ, (final (step Op.restartGame g)).slowTime = g.slowTime) ∧
    ∃ g1 g3 g4 : Game ℝ,
      run (nextRunOps realEnv) (endedState : Game ℝ) = g1 ∧
      g1.gameState = GameState.playing ∧ g1.slowTime = 4000 ∧ g1.gameSpeed = 2 ∧
      g1.timeScale = 1 ∧ g1.obstacles = [] ∧
      ((updatePlayer realEnv noInput (16 * g1.timeScale)
        (updateTimers (16 * g1.timeScale) g1)).bind fun g2 =>
      (updateDilation realEnv g2).bind fun g2 =>
      powerUpTrial realEnv (16 * g1.timeScale)
        (obstacleTrial realEnv (16 * g1.timeScale) g2)) = .ok g3 ∧
      g3.slowTime = 3984 ∧ g3.currentSpeed = 1 ∧
      updateGameObjects realEnv (16 * g1.timeScale) 1 g3 = .ok g4 ∧
      update realEnv noInput 16 g1 =
        ((emitTrail realEnv (capParticles g4)).bind fun g5 =>
          (checkCollisions realEnv g5).bind (updateScore (16 * g1.timeScale))) := by
  refine ⟨rfl, rfl, initializeGame_slowTime,
    fun shuffled g => step_keeps_slowTime _ g (fun _ _ _ h => by cases h),
    fun index g => step_keeps_slowTime _ g (fun _ _ _ h => by cases h),
    fun env g => step_keeps_slowTime _ g (fun _ _ _ h => by cases h),
    fun g => step_keeps_slowTime _ g (fun _ _ _ h => by cases h), ?_⟩
  obtain ⟨g1, hg1⟩ : ∃ g1 : Game ℝ, run (nextRunOps realEnv) (endedState : Game ℝ) = g1 :=
    ⟨_, rfl⟩
  have hg := hg1
  rw [nextRun_eq] at hg
  have hs : g1.slowTime = 4000 := by rw [← hg]; rfl
  have hgs : g1.gameSpeed = 2 := by rw [← hg]
  have hts : g1.timeScale = 1 := by rw [← hg]
  have hp : g1.player = some (Player.new 100 (realEnv.innerHeight / 2) giantMode) := by
    rw [← hg]
  have hm : g1.activeModifier = some giantMode := by rw [← hg]
  obtain ⟨g3, g4, g5, g6, e3, ⟨obs, pus, n, h3⟩, e4, -, e5, -, e6, -, -, e⟩ :=
    update_chain realEnv noInput 16 g1 _ giantMode hp hm
  obtain ⟨-, -, -, -, u5, u6⟩ := updateTimers_fields (16 * g1.timeScale) g1
  have hsl : g3.slowTime = 3984 := by
    rw [h3]
    show (updateTimers (16 * g1.timeScale) g1).slowTime = 3984
    rw [u5, hs, hts]
    norm_num
  have hsp : g3.currentSpeed = 1 := by
    rw [h3]
    show (updateTimers (16 * g1.timeScale) g1).currentSpeed = 1
    rw [u6, u5, hs, hts, hgs]
    norm_num
  rw [hsp] at e4
  refine ⟨g1, g3, g4, hg1, by rw [← hg], hs, hgs, hts, by rw [← hg], e3, hsl, hsp, e4, ?_⟩
  rw [e, e5]
  simp only [Except.bind]
  rw [e6]

end SlowCarryConcrete

/-! ## The score after the game is over -/

section QuietTickBase

variable {α : Type} [LinearOrderedField α]

theorem obstacleTrial_quiet (env : Env α) (scaledDelta : α) (g : Game α)
    (hq : 1 / 2 ≤ env.random g.randIx) (hsd : scaledDelta ≤ 32) :
    obstacleTrial env scaledDelta g = { g with randIx := g.randIx + 1 } := by
  have h : ¬ env.random g.randIx <
      (if g.performanceLevel = PerformanceLevel.low then 15 / 1000 else 2 / 100) *
        (scaledDelta / 16) := by
    split <;> (intro h; linarith)
  unfold obstacleTrial
  dsimp only [random]
  rw [if_neg h]

/-- What the callback does on an obstacle that takes the last life: `gameOver()` runs,
with the score as it is at that moment. -/
theorem obstacleCallback_fatal (env : Env α) (o : Obstacle α) (k : Nat) (g : Game α)
    (p : Player α) (m : Modifier α) (hp : g.player = some p)
    (hm : g.activeModifier = some m) (hhit : p.collidesWith env o = true)
    (hshield : p.hasShield = false)
    (hph : ∀ c, m.effect.phaseCharges = some c → c ≤ 0) (hl : g.lives ≤ 1) :
    ∃ g1, obstacleCallback env o k g = .ok g1 ∧ g1.player = some p ∧
      g1.activeModifier = some m ∧ g1.obstacles = g.obstacles.eraseIdx k ∧
      g1.powerUps = g.powerUps ∧ g1.gameState = GameState.gameOver ∧
      g1.score = g.score ∧
      g1.highScore = (if g.score > g.highScore then g.score else g.highScore) ∧
      g1.storage = (if g.score > g.highScore then some g.score else g.storage) := by
  have hcb := obstacleCallback_life env o k g p m hp hm hhit hshield hph
  have hle : g.lives - 1 ≤ 0 := by omega
  rw [if_pos hle, gameOver_eq _ (by simp [addExplosion_eq, playSFX, hm])] at hcb
  exact ⟨_, hcb, by simp [addExplosion_eq, playSFX, hp, hm]⟩

theorem updateTimers_rest (scaledDelta : α) (g : Game α) :
    (updateTimers scaledDelta g).lives = g.lives ∧
    (updateTimers scaledDelta g).highScore = g.highScore ∧
    (updateTimers scaledDelta g).storage = g.storage ∧
    (updateTimers scaledDelta g).powerUps = g.powerUps ∧
    (updateTimers scaledDelta g).gameState = g.gameState := by
  rw [updateTimers_eq]
  exact ⟨rfl, rfl, rfl, rfl, rfl⟩

end QuietTickBase

section QuietTick

variable {α : Type} [LinearOrderedField α] [FloorRing α]

theorem powerUpTrial_quiet (env : Env α) (scaledDelta : α) (g : Game α)
    (hq : 1 / 2 ≤ env.random g.randIx) (hsd : scaledDelta ≤ 32) :
    powerUpTrial env scaledDelta g = .ok { g with randIx := g.randIx + 1 } := by
  have h : ¬ env.random g.randIx < 5 / 1000 * (scaledDelta / 16) := by
    intro h
    linarith
  unfold powerUpTrial
  dsimp only [random]
  rw [if_neg h]

/-- From the start of `update` to the spawn trials when both trials fail (every draw is at
least 0.5 and the scaled delta at most 32): the state they leave has the obstacles and
power-ups of the start of the tick. -/
theorem tick_head_quiet (env : Env α) (inp : Input α) (deltaTime : α) (g : Game α)
    (p : Player α) (m : Modifier α) (hp : g.player = some p)
    (hm : g.activeModifier = some m) (hd : m.effect.timeDilation ≠ some true)
    (hq : ∀ n, 1 / 2 ≤ env.random n) (hsd : deltaTime * g.timeScale ≤ 32) :
    ((updatePlayer env inp (deltaTime * g.timeScale)
        (updateTimers (deltaTime * g.timeScale) g)).bind fun g1 =>
      (updateDilation env g1).bind fun g2 =>
      powerUpTrial env (deltaTime * g.timeScale)
        (obstacleTrial env (deltaTime * g.timeScale) g2)) =
      .ok { updateTimers (deltaTime * g.timeScale) g with
        player := some (p.update env (deltaTime * g.timeScale) inp g.useVirtualJoystick)
        randIx := g.randIx + 2 } := by
  obtain ⟨t1, t2, t3, t4, t5⟩ := updateTimers_player (deltaTime * g.timeScale) g
  have t6 : (updateTimers (deltaTime * g.timeScale) g).randIx = g.randIx := by
    rw [updateTimers_eq]
  have e1 : updatePlayer env inp (deltaTime * g.timeScale)
      (updateTimers (deltaTime * g.timeScale) g) =
      .ok { updateTimers (deltaTime * g.timeScale) g with
        player := some (p.update env (deltaTime * g.timeScale) inp g.useVirtualJoystick) } := by
    refine (updatePlayer_eq env inp (deltaTime * g.timeScale)
      (updateTimers (deltaTime * g.timeScale) g) p (t1.trans hp)).trans ?_
    dsimp only
    rw [t3]
  have e2 : updateDilation env
      { updateTimers (deltaTime * g.timeScale) g with
        player := some (p.update env (deltaTime * g.timeScale) inp g.useVirtualJoystick) } =
      .ok { updateTimers (deltaTime * g.timeScale) g with
        player := some (p.update env (deltaTime * g.timeScale) inp g.useVirtualJoystick) } := by
    refine (updateDilation_eq env
      { updateTimers (deltaTime * g.timeScale) g with
        player := some (p.update env (deltaTime * g.timeScale) inp g.useVirtualJoystick) }
      (p.update env (deltaTime * g.timeScale) inp g.useVirtualJoystick) m rfl
      (t2.trans hm)).trans ?_
    rw [if_neg hd]
  have e3 := obstacleTrial_quiet env (deltaTime * g.timeScale)
    { updateTimers (deltaTime * g.timeScale) g with
      player := some (p.update env (deltaTime * g.timeScale) inp g.useVirtualJoystick) }
    (hq _) hsd
  have e4 := powerUpTrial_quiet env (deltaTime * g.timeScale)
    { updateTimers (deltaTime * g.timeScale) g with
      player := some (p.update env (deltaTime * g.timeScale) inp g.useVirtualJoystick)
      randIx := (updateTimers (deltaTime * g.timeScale) g).randIx + 1 }
    (hq _) hsd
  simp only [e1, e2, Except.bind]
  rw [e3, e4]
  dsimp only
  rw [t6]

/-- The rest of `update` once the spawn trials have left `g3` with player and active
modifier present: the three parts up to `checkCollisions` succeed as in `tick_tail`,
and the result of `update` is that of its last part on the state `g6` that
`checkCollisions` returned. -/
theorem update_after_head (env : Env α) (inp : Input α) (deltaTime : α) (g g3 : Game α)
    (p1 : Player α) (m : Modifier α)
    (e3 : ((updatePlayer env inp (deltaTime * g.timeScale)
        (updateTimers (deltaTime * g.timeScale) g)).bind fun g1 =>
      (updateDilation env g1).bind fun g2 =>
      powerUpTrial env (deltaTime * g.timeScale)
        (obstacleTrial env (deltaTime * g.timeScale) g2)) = .ok g3)
    (hp3 : g3.player = some p1) (hm3 : g3.activeModifier = some m) :
    ∃ g4 g5 g6 : Game α,
      g4 = { g3 with
        obstacles := (g3.obstacles.map fun (o : Obstacle α) =>
          o.update (deltaTime * g.timeScale) g3.currentSpeed).filter
            fun o => decide (o.x > -100)
        powerUps := (g3.powerUps.filterMap (magnetStep env p1 m
          (deltaTime * g.timeScale) g3.currentSpeed)).filter fun u => decide (u.x > -100)
        particles := (g3.particles.map fun (q : Particle α) =>
          q.update (deltaTime * g.timeScale)).filter fun q => decide (q.life > 0) } ∧
      (∃ (ps : List (Particle α)) (n : Nat), g5 = { g4 with particles := ps, randIx := n }) ∧
      checkCollisions env g5 = .ok g6 ∧
      update env inp deltaTime g = updateScore (deltaTime * g.timeScale) g6 := by
  obtain ⟨g4, g5, g6, e4, h4, e5, ⟨extra, n, h5, -, -⟩, e6, -, -⟩ :=
    tick_tail env (deltaTime * g.timeScale) g3.currentSpeed g3 p1 m hp3 hm3
  refine ⟨g4, g5, g6, h4, ⟨_, n, h5⟩, e6, ?_⟩
  rw [update_eq_stages]
  have key : ∀ (r : Except (Game α) (Game α)) (f1 f2 f3 : Game α → Except (Game α) (Game α)),
      r = .ok g3 → f1 g3 = .ok g4 → f2 g4 = .ok g5 → f3 g5 = .ok g6 →
      ∀ f4 : Game α → Except (Game α) (Game α),
        (r.bind fun a => (f1 a).bind fun b => (f2 b).bind fun c => (f3 c).bind f4) = f4 g6 := by
    intro r f1 f2 f3 a1 a2 a3 a4 f4
    simp only [a1, a2, a3, a4, Except.bind]
  have assoc : ∀ (r1 : Except (Game α) (Game α))
      (k1 k2 k3 : Game α → Except (Game α) (Game α)),
      (r1.bind fun a => (k1 a).bind fun b => (k2 b).bind k3) =
      ((r1.bind fun a => (k1 a).bind k2).bind k3) := by
    intro r1 k1 k2 k3
    cases r1 with
    | error e => rfl
    | ok a =>
      simp only [Except.bind]
      cases k1 a with
      | error e => rfl
      | ok b => rfl
  rw [assoc]
  exact key _ (fun a => updateGameObjects env (deltaTime * g.timeScale) a.currentSpeed a)
    (fun b => emitTrail env (capParticles b)) (checkCollisions env) e3 e4 e5 e6 _

/-- A tick in which nothing is spawned and the only obstacle takes the last life:
`gameOver()` runs inside `checkCollisions` and records the score of that moment; the
last statement of `update` then adds the time-based increment to the score. -/
theorem fatal_tick (env : Env α) (inp : Input α) (deltaTime : α) (g : Game α)
    (p : Player α) (m : Modifier α) (o : Obstacle α) (hp : g.player = some p)
    (hm : g.activeModifier = some m) (hd : m.effect.timeDilation ≠ some true)
    (hq : ∀ n, 1 / 2 ≤ env.random n) (hsd : deltaTime * g.timeScale ≤ 32)
    (hobs : g.obstacles = [o]) (hpu : g.powerUps = [])
    (hx : (o.update (deltaTime * g.timeScale)
      (updateTimers (deltaTime * g.timeScale) g).currentSpeed).x > -100)
    (hhit : (p.update env (deltaTime * g.timeScale) inp g.useVirtualJoystick).collidesWith env
      (o.update (deltaTime * g.timeScale)
        (updateTimers (deltaTime * g.timeScale) g).currentSpeed) = true)
    (hshield :
      (p.update env (deltaTime * g.timeScale) inp g.useVirtualJoystick).hasShield = false)
    (hph : ∀ c, m.effect.phaseCharges = some c → c ≤ 0) (hl : g.lives ≤ 1) :
    ∃ g7, update env inp deltaTime g = .ok g7 ∧ g7.gameState = GameState.gameOver ∧
      g7.highScore = (if g.score > g.highScore then g.score else g.highScore) ∧
      g7.storage = (if g.score > g.highScore then some g.score else g.storage) ∧
      g7.score = g.score +
        ((⌊1 / 10 * (deltaTime * g.timeScale) * orElse m.effect.pointMultiplier 1⌋ : Int) : α) := by
  obtain ⟨-, t2, -, t4, -⟩ := updateTimers_player (deltaTime * g.timeScale) g
  obtain ⟨-, u2, -, -, -, -⟩ := updateTimers_fields (deltaTime * g.timeScale) g
  obtain ⟨r1, r2, r3, r4, -⟩ := updateTimers_rest (deltaTime * g.timeScale) g
  have e3 := tick_head_quiet env inp deltaTime g p m hp hm hd hq hsd
  obtain ⟨g4, g5, g6, h4, ⟨ps, n, h5⟩, e6, e⟩ := update_after_head env inp deltaTime g _
    (p.update env (deltaTime * g.timeScale) inp g.useVirtualJoystick) m e3 rfl (t2.trans hm)
  have hp5 : g5.player =
      some (p.update env (deltaTime * g.timeScale) inp g.useVirtualJoystick) := by
    rw [h5, h4]
  have hm5 : g5.activeModifier = some m := by
    rw [h5, h4]
    exact t2.trans hm
  have hobs5 : g5.obstacles = [] ++ (o.update (deltaTime * g.timeScale)
      (updateTimers (deltaTime * g.timeScale) g).currentSpeed) :: [] := by
    rw [h5, h4]
    dsimp only
    rw [t4, hobs]
    simp [hx]
  have hpu5 : g5.powerUps = [] := by
    rw [h5, h4]
    dsimp only
    rw [r4, hpu]
    rfl
  have hl5 : g5.lives = g.lives := by
    rw [h5, h4]
    exact r1
  have hs5 : g5.score = g.score := by
    rw [h5, h4]
    exact u2
  have hh5 : g5.highScore = g.highScore := by
    rw [h5, h4]
    exact r2
  have hst5 : g5.storage = g.storage := by
    rw [h5, h4]
    exact r3
  obtain ⟨g6a, c1, c2, c3, c4, c5, c6, c7, c8, c9⟩ := obstacleCallback_fatal env
    (o.update (deltaTime * g.timeScale) (updateTimers (deltaTime * g.timeScale) g).currentSpeed)
    0 g5 _ m hp5 hm5 hhit hshield hph (by rw [hl5]; exact hl)
  have e6a : checkCollisions env g5 = .ok g6a :=
    checkCollisions_single_hit env g5 g6a _ [] [] _ hp5 hobs5 (by simp)
      (by rw [hpu5]; simp) c1 c2 (by rw [c4, hobs5]; rfl) c5
  have h66 : g6 = g6a := by
    rw [e6] at e6a
    exact Except.ok.inj e6a
  subst h66
  rw [updateScore_eq (deltaTime * g.timeScale) g6 m c3] at e
  refine ⟨_, e, c6, ?_, ?_, ?_⟩
  · show g6.highScore = _
    rw [c8, hs5, hh5]
  · show g6.storage = _
    rw [c9, hs5, hh5, hst5]
  · show g6.score + _ = _
    rw [c7, hs5]

end QuietTick

section QuietTickConcrete

/-- C22 (evaluation of the code at the failing input): a playing state with score 50,
high score 10, one life and an obstacle on the player; no draw spawns anything.  The tick
of 16 ms returns with the game over and the high score 50, the score `gameOver()`
recorded and stored, but with the score 51: the last statement of `update` has added
`floor(0.1 * 16 * 1) = 1` after `gameOver()` ran. -/
theorem score_grows_after_gameOver :
    (hitState : Game ℝ).gameState = GameState.playing ∧
    (hitState : Game ℝ).score = 50 ∧ (hitState : Game ℝ).highScore = 10 ∧
    ∃ g1, update calmEnv noInput 16 (hitState : Game ℝ) = .ok g1 ∧
      g1.gameState = GameState.gameOver ∧ g1.highScore = 50 ∧ g1.storage = some 50 ∧
      g1.score = 51 ∧ ¬ g1.score ≤ g1.highScore := by
  refine ⟨rfl, rfl, rfl, ?_⟩
  have hts : (hitState : Game ℝ).timeScale = 1 := rfl
  have hsz : (Player.new 100 300 (plainModifier : Modifier ℝ)).size = 20 := by
    simp [Player.new, plainModifier, orElse]
  have hspeed : (updateTimers (16 * (hitState : Game ℝ).timeScale)
      (hitState : Game ℝ)).currentSpeed = 2 := by
    rw [updateTimers_eq]
    simp [hitState, playingState, Game.initial]
  obtain ⟨hx, hy, hs⟩ := Player.update_idle calmEnv (Player.new 100 300 plainModifier)
    (16 * (hitState : Game ℝ).timeScale)
    (by rw [hsz]; norm_num [Player.new]) (by rw [hsz]; norm_num [Player.new, calmEnv])
    (by rw [hsz]; norm_num [Player.new]) (by rw [hsz]; norm_num [Player.new, calmEnv])
  have hu : (hitState : Game ℝ).useVirtualJoystick = false := rfl
  obtain ⟨g1, e, k1, k2, k3, k4⟩ := fatal_tick calmEnv noInput 16 (hitState : Game ℝ)
    (Player.new 100 300 plainModifier) plainModifier (Obstacle.new 100 300 30) rfl rfl
    (by simp [plainModifier]) (fun _ => by norm_num [calmEnv]) (by rw [hts]; norm_num)
    rfl rfl
    (by rw [hspeed, hts]; norm_num [Obstacle.update, Obstacle.new])
    (by
      rw [hspeed, hu]
      simp only [Player.collidesWith, Player.collidesAt, decide_eq_true_eq, hx, hy, hs, hsz]
      rw [Env.sqrt_lt_iff calmEnv (Env.sum_sq_nonneg _ _), hts]
      norm_num [Obstacle.update, Obstacle.new, Player.new])
    (by
      rw [hu, hts]
      simp [Player.update, Player.new])
    (by simp [plainModifier]) (by simp [hitState, playingState])
  have hsc : (hitState : Game ℝ).score = 50 := rfl
  have hhs : (hitState : Game ℝ).highScore = 10 := rfl
  have hf : ⌊(1 : ℝ) / 10 * (16 * 1) * 1⌋ = 1 := by
    rw [Int.floor_eq_iff]
    norm_num
  have hm1 : orElse (plainModifier : Modifier ℝ).effect.pointMultiplier 1 = 1 := by
    simp [plainModifier, orElse]
  rw [hsc, hhs] at k2 k3
  rw [hsc, hts, hm1, hf] at k4
  have h2 : g1.highScore = 50 := by rw [k2]; norm_num
  have h3 : g1.storage = some 50 := by rw [k3]; norm_num
  have h4 : g1.score = 51 := by rw [k4]; norm_num
  refine ⟨g1, e, k1, h2, h3, h4, ?_⟩
  rw [h2, h4]
  norm_num

end QuietTickConcrete

/-! ## The magnet pull at distance 0 -/

section MagnetZero

variable {α : Type} [LinearOrderedField α]

/-- The magnet step has no result exactly when the pull applies (magnet active, power-up
within range after its own movement) and the distance is 0: the pull then divides 0 by
0. -/
theorem magnetStep_eq_none_iff (env : Env α) (p : Player α) (m : Modifier α)
    (scaledDelta speed : α) (u : PowerUp α) :
    magnetStep env p m scaledDelta speed u = none ↔
      (p.hasMagnet || truthy m.effect.magnetRange) = true ∧
      env.sqrt (distSq p.x p.y (u.update scaledDelta speed).x (u.update scaledDelta speed).y) <
        orElse m.effect.magnetRange 1 * 150 ∧
      env.sqrt (distSq p.x p.y (u.update scaledDelta speed).x
        (u.update scaledDelta speed).y) = 0 := by
  unfold magnetStep distSq
  dsimp only
  by_cases h1 : (p.hasMagnet || truthy m.effect.magnetRange) = true
  · rw [if_pos h1]
    by_cases h2 : env.sqrt ((p.x - (u.update scaledDelta speed).x) *
        (p.x - (u.update scaledDelta speed).x) + (p.y - (u.update scaledDelta speed).y) *
        (p.y - (u.update scaledDelta speed).y)) < orElse m.effect.magnetRange 1 * 150
    · rw [if_pos h2]
      by_cases h3 : env.sqrt ((p.x - (u.update scaledDelta speed).x) *
          (p.x - (u.update scaledDelta speed).x) + (p.y - (u.update scaledDelta speed).y) *
          (p.y - (u.update scaledDelta speed).y)) = 0
      · rw [if_pos h3]
        exact ⟨fun _ => ⟨h1, h2, h3⟩, fun _ => rfl⟩
      · rw [if_neg h3]
        exact ⟨fun h => absurd h (by simp), fun h => absurd h.2.2 h3⟩
    · rw [if_neg h2]
      exact ⟨fun h => absurd h (by simp), fun h => absurd h.2.1 h2⟩
  · rw [if_neg h1]
    exact ⟨fun h => absurd h (by simp), fun h => absurd h.1 h1⟩

/-- A power-up that its own movement brings exactly onto the player, under an active
magnet with a positive range: the magnet step has no result. -/
theorem magnetStep_at_player (env : Env α) (p : Player α) (m : Modifier α)
    (scaledDelta speed : α) (u : PowerUp α)
    (hmag : (p.hasMagnet || truthy m.effect.magnetRange) = true)
    (hx : (u.update scaledDelta speed).x = p.x) (hy : (u.update scaledDelta speed).y = p.y)
    (hr : 0 < orElse m.effect.magnetRange 1 * 150) :
    magnetStep env p m scaledDelta speed u = none := by
  have h0 : env.sqrt (distSq p.x p.y (u.update scaledDelta speed).x
      (u.update scaledDelta speed).y) = 0 := by
    rw [hx, hy]
    unfold distSq
    rw [sub_self, sub_self, mul_zero, add_zero]
    exact Env.sqrt_zero env
  rw [magnetStep_eq_none_iff]
  exact ⟨hmag, by rw [h0]; exact hr, h0⟩

end MagnetZero

section MagnetZeroTick

variable {α : Type} [LinearOrderedField α] [FloorRing α]

/-- A tick in which nothing is spawned, there is no obstacle, and the magnet step has no
result for the only power-up: `update` returns with that power-up gone from the list,
the lives as they were and the score grown by the time-based increment only. -/
theorem magnet_tick_drops (env : Env α) (inp : Input α) (deltaTime : α) (g : Game α)
    (p : Player α) (m : Modifier α) (u : PowerUp α) (hp : g.player = some p)
    (hm : g.activeModifier = some m) (hd : m.effect.timeDilation ≠ some true)
    (hq : ∀ n, 1 / 2 ≤ env.random n) (hsd : deltaTime * g.timeScale ≤ 32)
    (hobs : g.obstacles = []) (hpu : g.powerUps = [u])
    (hnone : magnetStep env (p.update env (deltaTime * g.timeScale) inp g.useVirtualJoystick)
      m (deltaTime * g.timeScale) (updateTimers (deltaTime * g.timeScale) g).currentSpeed u =
        none) :
    ∃ g7, update env inp deltaTime g = .ok g7 ∧ g7.powerUps = [] ∧ g7.lives = g.lives ∧
      g7.score = g.score +
        ((⌊1 / 10 * (deltaTime * g.timeScale) * orElse m.effect.pointMultiplier 1⌋ : Int) : α) := by
  obtain ⟨-, t2, -, t4, -⟩ := updateTimers_player (deltaTime * g.timeScale) g
  obtain ⟨-, u2, -, -, -, -⟩ := updateTimers_fields (deltaTime * g.timeScale) g
  obtain ⟨r1, -, -, r4, -⟩ := updateTimers_rest (deltaTime * g.timeScale) g
  have e3 := tick_head_quiet env inp deltaTime g p m hp hm hd hq hsd
  obtain ⟨g4, g5, g6, h4, ⟨ps, n, h5⟩, e6, e⟩ := update_after_head env inp deltaTime g _
    (p.update env (deltaTime * g.timeScale) inp g.useVirtualJoystick) m e3 rfl (t2.trans hm)
  have hp5 : g5.player =
      some (p.update env (deltaTime * g.timeScale) inp g.useVirtualJoystick) := by
    rw [h5, h4]
  have hm5 : g5.activeModifier = some m := by
    rw [h5, h4]
    exact t2.trans hm
  have hobs5 : g5.obstacles = [] := by
    rw [h5, h4]
    dsimp only
    rw [t4, hobs]
    rfl
  have hpu5 : g5.powerUps = [] := by
    rw [h5, h4]
    dsimp only
    rw [r4, hpu]
    simp [hnone]
  have hl5 : g5.lives = g.lives := by
    rw [h5, h4]
    exact r1
  have hs5 : g5.score = g.score := by
    rw [h5, h4]
    exact u2
  have e6a : checkCollisions env g5 = .ok g5 := by
    unfold checkCollisions
    rw [checkObstacleCollisions_none env g5 _ hp5 (by rw [hobs5]; simp)]
    simp only [Except.bind]
    exact checkPowerUpCollisions_none env g5 _ hp5 (by rw [hpu5]; simp)
  have h66 : g6 = g5 := by
    rw [e6] at e6a
    exact Except.ok.inj e6a
  subst h66
  rw [updateScore_eq (deltaTime * g.timeScale) g6 m hm5] at e
  refine ⟨_, e, hpu5, hl5, ?_⟩
  show g6.score + _ = _
  rw [hs5]

end MagnetZeroTick

section MagnetZeroConcrete

/-- C23 (evaluation of the code at the failing input): the power-up at `(120, 300)` does
not touch the player at `(100, 300)`; in the tick of 16 ms at speed 20 its own movement
puts it at `(100, 300)`, the magnet step divides 0 by 0 and has no result (both
coordinates are `NaN`), and `update` returns with the power-up gone from the list
although it was not collected: the score 2250 has only grown by the time-based
increment 1. -/
theorem magnet_divides_by_zero :
    (magnetPlayer : Player ℝ).collidesWithPowerUp calmEnv
      (PowerUp.new 120 300 PowerUpType.score) = false ∧
    ((PowerUp.new 120 300 PowerUpType.score : PowerUp ℝ).update 16 20).x = 100 ∧
    ((PowerUp.new 120 300 PowerUpType.score : PowerUp ℝ).update 16 20).y = 300 ∧
    magnetStep calmEnv (magnetPlayer.update calmEnv 16 noInput false) plainModifier 16 20
      (PowerUp.new 120 300 PowerUpType.score) = none ∧
    ∃ g1, update calmEnv noInput 16 (magnetState : Game ℝ) = .ok g1 ∧
      g1.powerUps = [] ∧ g1.score = 2251 := by
  have hts : (magnetState : Game ℝ).timeScale = 1 := rfl
  have hu : (magnetState : Game ℝ).useVirtualJoystick = false := rfl
  have hsz : (magnetPlayer : Player ℝ).size = 20 := by
    simp [magnetPlayer, Player.new, plainModifier, orElse]
  have hpx : (magnetPlayer : Player ℝ).x = 100 := rfl
  have hpy : (magnetPlayer : Player ℝ).y = 300 := rfl
  have hspeed : (updateTimers (16 * (magnetState : Game ℝ).timeScale)
      (magnetState : Game ℝ)).currentSpeed = 20 := by
    rw [updateTimers_eq]
    simp [magnetState, playingState, Game.initial]
  obtain ⟨hx, hy, -⟩ := Player.update_idle calmEnv (magnetPlayer : Player ℝ) 16
    (by rw [hsz, hpx]; norm_num) (by rw [hsz, hpx]; norm_num [calmEnv])
    (by rw [hsz, hpy]; norm_num) (by rw [hsz, hpy]; norm_num [calmEnv])
  have hmag : ((magnetPlayer : Player ℝ).update calmEnv 16 noInput false).hasMagnet = true := by
    simp [Player.update, magnetPlayer]
    norm_num
  have hux : ((PowerUp.new 120 300 PowerUpType.score : PowerUp ℝ).update 16 20).x = 100 := by
    norm_num [PowerUp.update, PowerUp.new]
  have huy : ((PowerUp.new 120 300 PowerUpType.score : PowerUp ℝ).update 16 20).y = 300 := rfl
  have hnone : magnetStep calmEnv (magnetPlayer.update calmEnv 16 noInput false)
      plainModifier 16 20 (PowerUp.new 120 300 PowerUpType.score) = none :=
    magnetStep_at_player calmEnv _ plainModifier 16 20 _ (by rw [hmag]; rfl)
      (by rw [hux, hx, hpx]) (by rw [huy, hy, hpy])
      (by norm_num [plainModifier, orElse])
  refine ⟨?_, hux, huy, hnone, ?_⟩
  · simp only [Player.collidesWithPowerUp, Player.collidesAt, decide_eq_false_iff_not, hsz,
      hpx, hpy]
    rw [Env.sqrt_lt_iff calmEnv (Env.sum_sq_nonneg _ _)]
    norm_num [PowerUp.new]
  · obtain ⟨g1, e, k1, -, k3⟩ := magnet_tick_drops calmEnv noInput 16 (magnetState : Game ℝ)
      magnetPlayer plainModifier (PowerUp.new 120 300 PowerUpType.score) rfl rfl
      (by simp [plainModifier]) (fun _ => by norm_num [calmEnv]) (by rw [hts]; norm_num)
      rfl rfl (by rw [hspeed, hu, hts, mul_one]; exact hnone)
    refine ⟨g1, e, k1, ?_⟩
    have hf : ⌊(1 : ℝ) / 10 * (16 * 1) * 1⌋ = 1 := by
      rw [Int.floor_eq_iff]
      norm_num
    have hm1 : orElse (plainModifier : Modifier ℝ).effect.pointMultiplier 1 = 1 := by
      simp [plainModifier, orElse]
    have hsc : (magnetState : Game ℝ).score = 2250 := rfl
    rw [k3, hsc, hts, hm1, hf]
    norm_num

end MagnetZeroConcrete

/-! ## Copy on select: the modifier objects -/

section ObjectsBase

variable {α : Type}

theorem finalRef_liftResult (r : Except (Game α) (Game α)) (f : Game α → RefGame α) :
    finalRef (liftResult r f) = f (final r) := by
  cases r <;> rfl

theorem take_set_above {β : Type} (l : List β) (n a : Nat) (x : β) (h : n ≤ a) :
    (l.set a x).take n = l.take n :=
  List.ext_getElem? fun i => by
    rw [List.getElem?_take, List.getElem?_take]
    split
    · rw [List.getElem?_set_ne (by omega)]
    · rfl

end ObjectsBase

section Objects

variable {α : Type} [LinearOrderedField α]

theorem modifiers_length : (MODIFIERS : List (Modifier α)).length = 8 := rfl

theorem Separate.length_le (s : RefGame α) (h : Separate s) : 8 ≤ s.objects.length := by
  have h1 := congrArg List.length h.1
  rw [List.length_take, modifiers_length] at h1
  omega

/-- A new object appended to the store, referred to by `this.selectedModifier`. -/
theorem separate_select (s : RefGame α) (h : Separate s) (g : Game α) (m : Modifier α) :
    Separate { s with
      game := g, objects := s.objects ++ [m], selectedRef := some s.objects.length } := by
  have hl := Separate.length_le s h
  obtain ⟨h1, h2, h3, h4⟩ := h
  refine ⟨?_, ?_, ?_, ?_⟩
  · show (s.objects ++ [m]).take _ = _
    rw [List.take_append_of_le_length (by rw [modifiers_length]; exact hl)]
    exact h1
  · intro a ha
    have : s.objects.length = a := Option.some.inj ha
    subst this
    rw [modifiers_length]
    exact ⟨hl, by simp⟩
  · intro a ha
    obtain ⟨k1, k2⟩ := h3 a ha
    exact ⟨k1, by simp; omega⟩
  · intro a b ha hb
    have : s.objects.length = a := Option.some.inj ha
    subst this
    have := (h3 b hb).2
    omega

/-- A new object appended to the store, referred to by `this.activeModifier`. -/
theorem separate_activate (s : RefGame α) (h : Separate s) (g : Game α) (m : Modifier α) :
    Separate { s with
      game := g, objects := s.objects ++ [m], activeRef := some s.objects.length } := by
  have hl := Separate.length_le s h
  obtain ⟨h1, h2, h3, h4⟩ := h
  refine ⟨?_, ?_, ?_, ?_⟩
  · show (s.objects ++ [m]).take _ = _
    rw [List.take_append_of_le_length (by rw [modifiers_length]; exact hl)]
    exact h1
  · intro a ha
    obtain ⟨k1, k2⟩ := h2 a ha
    exact ⟨k1, by simp; omega⟩
  · intro a ha
    have : s.objects.length = a := Option.some.inj ha
    subst this
    rw [modifiers_length]
    exact ⟨hl, by simp⟩
  · intro a b ha hb
    have : s.objects.length = b := Option.some.inj hb
    subst this
    have := (h2 a ha).2
    omega

/-- A change of the fields alone. -/
theorem separate_fields (s : RefGame α) (h : Separate s) (g : Game α) :
    Separate { s with game := g } := h

/-- A change of the objects that keeps their number and the catalog objects. -/
theorem separate_objects (s : RefGame α) (h : Separate s) (g : Game α)
    (objs : List (Modifier α)) (hl : objs.length = s.objects.length)
    (ht : objs.take (MODIFIERS : List (Modifier α)).length =
      s.objects.take (MODIFIERS : List (Modifier α)).length) :
    Separate { s with game := g, objects := objs } := by
  obtain ⟨h1, h2, h3, h4⟩ := h
  refine ⟨ht.trans h1, ?_, ?_, h4⟩
  · intro b hb
    obtain ⟨j1, j2⟩ := h2 b hb
    exact ⟨j1, by show b < objs.length; rw [hl]; exact j2⟩
  · intro b hb
    obtain ⟨j1, j2⟩ := h3 b hb
    exact ⟨j1, by show b < objs.length; rw [hl]; exact j2⟩

/-- A write to the object `this.activeModifier` refers to. -/
theorem separate_write (s : RefGame α) (h : Separate s) (g : Game α) :
    Separate { s with
      game := g
      objects :=
        match s.activeRef, g.activeModifier with
        | some a, some m => s.objects.set a m
        | _, _ => s.objects } := by
  apply separate_objects s h
  · split
    · simp
    · rfl
  · split
    · rename_i a m ha hm
      exact take_set_above _ _ _ _ (h.2.2.1 a ha).1
    · rfl

/-- The reference `this.activeModifier` becomes `null`. -/
theorem separate_deactivate (s : RefGame α) (h : Separate s) (g : Game α) :
    Separate { s with game := g, activeRef := none } :=
  ⟨h.1, h.2.1, fun _ k => absurd k (by simp), fun _ _ _ k => absurd k (by simp)⟩

theorem separate_initial (highScore : α) (level : PerformanceLevel) :
    Separate (RefGame.initial highScore level) :=
  ⟨rfl, fun _ k => absurd k (by simp [RefGame.initial]),
    fun _ k => absurd k (by simp [RefGame.initial]),
    fun _ _ k => absurd k (by simp [RefGame.initial])⟩

theorem view_catalog (s : RefGame α) (h : Separate s) : s.view.catalog = MODIFIERS := h.1

theorem bind_lookup_congr {β : Type} (r : Option Nat) (l1 l2 : List β)
    (h : ∀ a, r = some a → l2[a]? = l1[a]?) :
    (r.bind fun a => l2[a]?) = r.bind fun a => l1[a]? := by
  cases r with
  | none => rfl
  | some a => exact h a rfl

theorem separate_selectModifier (s : RefGame α) (h : Separate s) (index : Int) :
    Separate (finalRef (selectModifierRef s index)) := by
  unfold selectModifierRef
  split
  · exact h
  · rw [finalRef_liftResult]
    exact separate_select s h _ _

theorem separate_initializeGame (env : Env α) (s : RefGame α) (h : Separate s) :
    Separate (finalRef (initializeGameRef env s)) := by
  unfold initializeGameRef
  split
  · rw [finalRef_liftResult]
    exact separate_deactivate s h _
  · rw [finalRef_liftResult]
    exact separate_activate s h _ _

theorem separate_fireTimer (env : Env α) (s : RefGame α) (h : Separate s) :
    Separate (finalRef (fireTimerRef env s)) := by
  unfold fireTimerRef
  split
  · exact h
  · exact separate_initializeGame env _ (separate_fields s h _)

/-- The effect of `selectModifier(index)` on the objects when the index is that of an
offered modifier with content `m`: a new object with that content is the selected one. -/
theorem selectModifierRef_eq (s : RefGame α) (index : Int) (m : Modifier α)
    (hc : currentModifier s.view index = some m) :
    selectModifierRef s index = .ok
      { s with
        game := { s.view with
          selectedModifier := some m
          audio := s.view.audio ++ [Cue.sfx "select"]
          pendingInits := s.view.pendingInits + 1 }
        objects := s.objects ++ [m]
        selectedRef := some s.objects.length } := by
  have e : selectModifier s.view index = .ok
      { s.view with
        selectedModifier := some m
        audio := s.view.audio ++ [Cue.sfx "select"]
        pendingInits := s.view.pendingInits + 1 } := by
    unfold selectModifier
    rw [hc]
    rfl
  unfold selectModifierRef
  rw [hc]
  dsimp only
  rw [e]
  rfl

/-- The effect of `initializeGame()` on the objects when the selected object has content
`m`: a new object with that content is the active one. -/
theorem initializeGameRef_eq (env : Env α) (s : RefGame α) (m : Modifier α)
    (hsel : s.view.selectedModifier = some m) :
    ∃ g, initializeGame env s.view = .ok g ∧
      initializeGameRef env s = .ok
        { s with game := g, objects := s.objects ++ [m], activeRef := some s.objects.length } := by
  obtain ⟨g, e⟩ : ∃ g, initializeGame env s.view = .ok g := ⟨_, initializeGame_eq env s.view m hsel⟩
  refine ⟨g, e, ?_⟩
  unfold initializeGameRef
  rw [hsel]
  dsimp only
  rw [e]
  rfl

end Objects

section ObjectsFloor

variable {α : Type} [LinearOrderedField α] [FloorRing α]

theorem separate_gameLoop (env : Env α) (inp : Input α) (currentTime : α) (s : RefGame α)
    (h : Separate s) : Separate (finalRef (gameLoopRef env inp currentTime s)) := by
  unfold gameLoopRef
  rw [finalRef_liftResult]
  exact separate_write s h _

/-- Every operation keeps the catalog and the run apart. -/
theorem separate_step (op : Op α) (s : RefGame α) (h : Separate s) :
    Separate (finalRef (stepRef op s)) := by
  cases op with
  | startGame shuffled => exact separate_fields s h _
  | selectModifier index => exact separate_selectModifier s h index
  | fireTimer env => exact separate_fireTimer env s h
  | restartGame => exact separate_fields s h _
  | frame env inp currentTime => exact separate_gameLoop env inp currentTime s h

theorem separate_run (ops : List (Op α)) :
    ∀ s : RefGame α, Separate s → Separate (runRef ops s) := by
  induction ops with
  | nil => intro s h; exact h
  | cons op rest ih => intro s h; exact ih _ (separate_step op s h)

/-- An operation other than the start action offers the same catalog objects. -/
theorem stepRef_currentModifiers (op : Op α) (s : RefGame α)
    (hno : ∀ shuffled, op ≠ Op.startGame shuffled) :
    (finalRef (stepRef op s)).view.currentModifiers = s.view.currentModifiers := by
  cases op with
  | startGame shuffled => exact absurd rfl (hno shuffled)
  | selectModifier index =>
    show (finalRef (selectModifierRef s index)).view.currentModifiers = _
    unfold selectModifierRef
    split
    · rfl
    · rw [finalRef_liftResult]
      exact (selectModifier_stable s.view index).2.2
  | fireTimer env =>
    show (finalRef (fireTimerRef env s)).view.currentModifiers = _
    unfold fireTimerRef
    split
    · rfl
    · unfold initializeGameRef
      split
      · rw [finalRef_liftResult]
        exact (initializeGame_stable env _).2.2
      · rw [finalRef_liftResult]
        exact (initializeGame_stable env _).2.2
  | restartGame => rfl
  | frame env inp currentTime =>
    show (finalRef (gameLoopRef env inp currentTime s)).view.currentModifiers = _
    unfold gameLoopRef
    rw [finalRef_liftResult]
    exact (gameLoop_stable env inp currentTime s.view).2.2.1

theorem runRef_currentModifiers (ops : List (Op α)) :
    ∀ s : RefGame α, (∀ op ∈ ops, ∀ shuffled, op ≠ Op.startGame shuffled) →
      (runRef ops s).view.currentModifiers = s.view.currentModifiers := by
  induction ops with
  | nil => intro s _; rfl
  | cons op rest ih =>
    intro s hno
    have e1 := stepRef_currentModifiers op s (hno op (List.mem_cons_self _ _))
    have e2 := ih (finalRef (stepRef op s)) (fun o ho => hno o (List.mem_cons_of_mem _ ho))
    exact e2.trans e1

/-- An operation other than a selection leaves the selected object as it is: the
reference is the same and so is the content, since a frame writes to the active object,
which is another one. -/
theorem stepRef_selected (op : Op α) (s : RefGame α) (h : Separate s)
    (hno : ∀ index, op ≠ Op.selectModifier index) :
    (finalRef (stepRef op s)).view.selectedModifier = s.view.selectedModifier := by
  cases op with
  | startGame shuffled => rfl
  | selectModifier index => exact absurd rfl (hno index)
  | fireTimer env =>
    show (finalRef (fireTimerRef env s)).view.selectedModifier = _
    unfold fireTimerRef
    split
    · rfl
    · unfold initializeGameRef
      split
      · rw [finalRef_liftResult]
        rfl
      · rw [finalRef_liftResult]
        refine bind_lookup_congr s.selectedRef s.objects _ ?_
        intro a ha
        exact List.getElem?_append_left (h.2.1 a ha).2
  | restartGame => rfl
  | frame env inp currentTime =>
    show (finalRef (gameLoopRef env inp currentTime s)).view.selectedModifier = _
    unfold gameLoopRef
    rw [finalRef_liftResult]
    refine bind_lookup_congr s.selectedRef s.objects _ ?_
    intro a ha
    dsimp only
    split
    · rename_i b m hb hm
      exact List.getElem?_set_ne (Ne.symm (h.2.2.2 a b ha hb))
    · rfl

theorem runRef_selected (ops : List (Op α)) :
    ∀ s : RefGame α, Separate s → (∀ op ∈ ops, ∀ index, op ≠ Op.selectModifier index) →
      (runRef ops s).view.selectedModifier = s.view.selectedModifier := by
  induction ops with
  | nil => intro s _ _; rfl
  | cons op rest ih =>
    intro s h hno
    have e1 := stepRef_selected op s h (hno op (List.mem_cons_self _ _))
    have e2 := ih (finalRef (stepRef op s)) (separate_step op s h)
      (fun o ho => hno o (List.mem_cons_of_mem _ ho))
    exact e2.trans e1

end ObjectsFloor

section PhaseTick

variable {α : Type} [LinearOrderedField α] [FloorRing α]

/-- A tick in which nothing is spawned and the only obstacle touches a player without
shield whose modifier has a phase charge left: the charge is used, and lives and state
stay as they were. -/
theorem phase_tick (env : Env α) (inp : Input α) (deltaTime : α) (g : Game α)
    (p : Player α) (m : Modifier α) (o : Obstacle α) (c : Int) (hp : g.player = some p)
    (hm : g.activeModifier = some m) (hd : m.effect.timeDilation ≠ some true)
    (hq : ∀ n, 1 / 2 ≤ env.random n) (hsd : deltaTime * g.timeScale ≤ 32)
    (hobs : g.obstacles = [o]) (hpu : g.powerUps = [])
    (hx : (o.update (deltaTime * g.timeScale)
      (updateTimers (deltaTime * g.timeScale) g).currentSpeed).x > -100)
    (hhit : (p.update env (deltaTime * g.timeScale) inp g.useVirtualJoystick).collidesWith env
      (o.update (deltaTime * g.timeScale)
        (updateTimers (deltaTime * g.timeScale) g).currentSpeed) = true)
    (hshield :
      (p.update env (deltaTime * g.timeScale) inp g.useVirtualJoystick).hasShield = false)
    (hph : m.effect.phaseCharges = some c) (hc : 0 < c) :
    ∃ g7, update env inp deltaTime g = .ok g7 ∧
      g7.activeModifier =
        some { m with effect := { m.effect with phaseCharges := some (c - 1) } } ∧
      g7.gameState = g.gameState ∧ g7.lives = g.lives ∧ g7.obstacles = [] := by
  obtain ⟨-, t2, -, t4, -⟩ := updateTimers_player (deltaTime * g.timeScale) g
  obtain ⟨r1, -, -, r4, r5⟩ := updateTimers_rest (deltaTime * g.timeScale) g
  have e3 := tick_head_quiet env inp deltaTime g p m hp hm hd hq hsd
  obtain ⟨g4, g5, g6, h4, ⟨ps, n, h5⟩, e6, e⟩ := update_after_head env inp deltaTime g _
    (p.update env (deltaTime * g.timeScale) inp g.useVirtualJoystick) m e3 rfl (t2.trans hm)
  have hp5 : g5.player =
      some (p.update env (deltaTime * g.timeScale) inp g.useVirtualJoystick) := by
    rw [h5, h4]
  have hm5 : g5.activeModifier = some m := by
    rw [h5, h4]
    exact t2.trans hm
  have hobs5 : g5.obstacles = [] ++ (o.update (deltaTime * g.timeScale)
      (updateTimers (deltaTime * g.timeScale) g).currentSpeed) :: [] := by
    rw [h5, h4]
    dsimp only
    rw [t4, hobs]
    simp [hx]
  have hpu5 : g5.powerUps = [] := by
    rw [h5, h4]
    dsimp only
    rw [r4, hpu]
    rfl
  have hl5 : g5.lives = g.lives := by
    rw [h5, h4]
    exact r1
  have hst5 : g5.gameState = g.gameState := by
    rw [h5, h4]
    exact r5
  have hcb := obstacleCallback_phase env
    (o.update (deltaTime * g.timeScale) (updateTimers (deltaTime * g.timeScale) g).currentSpeed)
    0 g5 _ m c hp5 hm5 hhit hshield hph hc
  rw [addExplosion_eq] at hcb
  obtain ⟨g6a, h6a, hcb1⟩ : ∃ g6a, g6a = { g5 with
      activeModifier := some { m with effect := { m.effect with phaseCharges := some (c - 1) } }
      obstacles := g5.obstacles.eraseIdx 0
      particles := g5.particles ++ burst env
        (o.update (deltaTime * g.timeScale)
          (updateTimers (deltaTime * g.timeScale) g).currentSpeed).x
        (o.update (deltaTime * g.timeScale)
          (updateTimers (deltaTime * g.timeScale) g).currentSpeed).y "#FFD700" g5.randIx
        (particleCount g5)
      randIx := g5.randIx + 3 * particleCount g5 } ∧
      obstacleCallback env (o.update (deltaTime * g.timeScale)
        (updateTimers (deltaTime * g.timeScale) g).currentSpeed) 0 g5 = .ok g6a :=
    ⟨_, rfl, hcb⟩
  have a1 : g6a.player = g5.player := by rw [h6a]
  have a2 : g6a.obstacles = g5.obstacles.eraseIdx 0 := by rw [h6a]
  have a3 : g6a.powerUps = g5.powerUps := by rw [h6a]
  have a4 : g6a.activeModifier =
      some { m with effect := { m.effect with phaseCharges := some (c - 1) } } := by rw [h6a]
  have a5 : g6a.gameState = g5.gameState := by rw [h6a]
  have a6 : g6a.lives = g5.lives := by rw [h6a]
  have e6a : checkCollisions env g5 = .ok g6a :=
    checkCollisions_single_hit env g5 g6a _ [] [] _ hp5 hobs5 (by simp)
      (by rw [hpu5]; simp) hcb1 (a1.trans hp5) (by rw [a2, hobs5]; rfl) a3
  have h66 : g6 = g6a := by
    rw [e6] at e6a
    exact Except.ok.inj e6a
  rw [h66, updateScore_eq (deltaTime * g.timeScale) g6a _ a4] at e
  refine ⟨_, e, a4, ?_, ?_, ?_⟩
  · show g6a.gameState = _
    rw [a5, hst5]
  · show g6a.lives = _
    rw [a6, hl5]
  · show g6a.obstacles = _
    rw [a2, hobs5]
    rfl

end PhaseTick

section PhaseTickConcrete

/-- The frame at time 16 in a state in the middle of a run with "Phase Walker" (player
at `(100, 300)`, charge still there, one obstacle on the player, no draw spawns
anything): the frame returns, and the active modifier is then "Phase Walker" with
`phaseCharges = 0`. -/
theorem phase_frame (g : Game ℝ) (hplay : g.gameState = GameState.playing)
    (hlast : g.lastTime = 0) (hts : g.timeScale = 1)
    (hp : g.player = some (Player.new 100 300 phaseWalker))
    (hm : g.activeModifier = some phaseWalker)
    (hobs : g.obstacles = [Obstacle.new 100 300 30]) (hpu : g.powerUps = [])
    (hu : g.useVirtualJoystick = false) (hgs : g.gameSpeed = 2) (hsl : g.slowTime = 0) :
    ∃ g1, gameLoop calmEnv noInput 16 g = .ok g1 ∧
      g1.activeModifier =
        some { (phaseWalker : Modifier ℝ) with effect := { phaseCharges := some 0 } } := by
  obtain ⟨g0, h0, e0⟩ : ∃ g0, g0 = { g with lastTime := 16, frameCount := g.frameCount + 1 } ∧
      gameLoop calmEnv noInput 16 g = update calmEnv noInput 16 g0 := by
    refine ⟨_, rfl, ?_⟩
    unfold gameLoop
    dsimp only
    rw [if_pos hplay, hlast]
    norm_num
  have hts0 : g0.timeScale = 1 := by rw [h0]; exact hts
  have hu0 : g0.useVirtualJoystick = false := by rw [h0]; exact hu
  have hsz : (Player.new 100 300 (phaseWalker : Modifier ℝ)).size = 20 := by
    simp [Player.new, phaseWalker, orElse]
  have hspeed : (updateTimers (16 * g0.timeScale) g0).currentSpeed = 2 := by
    obtain ⟨-, -, -, -, f5, f6⟩ := updateTimers_fields (16 * g0.timeScale) g0
    have e1 : g0.slowTime = 0 := by rw [h0]; exact hsl
    have e2 : g0.gameSpeed = 2 := by rw [h0]; exact hgs
    rw [f6, f5, e1, e2]
    norm_num
  obtain ⟨hx, hy, hs⟩ := Player.update_idle calmEnv (Player.new 100 300 phaseWalker)
    (16 * g0.timeScale)
    (by rw [hsz]; norm_num [Player.new]) (by rw [hsz]; norm_num [Player.new, calmEnv])
    (by rw [hsz]; norm_num [Player.new]) (by rw [hsz]; norm_num [Player.new, calmEnv])
  obtain ⟨g1, e, k1, -⟩ := phase_tick calmEnv noInput 16 g0
    (Player.new 100 300 phaseWalker) phaseWalker (Obstacle.new 100 300 30) 1
    (by rw [h0]; exact hp) (by rw [h0]; exact hm)
    (by simp [phaseWalker]) (fun _ => by norm_num [calmEnv]) (by rw [hts0]; norm_num)
    (by rw [h0]; exact hobs) (by rw [h0]; exact hpu)
    (by rw [hspeed, hts0]; norm_num [Obstacle.update, Obstacle.new])
    (by
      rw [hspeed, hu0]
      simp only [Player.collidesWith, Player.collidesAt, decide_eq_true_eq, hx, hy, hs, hsz]
      rw [Env.sqrt_lt_iff calmEnv (Env.sum_sq_nonneg _ _), hts0]
      norm_num [Obstacle.update, Obstacle.new, Player.new])
    (by
      rw [hu0, hts0]
      simp [Player.update, Player.new])
    rfl (by norm_num)
  exact ⟨g1, e0.trans e, k1⟩

end PhaseTickConcrete

section SameActiveRel

variable {α : Type}

theorem sameActive_refl (g : Game α) : SameActive g g := rfl

theorem sameActive_trans (a b c : Game α) (h1 : SameActive a b) (h2 : SameActive b c) :
    SameActive a c := by
  unfold SameActive at *
  rw [h2, h1]

theorem sameActive_of_field (g0 g g1 : Game α) (h : SameActive g0 g)
    (h1 : g1.activeModifier = g.activeModifier) : SameActive g0 g1 := by
  unfold SameActive at *
  rw [h1, h]

theorem capParticles_sameActive (g0 g : Game α) (h : SameActive g0 g) :
    SameActive g0 (capParticles g) := by
  unfold capParticles
  dsimp only
  repeat' split
  all_goals exact sameActive_of_field _ _ _ h rfl

end SameActiveRel

section SameActiveBase

variable {α : Type} [LinearOrderedField α]

theorem gameOver_sameActive (g0 g : Game α) (h : SameActive g0 g) :
    SameActive g0 (final (gameOver g)) := by
  refine sameActive_trans g0 g _ h ?_
  unfold gameOver playTheme
  by_cases hs : g.score > g.highScore
  · cases hm : g.activeModifier <;> simp [hs, hm, final, SameActive]
  · cases hm : g.activeModifier <;> simp [hs, hm, final, SameActive]

theorem addExplosion_sameActive (env : Env α) (x y : α) (c : String) (g0 g : Game α)
    (h : SameActive g0 g) : SameActive g0 (addExplosion env x y c g) := by
  rw [addExplosion_eq]; exact h

theorem obstacleCallback_sameActive (env : Env α) (o : Obstacle α) (k : Nat) (g : Game α) :
    SameActive g (final (obstacleCallback env o k g)) := by
  have h0 := sameActive_refl g
  unfold obstacleCallback
  split
  · exact h0
  · split
    · split
      · exact addExplosion_sameActive _ _ _ _ _ _ h0
      · split
        · exact h0
        · rename_i m hm
          split
          · refine addExplosion_sameActive _ _ _ _ _ _ ?_
            unfold SameActive
            rw [hm]
            rfl
          · dsimp only
            split
            · exact gameOver_sameActive _ _ (addExplosion_sameActive _ _ _ _ _ _ h0)
            · exact addExplosion_sameActive _ _ _ _ _ _ h0
    · exact h0

theorem foldl_addExplosion_sameActive (env : Env α) (c : String) (obs : List (Obstacle α)) :
    ∀ (g0 g : Game α), SameActive g0 g →
      SameActive g0 (obs.foldl (fun g ob => addExplosion env ob.x ob.y c g) g) := by
  induction obs with
  | nil => intro g0 g h; exact h
  | cons o rest ih =>
    intro g0 g h
    exact ih g0 _ (addExplosion_sameActive _ _ _ _ _ _ h)

theorem collectPowerUp_sameActive (env : Env α) (u : PowerUp α) (g : Game α) :
    SameActive g (final (collectPowerUp env u g)) := by
  have h0 := sameActive_refl g
  unfold collectPowerUp
  split
  · exact h0
  · split
    · exact h0
    · split <;> exact h0
    · split <;> exact h0
    · split <;> exact h0
    · exact h0
    · exact h0
    · exact foldl_addExplosion_sameActive env _ _ g _ h0

theorem powerUpCallback_sameActive (env : Env α) (u : PowerUp α) (k : Nat) (g : Game α) :
    SameActive g (final (powerUpCallback env u k g)) := by
  have h0 := sameActive_refl g
  unfold powerUpCallback
  split
  · exact h0
  · split
    · refine final_bind_rel SameActive sameActive_trans g _ _
        (collectPowerUp_sameActive env u g) ?_
      intro g1
      exact addExplosion_sameActive _ _ _ _ _ _ (sameActive_refl g1)
    · exact h0

theorem checkCollisions_sameActive (env : Env α) (g : Game α) :
    SameActive g (final (checkCollisions env g)) := by
  unfold checkCollisions
  refine final_bind_rel SameActive sameActive_trans g _ _ ?_ ?_
  · exact forEachFrom_rel SameActive sameActive_refl sameActive_trans _ _
      (obstacleCallback_sameActive env) _ _ g
  · intro g1
    exact forEachFrom_rel SameActive sameActive_refl sameActive_trans _ _
      (powerUpCallback_sameActive env) _ _ g1

theorem updateTimeDilation_sameActive (env : Env α) (g : Game α) :
    SameActive g (final (updateTimeDilation env g)) := by
  have h0 := sameActive_refl g
  unfold updateTimeDilation
  dsimp only
  split <;> exact h0

theorem updateGameObjects_sameActive (env : Env α) (scaledDelta speed : α) (g : Game α) :
    SameActive g (final (updateGameObjects env scaledDelta speed g)) := by
  have h0 := sameActive_refl g
  unfold updateGameObjects
  dsimp only
  split <;> exact h0

theorem emitTrail_sameActive (env : Env α) (g0 g : Game α) (h : SameActive g0 g) :
    SameActive g0 (final (emitTrail env g)) := by
  unfold emitTrail
  dsimp only [random]
  repeat' split
  all_goals exact sameActive_of_field _ _ _ h rfl

end SameActiveBase

section SameActiveUpdate

variable {α : Type} [LinearOrderedField α] [FloorRing α]

theorem spawnPowerUp_sameActive (env : Env α) (g0 g : Game α) (h : SameActive g0 g) :
    SameActive g0 (final (spawnPowerUp env g)) := by
  unfold spawnPowerUp
  dsimp only [random]
  split <;> exact h

theorem update_sameActive (env : Env α) (inp : Input α) (deltaTime : α) (g : Game α) :
    SameActive g (final (update env inp deltaTime g)) := by
  have hb := @final_bind_rel α SameActive sameActive_trans
  have h0 : SameActive g (updateTimers (deltaTime * g.timeScale) g) := by
    unfold updateTimers
    dsimp only
    split <;> exact sameActive_refl g
  rw [update_eq_stages]
  refine hb g _ _ ?_ ?_
  · unfold updatePlayer
    split <;> exact h0
  · intro g1
    refine hb g1 _ _ ?_ ?_
    · unfold updateDilation
      split
      · exact sameActive_refl g1
      · split
        · exact updateTimeDilation_sameActive env g1
        · exact sameActive_refl g1
    · intro g2
      refine hb g2 _ _ ?_ ?_
      · have h1 : SameActive g2 (obstacleTrial env (deltaTime * g.timeScale) g2) := by
          unfold obstacleTrial
          dsimp only [random]
          repeat' split
          all_goals exact sameActive_refl g2
        unfold powerUpTrial
        dsimp only [random]
        split
        · exact spawnPowerUp_sameActive env g2 _ h1
        · exact h1
      · intro g3
        refine hb g3 _ _ (updateGameObjects_sameActive env _ _ g3) ?_
        intro g4
        refine hb g4 _ _ ?_ ?_
        · exact emitTrail_sameActive env g4 _ (capParticles_sameActive g4 g4 (sameActive_refl g4))
        · intro g5
          refine hb g5 _ _ (checkCollisions_sameActive env g5) ?_
          intro g6
          unfold updateScore
          dsimp only
          split <;> exact sameActive_refl g6

theorem gameLoop_sameActive (env : Env α) (inp : Input α) (currentTime : α) (g : Game α) :
    SameActive g (final (gameLoop env inp currentTime g)) := by
  unfold gameLoop
  dsimp only
  split
  · exact sameActive_trans g { g with lastTime := currentTime, frameCount := g.frameCount + 1 } _
      (sameActive_refl g) (update_sameActive env inp _ _)
  · exact sameActive_refl g

end SameActiveUpdate

/-! ## The fields of the separated program -/

section ViewBase

variable {α : Type} [LinearOrderedField α]

/-- The view of a state with objects is given by its fields, the catalog objects and the
objects referred to. -/
theorem view_of_fields (s : RefGame α) (g : Game α)
    (h1 : s.objects.take (MODIFIERS : List (Modifier α)).length = g.catalog)
    (h2 : (s.selectedRef.bind fun a => s.objects[a]?) = g.selectedModifier)
    (h3 : (s.activeRef.bind fun a => s.objects[a]?) = g.activeModifier)
    (h0 : s.game = g) : s.view = g := by
  unfold RefGame.view
  rw [h1, h2, h3, h0]

theorem take_concat_catalog (s : RefGame α) (h : Separate s) (m : Modifier α) :
    (s.objects ++ [m]).take (MODIFIERS : List (Modifier α)).length = s.view.catalog :=
  List.take_append_of_le_length (by rw [modifiers_length]; exact Separate.length_le s h)

theorem selectModifierRef_view (s : RefGame α) (h : Separate s) (index : Int) :
    (finalRef (selectModifierRef s index)).view = final (selectModifier s.view index) := by
  cases hc : currentModifier s.view index with
  | none =>
    have e1 : selectModifierRef s index = .error s := by
      unfold selectModifierRef
      rw [hc]
    have e2 : selectModifier s.view index = .error s.view := by
      unfold selectModifier
      rw [hc]
    rw [e1, e2]
    rfl
  | some m =>
    have e2 : selectModifier s.view index = .ok
        { s.view with
          selectedModifier := some m
          audio := s.view.audio ++ [Cue.sfx "select"]
          pendingInits := s.view.pendingInits + 1 } := by
      unfold selectModifier
      rw [hc]
      rfl
    rw [selectModifierRef_eq s index m hc, e2]
    refine view_of_fields _ _ (take_concat_catalog s h m) (List.getElem?_concat_length _ _) ?_ rfl
    refine bind_lookup_congr s.activeRef s.objects _ ?_
    intro a ha
    exact List.getElem?_append_left (h.2.2.1 a ha).2

theorem initializeGame_none (env : Env α) (g : Game α) (hsel : g.selectedModifier = none) :
    (final (initializeGame env g)).catalog = g.catalog ∧
    (final (initializeGame env g)).selectedModifier = none ∧
    (final (initializeGame env g)).activeModifier = none := by
  unfold initializeGame applyModifier
  dsimp only [playTheme, playSFX]
  simp [hsel, final, Except.bind]

theorem initializeGameRef_view (env : Env α) (s : RefGame α) (h : Separate s) :
    (finalRef (initializeGameRef env s)).view = final (initializeGame env s.view) := by
  cases hsel : s.view.selectedModifier with
  | none =>
    obtain ⟨k1, k2, k3⟩ := initializeGame_none env s.view hsel
    have e : finalRef (initializeGameRef env s) =
        { s with game := final (initializeGame env s.view), activeRef := none } := by
      unfold initializeGameRef
      rw [hsel]
      exact finalRef_liftResult _ _
    rw [e]
    exact view_of_fields _ _ k1.symm (hsel.trans k2.symm) k3.symm rfl
  | some m =>
    obtain ⟨g, e1, e2⟩ := initializeGameRef_eq env s m hsel
    have e3 := initializeGame_eq env s.view m hsel
    have hg : g.catalog = s.view.catalog ∧ g.selectedModifier = s.view.selectedModifier ∧
        g.activeModifier = some m := by
      rw [e1] at e3
      rw [Except.ok.inj e3]
      exact ⟨rfl, rfl, rfl⟩
    rw [e2, e1]
    refine view_of_fields _ _ ((take_concat_catalog s h m).trans hg.1.symm) ?_
      ((List.getElem?_concat_length _ _).trans hg.2.2.symm) rfl
    refine Eq.trans (bind_lookup_congr s.selectedRef s.objects _ ?_) hg.2.1.symm
    intro a ha
    exact List.getElem?_append_left (h.2.1 a ha).2

theorem fireTimerRef_view (env : Env α) (s : RefGame α) (h : Separate s) :
    (finalRef (fireTimerRef env s)).view = final (fireTimer env s.view) := by
  unfold fireTimerRef fireTimer
  by_cases hp : s.game.pendingInits = 0
  · rw [if_pos hp, if_pos (show s.view.pendingInits = 0 from hp)]
    rfl
  · rw [if_neg hp, if_neg (show ¬ s.view.pendingInits = 0 from hp)]
    exact initializeGameRef_view env _ (separate_fields s h _)

end ViewBase

section View

variable {α : Type} [LinearOrderedField α] [FloorRing α]

theorem gameLoopRef_view (env : Env α) (inp : Input α) (currentTime : α) (s : RefGame α)
    (h : Separate s) :
    (finalRef (gameLoopRef env inp currentTime s)).view =
      final (gameLoop env inp currentTime s.view) := by
  obtain ⟨-, t2, -, t4, -⟩ := gameLoop_stable env inp currentTime s.view
  have t7 := gameLoop_sameActive env inp currentTime s.view
  obtain ⟨g, hg⟩ : ∃ g, g = final (gameLoop env inp currentTime s.view) := ⟨_, rfl⟩
  rw [← hg] at t2 t4 t7
  have e : finalRef (gameLoopRef env inp currentTime s) =
      { s with
        game := g
        objects :=
          match s.activeRef, g.activeModifier with
          | some a, some m => s.objects.set a m
          | _, _ => s.objects } := by
    unfold gameLoopRef
    rw [finalRef_liftResult, hg]
  rw [e, ← hg]
  have hobj := separate_write s h g
  refine view_of_fields _ _ ?_ ?_ ?_ rfl
  · exact (hobj.1.trans h.1.symm).trans t2.symm
  · refine Eq.trans (bind_lookup_congr s.selectedRef s.objects _ ?_) t4.symm
    intro a ha
    dsimp only
    split
    · rename_i b m hb hm
      exact List.getElem?_set_ne (Ne.symm (h.2.2.2 a b ha hb))
    · rfl
  · unfold SameActive at t7
    cases ha : s.activeRef with
    | none =>
      have hv : s.view.activeModifier = none := by
        show (s.activeRef.bind fun a => s.objects[a]?) = none
        rw [ha]
        rfl
      rw [hv] at t7
      cases hm : g.activeModifier with
      | none => rfl
      | some m => rw [hm] at t7; exact absurd t7 (by simp)
    | some a =>
      have hlt := (h.2.2.1 a ha).2
      have hv : s.view.activeModifier = s.objects[a]? := by
        show (s.activeRef.bind fun a => s.objects[a]?) = _
        rw [ha]
        rfl
      rw [hv, List.getElem?_eq_getElem hlt] at t7
      cases hm : g.activeModifier with
      | none => rw [hm] at t7; exact absurd t7 (by simp)
      | some m =>
        show (s.objects.set a m)[a]? = some m
        exact List.getElem?_set_self (by simpa using hlt)

/-- With the catalog and the run apart, an operation on the objects shows the fields that
the operation on the fields gives. -/
theorem stepRef_view (op : Op α) (s : RefGame α) (h : Separate s) :
    (finalRef (stepRef op s)).view = final (step op s.view) := by
  cases op with
  | startGame shuffled => rfl
  | selectModifier index => exact selectModifierRef_view s h index
  | fireTimer env => exact fireTimerRef_view env s h
  | restartGame => rfl
  | frame env inp currentTime => exact gameLoopRef_view env inp currentTime s h

theorem runRef_view (ops : List (Op α)) :
    ∀ s : RefGame α, Separate s → (runRef ops s).view = run ops s.view := by
  induction ops with
  | nil => intro s _; rfl
  | cons op rest ih =>
    intro s h
    show (runRef rest (finalRef (stepRef op s))).view = run rest (final (step op s.view))
    rw [ih _ (separate_step op s h), stepRef_view op s h]

end View

section CopyOnSelectObjects

variable {α : Type} [LinearOrderedField α] [FloorRing α]

/-- C7: copy on select, with the modifiers as objects.  From a state in which the catalog
objects have the contents of `MODIFIERS` and the selected and the active modifier are
objects of their own (as in the constructor's state, where both are `null`), after every
sequence of operations: the catalog objects still have the contents of `MODIFIERS`; the
selected and the active modifier are again objects of their own, neither a catalog object
nor one another; the fields read through the references are those that the operations
give on the fields alone, no write having reached a shared object; without a new start
action the offered modifiers are the same catalog objects, and reading an offered
modifier gives the entry of `MODIFIERS`; without a new selection the selected object has
the content it had.  Hence, whatever the frames wrote
through `this.activeModifier` (such as `phaseCharges--`), selecting an offered modifier
again returns and makes a new object with the content `m` of the `MODIFIERS` entry the
selected one, and after any further operations other than a selection `initializeGame`
returns and starts the next run with a new active object of content `m`, the catalog
being as in `MODIFIERS`. -/
theorem copy_on_select (ops : List (Op α)) (s : RefGame α) (h : Separate s) :
    (runRef ops s).view.catalog = MODIFIERS ∧
    Separate (runRef ops s) ∧
    (runRef ops s).view = run ops s.view ∧
    ((∀ op ∈ ops, ∀ shuffled, op ≠ Op.startGame shuffled) →
      (runRef ops s).view.currentModifiers = s.view.currentModifiers) ∧
    (∀ index : Int, 0 ≤ index →
      currentModifier (runRef ops s).view index =
        ((runRef ops s).view.currentModifiers[index.toNat]?).bind
          fun r => (MODIFIERS : List (Modifier α))[r]?) ∧
    ((∀ op ∈ ops, ∀ index, op ≠ Op.selectModifier index) →
      (runRef ops s).view.selectedModifier = s.view.selectedModifier) ∧
    (∀ (env : Env α) (index : Int) (r : Nat) (m : Modifier α), 0 ≤ index →
      (runRef ops s).view.currentModifiers[index.toNat]? = some r →
      (MODIFIERS : List (Modifier α))[r]? = some m →
      ∃ s1, selectModifierRef (runRef ops s) index = .ok s1 ∧
        s1.selectedRef = some (runRef ops s).objects.length ∧
        s1.view.selectedModifier = some m ∧
        ∀ ops2 : List (Op α), (∀ op ∈ ops2, ∀ index2, op ≠ Op.selectModifier index2) →
          ∃ s2, initializeGameRef env (runRef ops2 s1) = .ok s2 ∧
            s2.activeRef = some (runRef ops2 s1).objects.length ∧
            s2.view.activeModifier = some m ∧
            s2.view.catalog = MODIFIERS ∧ Separate s2) := by
  have hs := separate_run ops s h
  have hcur : ∀ index : Int, 0 ≤ index →
      currentModifier (runRef ops s).view index =
        ((runRef ops s).view.currentModifiers[index.toNat]?).bind
          fun r => (MODIFIERS : List (Modifier α))[r]? := by
    intro index hidx
    unfold currentModifier
    rw [if_pos hidx, view_catalog _ hs]
  refine ⟨view_catalog _ hs, hs, runRef_view ops s h, runRef_currentModifiers ops s, hcur,
    runRef_selected ops s h, ?_⟩
  intro env index r m hidx hr hm
  have hc : currentModifier (runRef ops s).view index = some m := by
    rw [hcur index hidx, hr]
    exact hm
  obtain ⟨s1, h1, e1⟩ : ∃ s1, s1 =
      { runRef ops s with
        game := { (runRef ops s).view with
          selectedModifier := some m
          audio := (runRef ops s).view.audio ++ [Cue.sfx "select"]
          pendingInits := (runRef ops s).view.pendingInits + 1 }
        objects := (runRef ops s).objects ++ [m]
        selectedRef := some (runRef ops s).objects.length } ∧
      selectModifierRef (runRef ops s) index = .ok s1 :=
    ⟨_, rfl, selectModifierRef_eq (runRef ops s) index m hc⟩
  have hs1 : Separate s1 := by
    rw [h1]
    exact separate_select (runRef ops s) hs _ m
  have hsel1 : s1.view.selectedModifier = some m := by
    rw [h1]
    exact List.getElem?_concat_length _ _
  refine ⟨s1, e1, by rw [h1], hsel1, ?_⟩
  intro ops2 hno
  have hs2 := separate_run ops2 s1 hs1
  have hsel2 : (runRef ops2 s1).view.selectedModifier = some m :=
    (runRef_selected ops2 s1 hs1 hno).trans hsel1
  obtain ⟨g, -, e2⟩ := initializeGameRef_eq env (runRef ops2 s1) m hsel2
  refine ⟨_, e2, rfl, List.getElem?_concat_length _ _, ?_, ?_⟩
  · exact view_catalog _ (separate_activate (runRef ops2 s1) hs2 g m)
  · exact separate_activate (runRef ops2 s1) hs2 g m

/-- What a frame that returns leaves in the store: the content of the active object is
the active modifier of the fields after the frame. -/
theorem gameLoopRef_objects (env : Env α) (inp : Input α) (currentTime : α) (s : RefGame α)
    (g1 : Game α) (a : Nat) (m : Modifier α)
    (e : gameLoop env inp currentTime s.view = .ok g1) (ha : s.activeRef = some a)
    (k : g1.activeModifier = some m) :
    (finalRef (gameLoopRef env inp currentTime s)).objects = s.objects.set a m := by
  unfold gameLoopRef
  rw [finalRef_liftResult, e]
  show (match s.activeRef, g1.activeModifier with
    | some a, some m => s.objects.set a m
    | _, _ => s.objects) = _
  rw [ha, k]

end CopyOnSelectObjects

section CopyOnSelectConcrete

theorem separate_phaseRunState : Separate (phaseRunState : RefGame ℝ) := by
  refine ⟨rfl, ?_, ?_, ?_⟩
  · intro a ha
    have : 8 = a := Option.some.inj ha
    subst this
    exact ⟨by rw [modifiers_length], by simp [phaseRunState, MODIFIERS]⟩
  · intro a ha
    have : 9 = a := Option.some.inj ha
    subst this
    exact ⟨by rw [modifiers_length]; omega, by simp [phaseRunState, MODIFIERS]⟩
  · intro a b ha hb
    have e1 : 8 = a := Option.some.inj ha
    have e2 : 9 = b := Option.some.inj hb
    omega

/-- The references of `phaseRunState` are those the program sets up: from the
constructor's state, the start action offering the catalog objects 6, 1 and 2, the
selection of the first card and the timer leave the same objects and references. -/
theorem phaseRunState_reached :
    (runRef [Op.startGame [6, 1, 2, 3, 4, 5, 0, 7], Op.selectModifier 0, Op.fireTimer calmEnv]
      (RefGame.initial (0 : ℝ) PerformanceLevel.high)).objects =
      (phaseRunState : RefGame ℝ).objects ∧
    (runRef [Op.startGame [6, 1, 2, 3, 4, 5, 0, 7], Op.selectModifier 0, Op.fireTimer calmEnv]
      (RefGame.initial (0 : ℝ) PerformanceLevel.high)).selectedRef = some 8 ∧
    (runRef [Op.startGame [6, 1, 2, 3, 4, 5, 0, 7], Op.selectModifier 0, Op.fireTimer calmEnv]
      (RefGame.initial (0 : ℝ) PerformanceLevel.high)).activeRef = some 9 :=
  ⟨rfl, rfl, rfl⟩

/-- The frame at time 16 in `phaseRunState` uses the charge: afterwards the active object
(object 9) is "Phase Walker" with `phaseCharges = 0`, and the selected object and the
catalog objects are as before. -/
theorem phaseRunState_frame :
    (runRef [Op.frame calmEnv noInput 16] (phaseRunState : RefGame ℝ)).objects =
      MODIFIERS ++ [phaseWalker,
        { (phaseWalker : Modifier ℝ) with effect := { phaseCharges := some 0 } }] := by
  obtain ⟨g1, e, k⟩ := phase_frame (phaseRunState : RefGame ℝ).view rfl rfl rfl rfl rfl rfl rfl
    rfl rfl rfl
  exact (gameLoopRef_objects calmEnv noInput 16 phaseRunState g1 9 _ e rfl k).trans rfl

/-- Without the copies the catalog would change: in `sharedRunState`, where the active
modifier is the catalog object 6 itself, the same frame leaves the catalog object 6 with
`phaseCharges = 0`, so that the catalog is no longer as in `MODIFIERS` and the card
offered first reads as a "Phase Walker" without charge. -/
theorem shared_frame_alters_catalog :
    (sharedRunState : RefGame ℝ).view.catalog = MODIFIERS ∧
    ¬ Separate (sharedRunState : RefGame ℝ) ∧
    (runRef [Op.frame calmEnv noInput 16] (sharedRunState : RefGame ℝ)).view.catalog ≠
      MODIFIERS ∧
    currentModifier (runRef [Op.frame calmEnv noInput 16] (sharedRunState : RefGame ℝ)).view 0 =
      some { (phaseWalker : Modifier ℝ) with effect := { phaseCharges := some 0 } } := by
  obtain ⟨g1, e, k⟩ := phase_frame (sharedRunState : RefGame ℝ).view rfl rfl rfl rfl rfl rfl rfl
    rfl rfl rfl
  have hobj : (runRef [Op.frame calmEnv noInput 16] (sharedRunState : RefGame ℝ)).objects =
      (MODIFIERS : List (Modifier ℝ)).set 6
        { (phaseWalker : Modifier ℝ) with effect := { phaseCharges := some 0 } } := by
    exact gameLoopRef_objects calmEnv noInput 16 sharedRunState g1 6 _ e rfl k
  have hcm : (runRef [Op.frame calmEnv noInput 16]
      (sharedRunState : RefGame ℝ)).view.currentModifiers = [6, 1, 2] :=
    (stepRef_currentModifiers (Op.frame calmEnv noInput 16) sharedRunState
      (fun _ k => by cases k)).trans rfl
  have hcat : (runRef [Op.frame calmEnv noInput 16] (sharedRunState : RefGame ℝ)).view.catalog =
      (MODIFIERS : List (Modifier ℝ)).set 6
        { (phaseWalker : Modifier ℝ) with effect := { phaseCharges := some 0 } } := by
    show List.take _ (runRef [Op.frame calmEnv noInput 16]
      (sharedRunState : RefGame ℝ)).objects = _
    rw [hobj]
    rfl
  refine ⟨rfl, ?_, ?_, ?_⟩
  · intro hsep
    have := (hsep.2.1 6 rfl).1
    rw [modifiers_length] at this
    omega
  · rw [hcat]
    intro hne
    have h6 : (((MODIFIERS : List (Modifier ℝ)).set 6
        { (phaseWalker : Modifier ℝ) with effect := { phaseCharges := some 0 } })[6]?).map
          (fun m => m.effect.phaseCharges) =
        ((MODIFIERS : List (Modifier ℝ))[6]?).map fun m => m.effect.phaseCharges := by
      rw [hne]
    have l6 : (((MODIFIERS : List (Modifier ℝ)).set 6
        { (phaseWalker : Modifier ℝ) with effect := { phaseCharges := some 0 } })[6]?).map
          (fun m => m.effect.phaseCharges) = some (some 0) := rfl
    have r6 : ((MODIFIERS : List (Modifier ℝ))[6]?).map (fun m => m.effect.phaseCharges) =
        some (some 1) := rfl
    rw [l6, r6] at h6
    simp at h6
  · unfold currentModifier
    rw [if_pos le_rfl, hcm, hcat]
    rfl

/-- Witness of C7: in `phaseRunState` a frame uses the phase charge (the active object
then has `phaseCharges = 0`).  After that frame, the restart action and a start action
that offers "Phase Walker" first, the catalog is as in `MODIFIERS`; selecting the first
card returns, and after another frame `initializeGame` returns and starts the next run
with `phaseCharges = 1`. -/
theorem copy_on_select_witness :
    Separate (phaseRunState : RefGame ℝ) ∧
    (runRef [Op.frame calmEnv noInput 16] (phaseRunState : RefGame ℝ)).objects[9]? =
      some { (phaseWalker : Modifier ℝ) with effect := { phaseCharges := some 0 } } ∧
    (runRef [Op.frame calmEnv noInput 16, Op.restartGame, Op.startGame [6, 0, 1, 2, 3, 4, 5, 7]]
      (phaseRunState : RefGame ℝ)).view.catalog = MODIFIERS ∧
    ∃ s1 s2, selectModifierRef
        (runRef [Op.frame calmEnv noInput 16, Op.restartGame,
          Op.startGame [6, 0, 1, 2, 3, 4, 5, 7]] (phaseRunState : RefGame ℝ)) 0 = .ok s1 ∧
      initializeGameRef calmEnv (runRef [Op.frame calmEnv noInput 32] s1) = .ok s2 ∧
      s2.view.activeModifier.map (fun m => m.effect.phaseCharges) = some (some 1) ∧
      s2.view.catalog = MODIFIERS := by
  obtain ⟨h1, -, -, -, -, -, h6⟩ := copy_on_select
    [Op.frame calmEnv noInput 16, Op.restartGame, Op.startGame [6, 0, 1, 2, 3, 4, 5, 7]]
    (phaseRunState : RefGame ℝ) separate_phaseRunState
  obtain ⟨s1, e1, -, -, h7⟩ := h6 calmEnv 0 6 phaseWalker le_rfl rfl rfl
  obtain ⟨s2, e2, -, k1, k2, -⟩ := h7 [Op.frame calmEnv noInput 32]
    (fun op hop index => by
      rw [List.mem_singleton] at hop
      rw [hop]
      intro k
      cases k)
  refine ⟨separate_phaseRunState, ?_, h1, s1, s2, e1, e2, ?_, k2⟩
  · rw [phaseRunState_frame]
    rfl
  · rw [k1]
    rfl

end CopyOnSelectConcrete

end TheOriginalGame
